import Mathlib

/-!
Verification development for the fig-mcp repository.

This file shallowly embeds the parser and renderer of the repository in Lean 4
and proves (or refutes) the frozen specification claims about them.

Modelling conventions, used uniformly below:

* JavaScript numbers are embedded as exact rationals (`ℚ`).  IEEE-754
  non-finite values (NaN, ±Infinity) are outside the rational model; the one
  place the source inspects finiteness (`Number.isFinite` on decoded segment
  handles) is modelled by an `Option ℚ` float reader.
* JavaScript dynamic values (the output of the schema decoder, i.e. the
  "decoded value" tree of the spec: primitives, sequences and string-keyed
  records) are embedded as the inductive `JSVal`.  Field lookup on a record
  returns `JSVal.undef` when the field is absent, matching JavaScript
  property access on plain data objects.
* `Uint8Array` values are embedded as `List ℕ` with entries below 256.
* A JavaScript `Map` is embedded as an association list with JS `Map.set`
  semantics (replace-in-place on an existing key, append otherwise).
* TypeScript optional fields (`field?: T`) become `Option` fields.  A node's
  `children` field is embedded as a plain list: at every use site in the
  sources an absent `children` and an empty array behave identically.
* External libraries (`pako.inflateRaw`, `fzstd.decompress`) are not part of
  the repository; functions that call them take them as explicit function
  parameters.
-/

/-! ## Basic utilities -/

/-- Association-list lookup, first match wins (JS `Map.get`). -/
def mapGet {α : Type} : List (String × α) → String → Option α
  | [], _ => none
  | (k', v) :: rest, k => if k' = k then some v else mapGet rest k

/-- JS `Map.set`: replace the value in place if the key exists, else append. -/
def mapSet {α : Type} : List (String × α) → String → α → List (String × α)
  | [], k, v => [(k, v)]
  | (k', v') :: rest, k, v =>
      if k' = k then (k, v) :: rest else (k', v') :: mapSet rest k v

/-- The `if (!m.has(k)) m.set(k, []); m.get(k).push(x)` idiom on a JS map of
arrays. -/
def mapPush {α : Type} : List (String × List α) → String → α → List (String × List α)
  | [], k, x => [(k, [x])]
  | (k', l) :: rest, k, x =>
      if k' = k then (k', l ++ [x]) :: rest else (k', l) :: mapPush rest k x

/-- Rendering of a JS number as a string.  Integral rationals print like JS
integers; non-integral ones use a numerator/denominator form (an embedding
representation: the claims never compare the decimal expansion itself). -/
def jsNumToString (q : ℚ) : String :=
  if q.den = 1 then toString q.num else toString q.num ++ "/" ++ toString q.den

/-! ## JS dynamic values -/

/-- The dynamic value tree produced by the schema decoder: primitives, byte
arrays, ordered sequences and string-keyed records. -/
inductive JSVal where
  | undef
  | null
  | bool (b : Bool)
  | num (q : ℚ)
  | str (s : String)
  | bytes (bs : List ℕ)
  | arr (elems : List JSVal)
  | obj (fields : List (String × JSVal))
  deriving Repr, BEq, Inhabited

/-- Field lookup on a record's field list; absent fields read as `undefined`. -/
def getFieldL : List (String × JSVal) → String → JSVal
  | [], _ => .undef
  | (k', v) :: rest, k => if k' = k then v else getFieldL rest k

/-- JS property access `o[k]` on a dynamic value (non-objects yield
`undefined`; the sources only read fields off decoded data objects). -/
def getField : JSVal → String → JSVal
  | .obj fields, k => getFieldL fields k
  | _, _ => (.undef)

/-- JS truthiness of a dynamic value. -/
def jsTruthy : JSVal → Bool
  | .undef => false
  | .null => false
  | .bool b => b
  | .num q => q ≠ 0
  | .str s => s ≠ ""
  | .bytes _ => true
  | .arr _ => true
  | .obj _ => true

/-- JS `a || b`. -/
def jsOr (a b : JSVal) : JSVal := if jsTruthy a then a else b

/-- JS `a ?? b` (nullish coalescing). -/
def jsCoalesce (a b : JSVal) : JSVal :=
  match a with
  | .undef => b
  | .null => b
  | _ => a

/-- JS `String(v)` conversion (array/object cases abbreviated; the sources
apply this only to name-like primitive values). -/
def jsToString : JSVal → String
  | .undef => "undefined"
  | .null => "null"
  | .bool b => if b then "true" else "false"
  | .num q => jsNumToString q
  | .str s => s
  | .bytes _ => "[object Uint8Array]"
  | .arr _ => ""
  | .obj _ => "[object Object]"

/-- Read a dynamic value as a number (`typeof v === "number"` pattern). -/
def jsNum? : JSVal → Option ℚ
  | .num q => some q
  | _ => none

/-- Read a dynamic value as a string (`typeof v === "string"` pattern). -/
def jsStr? : JSVal → Option String
  | .str s => some s
  | _ => none

/-- Read a dynamic value as a boolean. -/
def jsBool? : JSVal → Option Bool
  | .bool b => some b
  | _ => none

/-- Read a dynamic value as a non-negative integer (used for blob indices,
which the documents store as unsigned integers). -/
def jsNat? : JSVal → Option ℕ
  | .num q => if q.den = 1 ∧ 0 ≤ q.num then some q.num.toNat else none
  | _ => none

/-- Elements of a dynamic array (`Array.isArray` pattern; non-arrays give
`none`). -/
def jsArr? : JSVal → Option (List JSVal)
  | .arr elems => some elems
  | _ => none

/-! ## kiwi-parser: byte-level container decoding (src/parser/kiwi-parser.ts) -/

/-- ZSTD magic number (`kiwi-parser.ts` line 19). -/
def ZSTD_MAGIC : ℕ := 0xfd2fb528

/-- Read a little-endian uint32 from a byte buffer (`readUint32LE`).
Out-of-range reads contribute 0, as in the source (`undefined` coerces to 0
under the bitwise operators). -/
def readUint32LE (data : List ℕ) (offset : ℕ) : ℕ :=
  data.getD offset 0 + data.getD (offset + 1) 0 * 256 +
    data.getD (offset + 2) 0 * 65536 + data.getD (offset + 3) 0 * 16777216

/-- The compression scheme selected for a chunk.  This names the two branches
of `decompressChunk`. -/
inductive Scheme where
  | zstd
  | deflate
  deriving Repr, DecidableEq

/-- The scheme `decompressChunk` selects for a chunk: zstd exactly when the
first four bytes read as the little-endian u32 `0xFD2FB528`. -/
def chunkScheme (data : List ℕ) : Scheme :=
  if readUint32LE data 0 = ZSTD_MAGIC then .zstd else .deflate

/-- `decompressChunk`: decompress a buffer that might be deflate or zstd
compressed.  The two decompressors live in external libraries (`fzstd`,
`pako`) and are taken as function parameters. -/
def decompressChunk (inflateRaw zstdDecompress : List ℕ → List ℕ)
    (data : List ℕ) : List ℕ :=
  if readUint32LE data 0 = ZSTD_MAGIC then zstdDecompress data else inflateRaw data

/-- `hasFigKiwiMagic`: check whether the buffer starts with "fig-kiwi". -/
def hasFigKiwiMagic (data : List ℕ) : Bool :=
  decide (data.getD 0 0 = 102) && decide (data.getD 1 0 = 105) &&
  decide (data.getD 2 0 = 103) && decide (data.getD 3 0 = 45) &&
  decide (data.getD 4 0 = 107) && decide (data.getD 5 0 = 105) &&
  decide (data.getD 6 0 = 119) && decide (data.getD 7 0 = 105)

/-- The compressed schema chunk sliced out of a canvas.fig buffer
(`data.slice(16, 16 + sclen)` after magic, version and length fields). -/
def schemaChunkOf (data : List ℕ) : List ℕ :=
  (data.drop 16).take (readUint32LE data 12)

/-- The compressed data chunk sliced out of a canvas.fig buffer. -/
def dataChunkOf (data : List ℕ) : List ℕ :=
  (data.drop (20 + readUint32LE data 12)).take
    (readUint32LE data (16 + readUint32LE data 12))

/-- The byte-level result of `parseCanvasFig`: version plus the two
decompressed chunk buffers.  (Decoding the schema buffer itself is done by
the external `kiwi-schema` library and is outside this byte-level model.) -/
structure ParsedChunks where
  version : ℕ
  schemaBuffer : List ℕ
  dataBuffer : List ℕ
  deriving Repr, DecidableEq

/-- `parseCanvasFig`, byte-level part (lines 73-98): magic check, version,
the two length-prefixed compressed chunks, and decompression of both chunks
through `decompressChunk`.  The source throws on a bad magic; the embedding
returns `none`. -/
def parseCanvasFig (inflateRaw zstdDecompress : List ℕ → List ℕ)
    (data : List ℕ) : Option ParsedChunks :=
  if hasFigKiwiMagic data then
    some ⟨readUint32LE data 8,
      decompressChunk inflateRaw zstdDecompress (schemaChunkOf data),
      decompressChunk inflateRaw zstdDecompress (dataChunkOf data)⟩
  else none

/-! ## GUIDs and node types (src/parser/kiwi-parser.ts, src/parser/types.ts) -/

/-- `GUID`: pair of session and local identifiers (JS numbers). -/
structure GUID where
  sessionID : ℚ
  localID : ℚ
  deriving Repr, DecidableEq

/-- `parseGUID`: convert a raw parsed GUID object; non-objects give `null`,
non-numeric components default to 0. -/
def parseGUID (raw : JSVal) : Option GUID :=
  match raw with
  | .obj _ =>
      some ⟨(jsNum? (getField raw "sessionID")).getD 0,
            (jsNum? (getField raw "localID")).getD 0⟩
  | _ => none

/-- `formatGUID`: `"session:local"` display form, `"null"` for a null GUID. -/
def formatGUID (guid : Option GUID) : String :=
  match guid with
  | none => "null"
  | some g => jsNumToString g.sessionID ++ ":" ++ jsNumToString g.localID

/-- The closed `NodeType` enumeration of src/parser/types.ts. -/
inductive NodeType where
  | DOCUMENT | CANVAS | FRAME | GROUP | VECTOR | BOOLEAN_OPERATION | STAR
  | LINE | ELLIPSE | REGULAR_POLYGON | RECTANGLE | TEXT | SLICE | COMPONENT
  | COMPONENT_SET | INSTANCE | STICKY | SHAPE_WITH_TEXT | CONNECTOR | SECTION
  | TABLE | TABLE_CELL | WIDGET | STAMP | HIGHLIGHT | WASHI_TAPE | EMBED
  | LINK_UNFURL | MEDIA | CODE_BLOCK
  deriving Repr, DecidableEq, Inhabited

/-- The numeric rows of `getNodeTypeName`'s `typeMap`.  A JS number indexes
the map through its decimal string form, so only the integers 0..15 hit the
sixteen numeric keys. -/
def typeMapLookupNum (q : ℚ) : Option NodeType :=
  if q.den = 1 then
    match q.num with
    | 0 => some .DOCUMENT
    | 1 => some .CANVAS
    | 2 => some .FRAME
    | 3 => some .GROUP
    | 4 => some .VECTOR
    | 5 => some .BOOLEAN_OPERATION
    | 6 => some .STAR
    | 7 => some .LINE
    | 8 => some .ELLIPSE
    | 9 => some .REGULAR_POLYGON
    | 10 => some .RECTANGLE
    | 11 => some .TEXT
    | 12 => some .SLICE
    | 13 => some .COMPONENT
    | 14 => some .COMPONENT_SET
    | 15 => some .INSTANCE
    | _ => none
  else none

/-- The string rows of `getNodeTypeName`'s `typeMap`. -/
def typeMapLookupStr (s : String) : Option NodeType :=
  match s with
  | "DOCUMENT" => some .DOCUMENT
  | "CANVAS" => some .CANVAS
  | "FRAME" => some .FRAME
  | "GROUP" => some .GROUP
  | "VECTOR" => some .VECTOR
  | "BOOLEAN_OPERATION" => some .BOOLEAN_OPERATION
  | "STAR" => some .STAR
  | "LINE" => some .LINE
  | "ELLIPSE" => some .ELLIPSE
  | "REGULAR_POLYGON" => some .REGULAR_POLYGON
  | "RECTANGLE" => some .RECTANGLE
  | "TEXT" => some .TEXT
  | "SLICE" => some .SLICE
  | "COMPONENT" => some .COMPONENT
  | "COMPONENT_SET" => some .COMPONENT_SET
  | "INSTANCE" => some .INSTANCE
  | "STICKY" => some .STICKY
  | "SHAPE_WITH_TEXT" => some .SHAPE_WITH_TEXT
  | "CONNECTOR" => some .CONNECTOR
  | "SECTION" => some .SECTION
  | "TABLE" => some .TABLE
  | "TABLE_CELL" => some .TABLE_CELL
  | "WIDGET" => some .WIDGET
  | _ => none

/-- `typeMap` lookup for an arbitrary raw type value.  Values that are
neither numbers nor strings index the table through their string conversion
and match nothing. -/
def typeMapLookup (v : JSVal) : Option NodeType :=
  match v with
  | .num q => typeMapLookupNum q
  | .str s => typeMapLookupStr s
  | _ => none

/-- `getNodeTypeName`: map a raw type value to a `NodeType`, with "FRAME" as
the default fallback for absent or unrecognized values. -/
def getNodeTypeName (typeValue : JSVal) : NodeType :=
  match typeValue with
  | .undef => .FRAME
  | .null => .FRAME
  | v => (typeMapLookup v).getD .FRAME

/-! ## Typed scene-graph data model (src/parser/types.ts)

The renderer reads nodes through the TypeScript `SceneNode` interface; the
structures below embed exactly the fields the embedded functions read or
write.  Raw dynamic values are converted into this typed view by
`convertToFigNode` below. -/

/-- 2-D vector / point. -/
structure Vec2 where
  x : ℚ
  y : ℚ
  deriving Repr, DecidableEq

/-- The parser-side 2×3 transform (`Transform` of types.ts). -/
structure TransformM where
  m00 : ℚ
  m01 : ℚ
  m02 : ℚ
  m10 : ℚ
  m11 : ℚ
  m12 : ℚ
  deriving Repr, DecidableEq

/-- The renderer-side `TransformMatrix` (render-types.ts). -/
structure TMat where
  a : ℚ
  b : ℚ
  c : ℚ
  d : ℚ
  e : ℚ
  f : ℚ
  deriving Repr, DecidableEq

/-- `IDENTITY_TRANSFORM` (render-types.ts). -/
def IDENTITY_TRANSFORM : TMat := ⟨1, 0, 0, 1, 0, 0⟩

/-- RGBA color; the alpha channel is optional (`color.a ?? 1` in the
sources). -/
structure ColorR where
  r : ℚ
  g : ℚ
  b : ℚ
  a : Option ℚ := none
  deriving Repr, DecidableEq

/-- A paint, with the fields the embedded renderer reads.  `ptype` is the
paint's `type` tag string ("SOLID", "IMAGE", gradients, ...). -/
structure Paint where
  ptype : String := ""
  visible : Option Bool := none
  opacity : Option ℚ := none
  color : Option ColorR := none
  scaleMode : Option String := none
  imageScaleMode : Option String := none
  imageHashHex : Option String := none
  deriving Repr, DecidableEq

/-- An effect (drop shadow, inner shadow, blur). -/
structure EffectR where
  etype : String := ""
  visible : Option Bool := none
  radius : Option ℚ := none
  color : Option ColorR := none
  offset : Option Vec2 := none
  spread : Option ℚ := none
  deriving Repr, DecidableEq

/-- Text style (`TextStyle` of types.ts, the fields the sources touch). -/
structure TextStyleR where
  fontFamily : Option String := none
  fontPostScriptName : Option String := none
  fontStyle : Option String := none
  fontWeight : Option ℚ := none
  fontSize : Option ℚ := none
  textAlignHorizontal : Option String := none
  textAlignVertical : Option String := none
  letterSpacing : Option ℚ := none
  lineHeightPx : Option ℚ := none
  lineHeightPercent : Option ℚ := none
  lineHeightUnit : Option String := none
  textCase : Option String := none
  textDecoration : Option String := none
  textAutoResize : Option String := none
  deriving Repr, DecidableEq

/-- A per-line text baseline record (`TextBaseline`). -/
structure BaselineR where
  position : Vec2 := ⟨0, 0⟩
  width : ℚ := 0
  lineY : ℚ := 0
  lineHeight : ℚ := 0
  lineAscent : ℚ := 0
  firstCharacter : ℚ := 0
  endCharacter : ℚ := 0
  deriving Repr, DecidableEq

/-- Derived text layout data (`DerivedTextData`). -/
structure DerivedTextDataR where
  layoutSize : Vec2 := ⟨0, 0⟩
  baselines : List BaselineR := []
  deriving Repr, DecidableEq

/-- One entry of a textual path-command array (string command letters
interleaved with numeric operands). -/
inductive CmdTok where
  | s (letter : String)
  | n (value : ℚ)
  | other
  deriving Repr, DecidableEq

/-- A geometry path reference (`VectorPath`): a winding rule plus either a
blob index or an inline command array. -/
structure VectorPathR where
  windingRule : Option String := none
  commandsBlob : Option ℚ := none
  commands : Option (List CmdTok) := none
  deriving Repr, DecidableEq

/-- One endpoint of a structured vector-network segment. -/
structure VNEnd where
  vertex : ℚ := 0
  dx : Option ℚ := none
  dy : Option ℚ := none
  deriving Repr, DecidableEq

/-- A structured vector-network segment. -/
structure VNSeg where
  startE : VNEnd := {}
  endE : VNEnd := {}
  deriving Repr, DecidableEq

/-- A structured vector-network vertex. -/
structure VNVertexR where
  x : ℚ := 0
  y : ℚ := 0
  deriving Repr, DecidableEq

/-- The structured in-memory vector network (`VectorNetwork`). -/
structure VNetR where
  vertices : Option (List VNVertexR) := none
  segments : Option (List VNSeg) := none
  deriving Repr, DecidableEq

/-- Vector-specific node data (`VectorData`). -/
structure VectorDataR where
  vectorNetworkBlob : Option ℚ := none
  vectorNetwork : Option VNetR := none
  normalizedSize : Option Vec2 := none
  deriving Repr, DecidableEq

/-- A corner radius: a scalar or a per-corner record. -/
inductive CRadius where
  | num (q : ℚ)
  | quad (tl tr br bl : ℚ)
  deriving Repr, DecidableEq

/-- Instance symbol linkage: the referenced symbol id plus the raw override
entries (kept as a dynamic value, as in the source). -/
structure SymbolDataR where
  symbolID : Option GUID := none
  symbolOverrides : JSVal := .undef
  deriving Repr, Inhabited

/-- The non-recursive fields of a scene-graph node.  Fields the repository
never reads through a typed interface (constraints, layout, blend mode, ...)
are carried verbatim in `extraProps`. -/
structure NodeCore where
  guid : GUID := ⟨0, 0⟩
  type : NodeType := .FRAME
  name : String := ""
  visible : Bool := true
  opacity : Option ℚ := none
  x : Option ℚ := none
  y : Option ℚ := none
  width : Option ℚ := none
  height : Option ℚ := none
  size : Option Vec2 := none
  transform : Option TransformM := none
  fills : Option (List Paint) := none
  strokes : Option (List Paint) := none
  strokeWeight : Option ℚ := none
  strokeAlign : Option String := none
  strokeCap : Option String := none
  strokeJoin : Option String := none
  strokeDashes : Option (List ℚ) := none
  cornerRadius : Option CRadius := none
  effects : Option (List EffectR) := none
  isMask : Option Bool := none
  clipsContent : Option Bool := none
  characters : Option String := none
  style : Option TextStyleR := none
  derivedTextData : Option DerivedTextDataR := none
  fillGeometry : Option (List VectorPathR) := none
  strokeGeometry : Option (List VectorPathR) := none
  vectorData : Option VectorDataR := none
  symbolData : Option SymbolDataR := none
  extraProps : List (String × JSVal) := []

instance : Inhabited NodeCore := ⟨{}⟩

/-- A scene-graph node: a core record plus ordered children.  An absent
`children` array and an empty one behave identically at every use site in
the sources, so children are a plain list. -/
inductive Node where
  | mk (core : NodeCore) (children : List Node)

/-- The non-recursive part of a node. -/
def Node.core : Node → NodeCore
  | .mk c _ => c

/-- The ordered children of a node. -/
def Node.children : Node → List Node
  | .mk _ cs => cs

/-- Replace a node's children list. -/
def Node.withChildren : Node → List Node → Node
  | .mk c _, cs => .mk c cs

/-- Replace a node's core record. -/
def Node.withCore : Node → NodeCore → Node
  | .mk _ cs, c => .mk c cs

/-! ## Conversion of raw values into the typed view

`convertToFigNode` builds its node as a dynamic object; TypeScript then reads
that object through the `SceneNode` interface.  The converters below realize
those typed reads: each field is interpreted at the type the interface
declares (ill-typed field values, which the interface rules out, read as
absent). -/

/-- One hexadecimal digit. -/
def hexDigitChar (n : ℕ) : String :=
  match n with
  | 0 => "0" | 1 => "1" | 2 => "2" | 3 => "3" | 4 => "4"
  | 5 => "5" | 6 => "6" | 7 => "7" | 8 => "8" | 9 => "9"
  | 10 => "a" | 11 => "b" | 12 => "c" | 13 => "d" | 14 => "e" | 15 => "f"
  | _ => ""

/-- `b.toString(16).padStart(2, "0")` for a byte value. -/
def byteToHex (n : ℕ) : String := hexDigitChar (n / 16 % 16) ++ hexDigitChar (n % 16)

/-- `hashBytesToHex` (kiwi-parser.ts): read the 20 bytes stored under the
keys "0".."19" of a hash object and render them as lower-case hex. -/
def hashBytesToHex (hashObj : JSVal) : String :=
  String.join (((List.range 20).filterMap fun i =>
    match getField hashObj (toString i) with
    | .undef => none
    | v => some ((jsNat? v).getD 0)).map byteToHex)

/-- Typed read of a color object. -/
def jsToColor? (v : JSVal) : Option ColorR :=
  match v with
  | .obj _ =>
      some ⟨(jsNum? (getField v "r")).getD 0, (jsNum? (getField v "g")).getD 0,
            (jsNum? (getField v "b")).getD 0, jsNum? (getField v "a")⟩
  | _ => none

/-- Typed read of a paint object. -/
def jsToPaint (v : JSVal) : Paint :=
  { ptype := (jsStr? (getField v "type")).getD ""
    visible := jsBool? (getField v "visible")
    opacity := jsNum? (getField v "opacity")
    color := jsToColor? (getField v "color")
    scaleMode := jsStr? (getField v "scaleMode")
    imageScaleMode := jsStr? (getField v "imageScaleMode")
    imageHashHex :=
      if jsTruthy (getField (getField v "image") "hash") then
        some (hashBytesToHex (getField (getField v "image") "hash"))
      else none }

/-- Typed read of a paint array. -/
def jsToPaints? (v : JSVal) : Option (List Paint) :=
  (jsArr? v).map (·.map jsToPaint)

/-- Typed read of an effect object. -/
def jsToEffect (v : JSVal) : EffectR :=
  { etype := (jsStr? (getField v "type")).getD ""
    visible := jsBool? (getField v "visible")
    radius := jsNum? (getField v "radius")
    color := jsToColor? (getField v "color")
    offset :=
      match getField v "offset" with
      | .obj _ => some ⟨(jsNum? (getField (getField v "offset") "x")).getD 0,
                        (jsNum? (getField (getField v "offset") "y")).getD 0⟩
      | _ => none
    spread := jsNum? (getField v "spread") }

/-- Typed read of a 2×3 transform object. -/
def jsToTransform? (v : JSVal) : Option TransformM :=
  match v with
  | .obj _ =>
      some ⟨(jsNum? (getField v "m00")).getD 0, (jsNum? (getField v "m01")).getD 0,
            (jsNum? (getField v "m02")).getD 0, (jsNum? (getField v "m10")).getD 0,
            (jsNum? (getField v "m11")).getD 0, (jsNum? (getField v "m12")).getD 0⟩
  | _ => none

/-- Typed read of a corner radius (scalar number or per-corner record). -/
def jsToCRadius? (v : JSVal) : Option CRadius :=
  match v with
  | .num q => some (.num q)
  | .obj _ =>
      some (.quad ((jsNum? (getField v "topLeft")).getD 0)
        ((jsNum? (getField v "topRight")).getD 0)
        ((jsNum? (getField v "bottomRight")).getD 0)
        ((jsNum? (getField v "bottomLeft")).getD 0))
  | _ => none

/-- Typed read of a text style object. -/
def jsToTextStyle? (v : JSVal) : Option TextStyleR :=
  match v with
  | .obj _ =>
      some { fontFamily := jsStr? (getField v "fontFamily")
             fontPostScriptName := jsStr? (getField v "fontPostScriptName")
             fontStyle := jsStr? (getField v "fontStyle")
             fontWeight := jsNum? (getField v "fontWeight")
             fontSize := jsNum? (getField v "fontSize")
             textAlignHorizontal := jsStr? (getField v "textAlignHorizontal")
             textAlignVertical := jsStr? (getField v "textAlignVertical")
             letterSpacing := jsNum? (getField v "letterSpacing")
             lineHeightPx := jsNum? (getField v "lineHeightPx")
             lineHeightPercent := jsNum? (getField v "lineHeightPercent")
             lineHeightUnit := jsStr? (getField v "lineHeightUnit")
             textCase := jsStr? (getField v "textCase")
             textDecoration := jsStr? (getField v "textDecoration")
             textAutoResize := jsStr? (getField v "textAutoResize") }
  | _ => none

/-- Typed read of one entry of a textual command array. -/
def jsToCmdTok (v : JSVal) : CmdTok :=
  match v with
  | .str s => .s s
  | .num q => .n q
  | _ => .other

/-- Typed read of a geometry path reference. -/
def jsToVectorPath (v : JSVal) : VectorPathR :=
  { windingRule := jsStr? (getField v "windingRule")
    commandsBlob := jsNum? (getField v "commandsBlob")
    commands := (jsArr? (getField v "commands")).map (·.map jsToCmdTok) }

/-- Typed read of a structured vector-network segment endpoint. -/
def jsToVNEnd (v : JSVal) : VNEnd :=
  { vertex := (jsNum? (getField v "vertex")).getD 0
    dx := jsNum? (getField v "dx")
    dy := jsNum? (getField v "dy") }

/-- Typed read of the structured vector network. -/
def jsToVNet? (v : JSVal) : Option VNetR :=
  match v with
  | .obj _ =>
      some { vertices := (jsArr? (getField v "vertices")).map
               (·.map fun x => (⟨(jsNum? (getField x "x")).getD 0,
                                (jsNum? (getField x "y")).getD 0⟩ : VNVertexR))
             segments := (jsArr? (getField v "segments")).map
               (·.map fun s => (⟨jsToVNEnd (getField s "start"),
                                 jsToVNEnd (getField s "end")⟩ : VNSeg)) }
  | _ => none

/-- Typed read of a node's `vectorData`. -/
def jsToVectorData? (v : JSVal) : Option VectorDataR :=
  match v with
  | .obj _ =>
      some { vectorNetworkBlob := jsNum? (getField v "vectorNetworkBlob")
             vectorNetwork := jsToVNet? (getField v "vectorNetwork")
             normalizedSize :=
               match getField v "normalizedSize" with
               | .obj _ => some ⟨(jsNum? (getField (getField v "normalizedSize") "x")).getD 0,
                                 (jsNum? (getField (getField v "normalizedSize") "y")).getD 0⟩
               | _ => none }
  | _ => none

/-- `inferFontWeight` (kiwi-parser.ts): infer a numeric weight from a style
name. -/
def strIncludes (s sub : String) : Bool :=
  decide ((s.splitOn sub).length > 1) || decide (sub = "")

def inferFontWeight (styleName : String) : ℚ :=
  let name := styleName.toLower
  if strIncludes name "thin" then 100
  else if strIncludes name "extra light" || strIncludes name "ultra light" then 200
  else if strIncludes name "light" then 300
  else if strIncludes name "regular" || strIncludes name "normal" || strIncludes name "book" then 400
  else if strIncludes name "medium" then 500
  else if strIncludes name "semi bold" || strIncludes name "semibold" || strIncludes name "demi" then 600
  else if strIncludes name "bold" then 700
  else if strIncludes name "extra bold" || strIncludes name "extrabold" || strIncludes name "heavy" then 800
  else if strIncludes name "black" || strIncludes name "ultra black" then 900
  else 400

/-- `inferFontStyle` (kiwi-parser.ts). -/
def inferFontStyle (styleName : String) : String :=
  let name := styleName.toLower
  if strIncludes name "italic" then "italic"
  else if strIncludes name "oblique" then "oblique"
  else "normal"

mutual

/-- A structural size measure on dynamic values, used to seed recursion
fuel. -/
def jsMSize : JSVal → ℕ
  | .obj fields => 1 + jsMSizeFields fields
  | .arr elems => 1 + jsMSizeList elems
  | _ => 1

def jsMSizeList : List JSVal → ℕ
  | [] => 0
  | v :: rest => jsMSize v + jsMSizeList rest

def jsMSizeFields : List (String × JSVal) → ℕ
  | [] => 0
  | (_, v) :: rest => jsMSize v + jsMSizeFields rest

end

/-- `typeof v === "object" && v` guard (arrays and byte arrays are objects in
JS; `null` is already excluded by the truthiness check in the sources). -/
def jsIsObjectLike : JSVal → Bool
  | .obj _ => true
  | .arr _ => true
  | .bytes _ => true
  | _ => false

/-- Typed read of one `TextBaseline` record, with the defaults the source
applies (`typeof x === "number" ? x : 0`). -/
def jsToBaseline (b : JSVal) : BaselineR :=
  { position := ⟨(jsNum? (getField (getField b "position") "x")).getD 0,
                 (jsNum? (getField (getField b "position") "y")).getD 0⟩
    width := (jsNum? (getField b "width")).getD 0
    lineY := (jsNum? (getField b "lineY")).getD 0
    lineHeight := (jsNum? (getField b "lineHeight")).getD 0
    lineAscent := (jsNum? (getField b "lineAscent")).getD 0
    firstCharacter := (jsNum? (getField b "firstCharacter")).getD 0
    endCharacter := (jsNum? (getField b "endCharacter")).getD 0 }

/-- The initial object literal of `convertToFigNode`: guid, type, name and
visibility. -/
def convertBase (raw : JSVal) : NodeCore :=
  { guid := (parseGUID (jsOr (getField raw "guid") (getField raw "id"))).getD ⟨0, 0⟩
    type := getNodeTypeName (getField raw "type")
    name := jsToString (jsOr (getField raw "name") (.str "Unnamed"))
    visible := match getField raw "visible" with
               | .bool false => false
               | _ => true }

/-- The `fills ?? fillPaints` and `strokes ?? strokePaints` alias handling of
`convertToFigNode`. -/
def convertPaintAliases (raw : JSVal) (c0 : NodeCore) : NodeCore :=
  let c := match jsCoalesce (getField raw "fills") (getField raw "fillPaints") with
           | .undef => c0
           | v => { c0 with fills := jsToPaints? v }
  match jsCoalesce (getField raw "strokes") (getField raw "strokePaints") with
  | .undef => c
  | v => { c with strokes := jsToPaints? v }

/-- The `if (raw[prop] !== undefined)` guard of the propsToKeep copy loop:
apply the field update only when the scrutinized value is defined. -/
def ifDefined (s : JSVal) (c : NodeCore) (f : JSVal → NodeCore) : NodeCore :=
  match s with
  | .undef => c
  | v => f v

/-- The propsToKeep copy loop of `convertToFigNode`, part 1 (x .. strokes). -/
def convertProps1 (raw : JSVal) (c0 : NodeCore) : NodeCore :=
  let c := ifDefined (getField raw "x") c0 fun v => { c0 with x := jsNum? v }
  let c := ifDefined (getField raw "y") c fun v => { c with y := jsNum? v }
  let c := ifDefined (getField raw "width") c fun v => { c with width := jsNum? v }
  let c := ifDefined (getField raw "height") c fun v => { c with height := jsNum? v }
  let c := ifDefined (getField raw "rotation") c fun v =>
    { c with extraProps := c.extraProps ++ [("rotation", v)] }
  let c := ifDefined (getField raw "transform") c fun v =>
    { c with transform := jsToTransform? v }
  let c := ifDefined (getField raw "opacity") c fun v => { c with opacity := jsNum? v }
  let c := ifDefined (getField raw "blendMode") c fun v =>
    { c with extraProps := c.extraProps ++ [("blendMode", v)] }
  let c := ifDefined (getField raw "fills") c fun v => { c with fills := jsToPaints? v }
  ifDefined (getField raw "strokes") c fun v => { c with strokes := jsToPaints? v }

/-- The propsToKeep copy loop, part 2 (strokeWeight .. constraints). -/
def convertProps2 (raw : JSVal) (c0 : NodeCore) : NodeCore :=
  let c := ifDefined (getField raw "strokeWeight") c0 fun v =>
    { c0 with strokeWeight := jsNum? v }
  let c := ifDefined (getField raw "strokeAlign") c fun v =>
    { c with strokeAlign := jsStr? v }
  let c := ifDefined (getField raw "strokeCap") c fun v => { c with strokeCap := jsStr? v }
  let c := ifDefined (getField raw "strokeJoin") c fun v =>
    { c with strokeJoin := jsStr? v }
  let c := ifDefined (getField raw "strokeDashes") c fun v =>
    { c with strokeDashes := (jsArr? v).map (·.map fun x => (jsNum? x).getD 0) }
  let c := ifDefined (getField raw "strokeWeights") c fun v =>
    { c with extraProps := c.extraProps ++ [("strokeWeights", v)] }
  let c := ifDefined (getField raw "cornerRadius") c fun v =>
    { c with cornerRadius := jsToCRadius? v }
  let c := ifDefined (getField raw "effects") c fun v =>
    { c with effects := (jsArr? v).map (·.map jsToEffect) }
  ifDefined (getField raw "constraints") c fun v =>
    { c with extraProps := c.extraProps ++ [("constraints", v)] }

/-- The propsToKeep copy loop, part 3 (layoutMode .. vectorData). -/
def convertProps3 (raw : JSVal) (c0 : NodeCore) : NodeCore :=
  let c := ifDefined (getField raw "layoutMode") c0 fun v =>
    { c0 with extraProps := c0.extraProps ++ [("layoutMode", v)] }
  let c := ifDefined (getField raw "characters") c fun v =>
    { c with characters := jsStr? v }
  let c := ifDefined (getField raw "style") c fun v => { c with style := jsToTextStyle? v }
  let c := ifDefined (getField raw "backgroundColor") c fun v =>
    { c with extraProps := c.extraProps ++ [("backgroundColor", v)] }
  let c := ifDefined (getField raw "clipsContent") c fun v =>
    { c with clipsContent := jsBool? v }
  let c := ifDefined (getField raw "isMask") c fun v => { c with isMask := jsBool? v }
  let c := ifDefined (getField raw "fillGeometry") c fun v =>
    { c with fillGeometry := (jsArr? v).map (·.map jsToVectorPath) }
  let c := ifDefined (getField raw "strokeGeometry") c fun v =>
    { c with strokeGeometry := (jsArr? v).map (·.map jsToVectorPath) }
  ifDefined (getField raw "vectorData") c fun v =>
    { c with vectorData := jsToVectorData? v }

/-- The `textData.characters` fallback of `convertToFigNode`. -/
def convertTextDataChars (raw : JSVal) (c : NodeCore) : NodeCore :=
  if c.characters = none ∧ jsTruthy (getField (getField raw "textData") "characters") then
    { c with characters := jsStr? (getField (getField raw "textData") "characters") }
  else c

/-- The `derivedTextData` preservation block of `convertToFigNode`
(layoutSize and baselines are both required). -/
def convertDerivedTextData (raw : JSVal) (c : NodeCore) : NodeCore :=
  let ddV := getField raw "derivedTextData"
  if jsTruthy ddV ∧ jsTruthy (getField ddV "layoutSize") ∧
      jsTruthy (getField ddV "baselines") then
    match jsArr? (getField ddV "baselines") with
    | some bl =>
        let dd : DerivedTextDataR :=
          { layoutSize := ⟨(jsNum? (getField (getField ddV "layoutSize") "x")).getD 0,
                           (jsNum? (getField (getField ddV "layoutSize") "y")).getD 0⟩
            baselines := bl.map jsToBaseline }
        { c with derivedTextData := some dd }
    | none => c
  else c

/-- The style-inference block of `convertToFigNode`: when no `style` was
copied, synthesize one from fontName / fontSize / letterSpacing /
lineHeight. -/
def convertStyleInference (raw : JSVal) (c : NodeCore) : NodeCore :=
  if c.style = none then
    let fontNameV := getField raw "fontName"
    let fontSizeOpt := jsNum? (getField raw "fontSize")
    let letterSpacingV := getField raw "letterSpacing"
    let lineHeightV := getField raw "lineHeight"
    let fontStyleName := (jsStr? (getField fontNameV "style")).getD ""
    if jsTruthy fontNameV ||
        (match fontSizeOpt with | some q => decide (q ≠ 0) | none => false) ||
        jsTruthy letterSpacingV || jsTruthy lineHeightV then
      let st : TextStyleR :=
        { fontFamily := some ((jsStr? (getField fontNameV "family")).getD "Inter")
          fontPostScriptName := jsStr? (getField fontNameV "postscript")
          fontStyle := some (inferFontStyle fontStyleName)
          fontWeight := some ((jsNum? (getField raw "fontWeight")).getD
            (inferFontWeight fontStyleName))
          fontSize := some (fontSizeOpt.getD 14)
          textAlignHorizontal := some ((jsStr? (getField raw "textAlignHorizontal")).getD "LEFT")
          textAlignVertical := some ((jsStr? (getField raw "textAlignVertical")).getD "TOP")
          letterSpacing := some ((jsNum? (getField letterSpacingV "value")).getD 0)
          lineHeightPx :=
            match getField lineHeightV "units", jsNum? (getField lineHeightV "value") with
            | .str "PIXELS", some q => some q
            | _, _ => none
          lineHeightPercent :=
            match getField lineHeightV "units", jsNum? (getField lineHeightV "value") with
            | .str "PERCENT", some q => some q
            | _, _ => none
          lineHeightUnit := some
            (match getField lineHeightV "units" with
             | .str "PERCENT" => "FONT_SIZE_%"
             | .str "PIXELS" => "PIXELS"
             | _ => "INTRINSIC_%")
          textCase := jsStr? (getField raw "textCase")
          textDecoration := jsStr? (getField raw "textDecoration")
          textAutoResize := none }
      { c with style := some st }
    else c
  else c

/-- The position/size fallback from bounding boxes. -/
def convertBoundsFallback (raw : JSVal) (c : NodeCore) : NodeCore :=
  let boundsV := jsCoalesce (getField raw "absoluteBoundingBox")
    (jsCoalesce (getField raw "absoluteRenderBounds") (getField raw "bounds"))
  if jsTruthy boundsV then
    { c with x := c.x <|> jsNum? (getField boundsV "x")
             y := c.y <|> jsNum? (getField boundsV "y")
             width := c.width <|> jsNum? (getField boundsV "width")
             height := c.height <|> jsNum? (getField boundsV "height") }
  else c

/-- The original `size` field preservation (and width/height defaults). -/
def convertSizeField (raw : JSVal) (c : NodeCore) : NodeCore :=
  let sizeV := getField raw "size"
  match jsNum? (getField sizeV "x"), jsNum? (getField sizeV "y") with
  | some sx, some sy =>
      { c with size := some ⟨sx, sy⟩
               width := c.width <|> some sx
               height := c.height <|> some sy }
  | _, _ => c

/-- Position from the transform's translation column. -/
def convertTransformPosition (raw : JSVal) (c : NodeCore) : NodeCore :=
  let transformV := getField raw "transform"
  if jsTruthy transformV then
    { c with x := c.x <|> jsNum? (getField transformV "m02")
             y := c.y <|> jsNum? (getField transformV "m12") }
  else c

/-- The `symbolData` preservation for INSTANCE nodes. -/
def convertSymbolData (raw : JSVal) (c : NodeCore) : NodeCore :=
  let sdV := getField raw "symbolData"
  if jsTruthy sdV then
    let sd : SymbolDataR :=
      { symbolID := if jsTruthy (getField sdV "symbolID") then
                      parseGUID (getField sdV "symbolID")
                    else none
        symbolOverrides := getField sdV "symbolOverrides" }
    { c with symbolData := some sd }
  else c

/-- All field-population blocks of `convertToFigNode`, in source order. -/
def convertCore (raw : JSVal) : NodeCore :=
  convertSymbolData raw (convertTransformPosition raw (convertSizeField raw
    (convertBoundsFallback raw (convertStyleInference raw (convertDerivedTextData raw
      (convertTextDataChars raw (convertProps3 raw (convertProps2 raw (convertProps1 raw
        (convertPaintAliases raw (convertBase raw)))))))))))

/-- `convertToFigNode` (kiwi-parser.ts lines 337-531), fuelled.  The fuel
argument only drives Lean's termination through the `children` recursion; the
wrapper seeds it with a bound exceeding the value's nesting depth, so it
never changes the result. -/
def convertToFigNodeGo : ℕ → JSVal → Option Node
  | 0, _ => none
  | fuel + 1, raw =>
    if jsTruthy raw = false ∨ jsIsObjectLike raw = false then none else
    let children :=
      match jsArr? (getField raw "children") with
      | some elems => elems.filterMap (convertToFigNodeGo fuel)
      | none => []
    some (Node.mk (convertCore raw) children)

/-- `convertToFigNode`: convert a raw parsed node to the typed node view. -/
def convertToFigNode (raw : JSVal) : Option Node :=
  convertToFigNodeGo (jsMSize raw) raw

/-! ## Tree building (kiwi-parser.ts lines 229-311) -/

/-- The mutable state of `buildTreeFromNodeChanges`'s first pass: the
guid-to-node map, the parent-guid-to-children map, and the document node. -/
structure TreeBuildState where
  nodeMap : List (String × Node) := []
  childrenMap : List (String × List Node) := []
  documentNode : Option Node := none

/-- The parent key under which a node-change record is pushed, when the
record carries a truthy `parentIndex` with a truthy `guid` that parses. -/
def parentKeyOf (change : JSVal) : Option String :=
  let parentIndex := getField change "parentIndex"
  if jsTruthy parentIndex ∧ jsTruthy (getField parentIndex "guid") then
    (parseGUID (getField parentIndex "guid")).map (fun g => formatGUID (some g))
  else none

/-- One iteration of the first pass of `buildTreeFromNodeChanges`. -/
def buildStep (st : TreeBuildState) (change : JSVal) : TreeBuildState :=
  if jsTruthy change = false ∨ jsIsObjectLike change = false then st else
  match convertToFigNode change with
  | none => st
  | some node =>
    let nodeWithChildren := node.withChildren []
    let guidKey := formatGUID (some node.core.guid)
    let st := { st with nodeMap := mapSet st.nodeMap guidKey nodeWithChildren }
    let st :=
      match getField change "type" with
      | .str "DOCUMENT" => { st with documentNode := some nodeWithChildren }
      | _ => st
    match parentKeyOf change with
    | some parentKey =>
        { st with childrenMap := mapPush st.childrenMap parentKey nodeWithChildren }
    | none => st

/-- Reconstruction of the object graph knit by the second pass of
`buildTreeFromNodeChanges`: every materialized node's children are the group
collected under its guid.  The fuel bounds the depth of the reconstruction;
the wrapper seeds it with more fuel than any acyclic record set can use. -/
def attachChildren : ℕ → List (String × List Node) → Node → Node
  | 0, _, n => n
  | fuel + 1, cmap, n =>
      n.withChildren (((mapGet cmap (formatGUID (some n.core.guid))).getD []).map
        (attachChildren fuel cmap))

/-- `buildTreeFromNodeChanges`: build a tree from the flat nodeChanges array
using `parentIndex` references. -/
def buildTreeFromNodeChanges (nodeChanges : List JSVal) : Option Node :=
  let st := nodeChanges.foldl buildStep {}
  st.documentNode.map (attachChildren (nodeChanges.length + 1) st.childrenMap)

/-- `extractDocumentTree`: extract the document tree from a parsed message. -/
def extractDocumentTree (message : JSVal) : Option Node :=
  if jsTruthy (getField message "document") then
    convertToFigNode (getField message "document")
  else if jsTruthy (getField message "root") then
    convertToFigNode (getField message "root")
  else
    match jsArr? (getField message "nodeChanges") with
    | some ncs =>
        if ncs.length > 0 then buildTreeFromNodeChanges ncs
        else
          match jsArr? (getField message "nodes") with
          | some ns => if ns.length > 0 then buildTreeFromNodeChanges ns else none
          | none => none
    | none =>
        match jsArr? (getField message "nodes") with
        | some ns => if ns.length > 0 then buildTreeFromNodeChanges ns else none
        | none => none

/-! ## GUID indices (src/parser/index.ts) -/

mutual

/-- The preorder walk of `buildNodeIdIndex`: set this node under its
formatted guid, then walk the children. -/
def walkIdIndex (index : List (String × Node)) (n : Node) : List (String × Node) :=
  match n with
  | .mk core children =>
      walkIdIndexList (mapSet index (formatGUID (some core.guid)) (Node.mk core children))
        children

def walkIdIndexList (index : List (String × Node)) : List Node → List (String × Node)
  | [] => index
  | child :: rest => walkIdIndexList (walkIdIndex index child) rest

end

/-- `buildNodeIdIndex`: an O(1) guid lookup index for a document tree. -/
def buildNodeIdIndex (document : Node) : List (String × Node) :=
  walkIdIndex [] document

mutual

/-- The preorder walk of `buildNodePathIndex`, carrying the `/`-joined path
of the current node. -/
def walkPathIndex (index : List (String × String)) (n : Node) (path : String) :
    List (String × String) :=
  match n with
  | .mk core children =>
      let nodeId := formatGUID (some core.guid)
      let nodePath := if path = "" then nodeId else path ++ "/" ++ nodeId
      walkPathIndexList (mapSet index nodeId nodePath) children nodePath

def walkPathIndexList (index : List (String × String)) (ns : List Node) (path : String) :
    List (String × String) :=
  match ns with
  | [] => index
  | child :: rest => walkPathIndexList (walkPathIndex index child path) rest path

end

/-- `buildNodePathIndex`: guid to `/`-joined guid path index. -/
def buildNodePathIndex (document : Node) : List (String × String) :=
  walkPathIndex [] document ""

/-! ## Renderer output model

The source emits SVG fragments as strings.  The embedding keeps the emitted
elements structured (element kind, attribute list in emission order, numeric
attribute values as numbers); a serializer below renders them to the final
SVG string.  This keeps the claims about emitted attributes statable while
preserving the emission order and content of the source. -/

/-- An attribute value: a number or a string. -/
inductive AttrV where
  | num (q : ℚ)
  | str (s : String)
  deriving Repr, DecidableEq

/-- One segment of an SVG path `d` string (`buildSvgPath` output parts). -/
inductive PathPart where
  | close
  | move (p : Vec2)
  | line (p : Vec2)
  | quad (p1 p2 : Vec2)
  | cubic (p1 p2 p3 : Vec2)
  deriving Repr, DecidableEq

/-- A `tspan` child of a text element. -/
structure TSpanR where
  x : ℚ
  dy : ℚ
  text : String
  deriving Repr, DecidableEq

/-- An emitted SVG element. -/
inductive Elem where
  | rectE (attrs : List (String × AttrV))
  | pathE (d : List PathPart) (attrs : List (String × AttrV))
  | textE (attrs : List (String × AttrV)) (spans : List TSpanR)
  | imageE (attrs : List (String × AttrV))
  | gClip (clipId : String) (content : List Elem)
  | gFilter (filterId : String) (content : List Elem)
  deriving Repr

/-- One entry of the `defs` section: a clipPath or a shadow filter. -/
inductive DefE where
  | clipDef (id : String) (content : List Elem)
  | clipUserDef (id : String) (content : List Elem)
  | dropShadowSimpleDef (id : String) (dx dy stdDev : ℚ) (color : String)
  | dropShadowSpreadDef (id : String) (dx dy stdDev radius : ℚ) (dilate : Bool) (color : String)
  | innerShadowDef (id : String) (dx dy stdDev : ℚ) (color : String)
  deriving Repr

/-- `RenderContext` (render-types.ts): filter/clip definitions, the two id
counters, and the warnings vector. -/
structure RenderContext where
  defs : List DefE := []
  clipCounter : ℕ := 0
  shadowCounter : ℕ := 0
  warnings : List String := []
  deriving Repr

/-- `BlobEntry` (render-types.ts). -/
structure BlobEntry where
  bytes : List ℕ
  deriving Repr, DecidableEq

/-- `PathCommand` (render-types.ts): a numeric command code plus arguments. -/
structure PathCommand where
  cmd : ℕ
  values : List ℚ
  deriving Repr, DecidableEq

/-! ## render-utils.ts -/

/-- One character of `escapeXml`.  The source applies four sequential global
replacements (`&`, `<`, `>`, `"`); since none of the replacement strings
contains a character replaced later, this equals a single character map. -/
def escapeXmlChar (c : Char) : String :=
  if c = '&' then "&amp;"
  else if c = '<' then "&lt;"
  else if c = '>' then "&gt;"
  else if c = '"' then "&quot;"
  else String.mk [c]

/-- `escapeXml`: escape special characters for XML/SVG content. -/
def escapeXml (value : String) : String :=
  value.foldl (fun acc c => acc ++ escapeXmlChar c) ""

/-- `multiplyTransforms`: multiply two transform matrices. -/
def multiplyTransforms (parent child : TMat) : TMat :=
  { a := parent.a * child.a + parent.c * child.b
    b := parent.b * child.a + parent.d * child.b
    c := parent.a * child.c + parent.c * child.d
    d := parent.b * child.c + parent.d * child.d
    e := parent.a * child.e + parent.c * child.f + parent.e
    f := parent.b * child.e + parent.d * child.f + parent.f }

/-- `getLocalTransform`: the node's explicit matrix if present, else a pure
translation by `(x, y)`. -/
def getLocalTransform (node : Node) : TMat :=
  match node.core.transform with
  | some t => ⟨t.m00, t.m10, t.m01, t.m11, t.m02, t.m12⟩
  | none => ⟨1, 0, 0, 1, (node.core.x).getD 0, (node.core.y).getD 0⟩

/-- `transformPoint`: apply a transform matrix to a point. -/
def transformPoint (x y : ℚ) (t : TMat) : Vec2 :=
  ⟨t.a * x + t.c * y + t.e, t.b * x + t.d * y + t.f⟩

/-- An axis-aligned bounding box. -/
structure BoundsR where
  minX : ℚ
  minY : ℚ
  maxX : ℚ
  maxY : ℚ
  deriving Repr, DecidableEq

/-- The points a path command contributes to `computeCommandBounds`
(move/line: the endpoint; quad and the 2-point arc form: both value pairs;
cubic: all three value pairs; missing values read as 0). -/
def cmdBoundsPoints (c : PathCommand) : List Vec2 :=
  match c.cmd with
  | 1 => [⟨c.values.getD 0 0, c.values.getD 1 0⟩]
  | 2 => [⟨c.values.getD 0 0, c.values.getD 1 0⟩]
  | 3 => [⟨c.values.getD 0 0, c.values.getD 1 0⟩, ⟨c.values.getD 2 0, c.values.getD 3 0⟩]
  | 5 => [⟨c.values.getD 0 0, c.values.getD 1 0⟩, ⟨c.values.getD 2 0, c.values.getD 3 0⟩]
  | 4 => [⟨c.values.getD 0 0, c.values.getD 1 0⟩, ⟨c.values.getD 2 0, c.values.getD 3 0⟩,
          ⟨c.values.getD 4 0, c.values.getD 5 0⟩]
  | _ => []

/-- `computeCommandBounds`: bounding box of path commands (in local
coordinates, before transform); `none` when no command contributes a
point. -/
def computeCommandBounds (commands : List PathCommand) : Option BoundsR :=
  match commands.flatMap cmdBoundsPoints with
  | [] => none
  | p :: rest =>
      some (rest.foldl
        (fun b q => ⟨min b.minX q.x, min b.minY q.y, max b.maxX q.x, max b.maxY q.y⟩)
        ⟨p.x, p.y, p.x, p.y⟩)

/-- `buildSvgPath`: build the SVG path parts from commands, applying the
transform.  Unknown command codes contribute nothing (the source switch has
no default case). -/
def buildSvgPath (commands : List PathCommand) (transform : TMat) : List PathPart :=
  commands.flatMap fun c =>
    match c.cmd with
    | 0 => [.close]
    | 1 => [.move (transformPoint (c.values.getD 0 0) (c.values.getD 1 0) transform)]
    | 2 => [.line (transformPoint (c.values.getD 0 0) (c.values.getD 1 0) transform)]
    | 3 => [.quad (transformPoint (c.values.getD 0 0) (c.values.getD 1 0) transform)
                  (transformPoint (c.values.getD 2 0) (c.values.getD 3 0) transform)]
    | 5 => [.quad (transformPoint (c.values.getD 0 0) (c.values.getD 1 0) transform)
                  (transformPoint (c.values.getD 2 0) (c.values.getD 3 0) transform)]
    | 4 => [.cubic (transformPoint (c.values.getD 0 0) (c.values.getD 1 0) transform)
                   (transformPoint (c.values.getD 2 0) (c.values.getD 3 0) transform)
                   (transformPoint (c.values.getD 4 0) (c.values.getD 5 0) transform)]
    | _ => []

/-! ## paint-utils

The file src/renderer/paint-utils.ts is not part of the repository snapshot
(only its import list and re-exports are); the definitions below are
modelled from the spec. -/

/-- JS `Math.round`: round half away from zero upward. -/
def jsRound (q : ℚ) : ℤ := ⌊q + 1 / 2⌋

/-- Modelled from the spec: a SOLID paint's rgba() css string (missing file
paint-utils.ts; the spec describes SOLID paints as rgba colors rendered with
a locale-independent formatter). -/
def solidColorCss (c : ColorR) : String :=
  "rgba(" ++ toString (jsRound (c.r * 255)) ++ "," ++ toString (jsRound (c.g * 255)) ++
    "," ++ toString (jsRound (c.b * 255)) ++ "," ++ jsNumToString (c.a.getD 1) ++ ")"

/-- Modelled from the spec: `getPaints` of the missing paint-utils.ts reads
the node's fill or stroke paint list ("paints for fills and strokes"). -/
def getPaints (node : Node) (kind : String) : Option (List Paint) :=
  if kind = "fills" then node.core.fills
  else if kind = "strokes" then node.core.strokes
  else none

/-- Modelled from the spec: `getVisiblePaint` of the missing paint-utils.ts
picks the first paint not explicitly hidden. -/
def getVisiblePaint (paints : Option (List Paint)) : Option Paint :=
  match paints with
  | none => none
  | some ps => ps.find? (fun p => p.visible ≠ some false)

/-- Modelled from the spec: `paintToColor` of the missing paint-utils.ts
yields a css color only for SOLID paints; gradient, image, video and emoji
paints are unrenderable as plain colors. -/
def paintToColor (paint : Option Paint) : Option String :=
  match paint with
  | none => none
  | some p => if p.ptype = "SOLID" then p.color.map solidColorCss else none

/-- Modelled from the spec: `paintToImageHash` of the missing paint-utils.ts
returns the paint's 20-byte image hash as lower-case hex (the image map is
keyed by 40 lower-case hex characters). -/
def paintToImageHash (p : Paint) : Option String := p.imageHashHex

/-- Modelled from the spec: `detectImageFormat` of the missing
paint-utils.ts detects the format by magic bytes (FF D8 JPEG, 89 50 4E 47
PNG, 47 49 46 GIF, 52 49 46 46 WEBP). -/
def detectImageFormat (bs : List ℕ) : String :=
  if bs.getD 0 0 = 0xff ∧ bs.getD 1 0 = 0xd8 then "jpeg"
  else if bs.getD 0 0 = 0x89 ∧ bs.getD 1 0 = 0x50 ∧ bs.getD 2 0 = 0x4e ∧ bs.getD 3 0 = 0x47 then "png"
  else if bs.getD 0 0 = 0x47 ∧ bs.getD 1 0 = 0x49 ∧ bs.getD 2 0 = 0x46 then "gif"
  else if bs.getD 0 0 = 0x52 ∧ bs.getD 1 0 = 0x49 ∧ bs.getD 2 0 = 0x46 ∧ bs.getD 3 0 = 0x46 then "webp"
  else "png"

/-- Modelled from the spec: `getMimeType` of the missing paint-utils.ts. -/
def getMimeType (format : String) : String := "image/" ++ format

/-! ## vector-renderer.ts -/

/-- A decoded vector-network vertex. -/
structure DVertex where
  x : ℚ
  y : ℚ
  deriving Repr, DecidableEq

/-- A decoded vector-network segment endpoint (vertex index plus control
handle). -/
structure DSegEnd where
  vertex : ℚ
  dx : ℚ
  dy : ℚ
  deriving Repr, DecidableEq

/-- A decoded vector-network segment. -/
structure DSeg where
  startE : DSegEnd
  endE : DSegEnd
  deriving Repr, DecidableEq

/-- A decoded vector network. -/
structure DecodedVectorNetwork where
  vertices : List DVertex
  segments : List DSeg
  deriving Repr, DecidableEq

/-- JS array indexing by an arbitrary number: fractional or negative indices
read as `undefined`. -/
def ratGet {α : Type} (l : List α) (q : ℚ) : Option α :=
  if q.den = 1 ∧ 0 ≤ q.num then l.get? q.num.toNat else none

/-- IEEE-754 binary32 decoding of an assembled 32-bit word into an exact
rational; non-finite encodings (exponent field 255: NaN and ±Infinity) are
outside the rational model and read as `none`. -/
def f32FromBits (b : ℕ) : Option ℚ :=
  let sign : ℕ := b / 2 ^ 31 % 2
  let expo : ℕ := b / 2 ^ 23 % 256
  let frac : ℕ := b % 2 ^ 23
  if expo = 255 then none
  else
    let mag : ℚ :=
      if expo = 0 then (frac : ℚ) / 2 ^ 23 * (2 : ℚ) ^ (-(126 : ℤ))
      else (1 + (frac : ℚ) / 2 ^ 23) * (2 : ℚ) ^ ((expo : ℤ) - 127)
    some (if sign = 1 then -mag else mag)

/-- `DataView.getFloat32(offset, true)` over the byte list. -/
def dvGetFloat32 (bytes : List ℕ) (off : ℕ) : Option ℚ :=
  f32FromBits (readUint32LE bytes off)

/-- The vertex-reading loop of `decodeVectorNetworkBlob` (stride 12; x at
offset+4, y at offset+8).  The source stores the raw floats; non-finite
values are outside the rational model and read as 0 here. -/
def readBlobVertices : ℕ → ℕ → List ℕ → List DVertex
  | 0, _, _ => []
  | count + 1, off, bytes =>
      if off + 12 ≤ bytes.length then
        ⟨(dvGetFloat32 bytes (off + 4)).getD 0, (dvGetFloat32 bytes (off + 8)).getD 0⟩ ::
          readBlobVertices count (off + 12) bytes
      else []

/-- The segment-reading loop of `decodeVectorNetworkBlob` (stride 28).
Handles go through the source's `Number.isFinite(h) ? h : 0`; segments with
an out-of-range vertex index are skipped while the offset still advances. -/
def readBlobSegments : ℕ → ℕ → List ℕ → ℕ → List DSeg
  | 0, _, _, _ => []
  | count + 1, off, bytes, vcount =>
      if off + 28 ≤ bytes.length then
        let startVertex := readUint32LE bytes (off + 4)
        let endVertex := readUint32LE bytes (off + 16)
        let rest := readBlobSegments count (off + 28) bytes vcount
        if startVertex < vcount ∧ endVertex < vcount then
          { startE := ⟨(startVertex : ℚ), (dvGetFloat32 bytes (off + 8)).getD 0,
                       (dvGetFloat32 bytes (off + 12)).getD 0⟩
            endE := ⟨(endVertex : ℚ), (dvGetFloat32 bytes (off + 20)).getD 0,
                     (dvGetFloat32 bytes (off + 24)).getD 0⟩ } :: rest
        else rest
      else []

/-- `decodeVectorNetworkBlob` (vector-renderer.ts lines 51-114).  The `ctx`
parameter is read-only here: the source pushes a warning only from a catch
handler that cannot fire (every view access is bounds-guarded). -/
def decodeVectorNetworkBlob (blobIndex : Option ℚ) (blobs : List BlobEntry)
    (_ctx : RenderContext) : Option DecodedVectorNetwork :=
  match blobIndex with
  | none => none
  | some bi =>
    match ratGet blobs bi with
    | none => none
    | some blob =>
      let bytes := blob.bytes
      if bytes.length < 12 then none
      else
        let vertexCount := readUint32LE bytes 0
        let segmentCount := readUint32LE bytes 4
        if vertexCount > 1000 ∨ segmentCount > 1000 then none
        else
          let vertices := readBlobVertices vertexCount 12 bytes
          let segments :=
            readBlobSegments segmentCount (12 + 12 * vertices.length) bytes vertices.length
          some ⟨vertices, segments⟩

/-- `parseStructuredVectorNetwork`: the structured `vectorNetwork` object on
`vectorData`, preferred over the blob. -/
def parseStructuredVectorNetwork (vectorData : Option VectorDataR) :
    Option DecodedVectorNetwork :=
  match vectorData with
  | none => none
  | some vd =>
    match vd.vectorNetwork with
    | none => none
    | some vn =>
      match vn.vertices, vn.segments with
      | some vs, some segs =>
          if vs.length = 0 ∨ segs.length = 0 then none
          else
            some ⟨vs.map fun v => ⟨v.x, v.y⟩,
                  segs.map fun s =>
                    ⟨⟨s.startE.vertex, (s.startE.dx).getD 0, (s.startE.dy).getD 0⟩,
                     ⟨s.endE.vertex, (s.endE.dx).getD 0, (s.endE.dy).getD 0⟩⟩⟩
      | _, _ => none

/-- Argument counts of the binary path-command codes (`cmdArgCounts`). -/
def cmdArgCount (cmd : ℕ) : Option ℕ :=
  match cmd with
  | 0 => some 0
  | 1 => some 2
  | 2 => some 2
  | 3 => some 4
  | 4 => some 6
  | 5 => some 4
  | _ => none

/-- The float-argument reading loop of `decodePathCommands` (reads while
arguments remain and four bytes are available). -/
def readFloatArgs : ℕ → ℕ → List ℕ → List ℚ
  | 0, _, _ => []
  | count + 1, off, bytes =>
      if off + 4 ≤ bytes.length then
        (dvGetFloat32 bytes off).getD 0 :: readFloatArgs count (off + 4) bytes
      else []

/-- The command-reading loop of `decodePathCommands`; the fuel is seeded with
the byte length (each iteration consumes at least one byte). -/
def decodePathCommandsGo : ℕ → List ℕ → ℕ → List PathCommand
  | 0, _, _ => []
  | fuel + 1, bytes, offset =>
      if offset < bytes.length then
        let cmd := bytes.getD offset 0
        match cmdArgCount cmd with
        | none => []
        | some argCount =>
            let values := readFloatArgs argCount (offset + 1) bytes
            ⟨cmd, values⟩ :: decodePathCommandsGo fuel bytes (offset + 1 + 4 * values.length)
      else []

/-- `decodePathCommands`: decode path commands from a binary blob.  Unknown
codes terminate decoding; an empty result reads as `null`. -/
def decodePathCommands (blobIndex : Option ℚ) (blobs : List BlobEntry)
    (_ctx : RenderContext) : Option (List PathCommand) :=
  match blobIndex with
  | none => none
  | some bi =>
    match ratGet blobs bi with
    | none => none
    | some blob =>
      let commands := decodePathCommandsGo blob.bytes.length blob.bytes 0
      if commands.length > 0 then some commands else none

/-- The fold state of `decodePathCommandsFromArray`. -/
structure CmdArrayState where
  result : List PathCommand := []
  currentCmd : Option ℕ := none
  buffer : List ℚ := []

/-- One entry step of `decodePathCommandsFromArray`. -/
def cmdArrayStep (st : CmdArrayState) (entry : CmdTok) : CmdArrayState :=
  match entry with
  | .s letter =>
      let cmd : Option ℕ :=
        match letter.toUpper with
        | "M" => some 1
        | "L" => some 2
        | "Q" => some 3
        | "C" => some 4
        | "Z" => some 0
        | _ => none
      match cmd with
      | none => st
      | some 0 => { st with result := st.result ++ [⟨0, []⟩] }
      | some c => { st with currentCmd := some c, buffer := [] }
  | .n value =>
      match st.currentCmd with
      | none => st
      | some c =>
          let buffer := st.buffer ++ [value]
          let expected := (cmdArgCount c).getD 0
          if buffer.length = expected then
            { st with result := st.result ++ [⟨c, buffer⟩], buffer := [] }
          else { st with buffer := buffer }
  | .other => st

/-- `decodePathCommandsFromArray`: decode the textual command-array form. -/
def decodePathCommandsFromArray (commands : Option (List CmdTok)) :
    Option (List PathCommand) :=
  match commands with
  | none => none
  | some entries =>
      if entries.length = 0 then none
      else
        let st := entries.foldl cmdArrayStep {}
        if st.result.length > 0 then some st.result else none

/-- `createCenterlineFromNormalizedSize`: a straight line from (0,0) to
(width, height). -/
def createCenterlineFromNormalizedSize (normalizedSize : Vec2) : List PathCommand :=
  [⟨1, [0, 0]⟩, ⟨2, [normalizedSize.x, normalizedSize.y]⟩]

/-- Find the first unused segment whose start vertex matches, removing it
from the unused list (the inner `for` search of the centerline walk). -/
def extractConnected : List DSeg → ℚ → Option (DSeg × List DSeg)
  | [], _ => none
  | seg :: rest, current =>
      if seg.startE.vertex = current then some (seg, rest)
      else
        match extractConnected rest current with
        | some (s, r) => some (s, seg :: r)
        | none => none

/-- One segment's emitted command in the centerline walk: a cubic when any
handle exceeds 0.001 in absolute value, else a line. -/
def segCommand (v0 v1 : DVertex) (seg : DSeg) : PathCommand :=
  if |seg.startE.dx| > 1 / 1000 ∨ |seg.startE.dy| > 1 / 1000 ∨
      |seg.endE.dx| > 1 / 1000 ∨ |seg.endE.dy| > 1 / 1000 then
    ⟨4, [v0.x + seg.startE.dx, v0.y + seg.startE.dy,
         v1.x + seg.endE.dx, v1.y + seg.endE.dy, v1.x, v1.y]⟩
  else ⟨2, [v1.x, v1.y]⟩

/-- The while-loop of `createCenterlineFromNetwork`: walk the unused
segments, preferring one connected to the current vertex, else restarting a
subpath at the first unused segment.  Each iteration consumes exactly one
unused segment, so the fuel is seeded with the segment count. -/
def walkSegments : ℕ → List DVertex → List DSeg → ℚ → List PathCommand
  | 0, _, _, _ => []
  | fuel + 1, vertices, unused, current =>
      match extractConnected unused current with
      | some (seg, rest) =>
          (match ratGet vertices seg.startE.vertex, ratGet vertices seg.endE.vertex with
           | some v0, some v1 =>
               segCommand v0 v1 seg :: walkSegments fuel vertices rest seg.endE.vertex
           | _, _ => walkSegments fuel vertices rest current)
      | none =>
          match unused with
          | [] => []
          | seg :: rest =>
              let pre : List PathCommand :=
                match ratGet vertices seg.startE.vertex with
                | some v => [⟨1, [v.x, v.y]⟩]
                | none => []
              pre ++
                (match ratGet vertices seg.startE.vertex, ratGet vertices seg.endE.vertex with
                 | some v0, some v1 =>
                     segCommand v0 v1 seg :: walkSegments fuel vertices rest seg.endE.vertex
                 | _, _ => walkSegments fuel vertices rest current)

/-- The closing check of `createCenterlineFromNetwork`: append a close
command when the last endpoint returns to the start within 0.01. -/
def closeIfLoop (commands : List PathCommand) : List PathCommand :=
  if commands.length > 1 then
    match commands.head?, commands.getLast? with
    | some firstCmd, some lastCmd =>
        let startX := firstCmd.values.getD 0 0
        let startY := firstCmd.values.getD 1 0
        let lastVals := lastCmd.values
        let endX := if lastVals.length ≥ 2 then lastVals.getD (lastVals.length - 2) 0 else 0
        let endY := if lastVals.length ≥ 1 then lastVals.getD (lastVals.length - 1) 0 else 0
        if |startX - endX| < 1 / 100 ∧ |startY - endY| < 1 / 100 then
          commands ++ [⟨0, []⟩]
        else commands
    | _, _ => commands
  else commands

/-- Whether a vertex violates the `normalizedSize` tolerance check of
`createCenterlineFromNetwork` (tolerance 2 on both axes). -/
def vertexOutOfTolerance (ns : Vec2) (v : DVertex) : Bool :=
  v.x < -2 ∨ v.y < -2 ∨ v.x > ns.x + 2 ∨ v.y > ns.y + 2

/-- `createCenterlineFromNetwork` (vector-renderer.ts lines 244-358): build
the centerline path from a decoded network, rejecting empty networks,
networks with only degenerate segments, and networks with a vertex outside
the `normalizedSize` tolerance. -/
def createCenterlineFromNetwork (network : DecodedVectorNetwork)
    (normalizedSize : Option Vec2) : Option (List PathCommand) :=
  if network.vertices.length = 0 then none
  else
    let validSegments := network.segments.filter fun seg =>
      seg.startE.vertex ≠ seg.endE.vertex
    if validSegments.length = 0 then none
    else if (match normalizedSize with
             | some ns => network.vertices.any (vertexOutOfTolerance ns)
             | none => false) then none
    else
      match validSegments with
      | [] => none
      | seg0 :: _ =>
        match ratGet network.vertices seg0.startE.vertex with
        | none => none
        | some startV =>
            let commands :=
              (⟨1, [startV.x, startV.y]⟩ : PathCommand) ::
                walkSegments validSegments.length network.vertices validSegments
                  seg0.startE.vertex
            let commands := closeIfLoop commands
            if commands.length > 0 then some commands else none

/-- `isStrokedVector`: a vector node with a visible SOLID stroke and no
visible SOLID fill. -/
def isStrokedVector (node : Node) : Bool :=
  let fills := getPaints node "fills"
  let strokes := getPaints node "strokes"
  let hasVisibleFill := fills.map (·.any fun p =>
    p.visible ≠ some false ∧ p.ptype = "SOLID")
  let hasVisibleStroke := strokes.map (·.any fun p =>
    p.visible ≠ some false ∧ p.ptype = "SOLID")
  (hasVisibleFill.getD false) = false ∧ hasVisibleStroke = some true

/-- String truthiness of an optional string field (`if (node.strokeCap)`
patterns: absent and empty strings are falsy). -/
def optStrTruthy : Option String → Bool
  | some s => s ≠ ""
  | none => false

/-- The PRIORITY 1 centerline attempt of `renderStrokedVector`: the
structured vector network, when it has at least two vertices. -/
def structuredCenterline (vectorData : Option VectorDataR)
    (normalizedSize : Option Vec2) : Option (List PathCommand) :=
  match parseStructuredVectorNetwork vectorData with
  | some structuredNetwork =>
      if structuredNetwork.vertices.length ≥ 2 then
        createCenterlineFromNetwork structuredNetwork normalizedSize
      else none
  | none => none

/-- The PRIORITY 2 centerline attempt of `renderStrokedVector`: the
blob-encoded vector network, when it has at least two vertices. -/
def blobCenterline (vectorData : Option VectorDataR) (normalizedSize : Option Vec2)
    (blobs : List BlobEntry) (ctx : RenderContext) : Option (List PathCommand) :=
  match vectorData.bind (·.vectorNetworkBlob) with
  | none => none
  | some bi =>
      match decodeVectorNetworkBlob (some bi) blobs ctx with
      | some blobNetwork =>
          if blobNetwork.vertices.length ≥ 2 then
            createCenterlineFromNetwork blobNetwork normalizedSize
          else none
      | none => none

/-- `renderStrokedVector` (vector-renderer.ts lines 384-471): render a
stroked vector from its centerline, with the three-stage priority decode and
the diagonal-line fallback.  Returns the source's boolean result, the context
(which this function never changes: its only warning site is a catch handler
that cannot fire), and the elements appended to `output`. -/
def renderStrokedVector (node : Node) (transform : TMat) (blobs : List BlobEntry)
    (ctx : RenderContext) : Bool × RenderContext × List Elem :=
  let strokes := getPaints node "strokes"
  match paintToColor (getVisiblePaint strokes) with
  | none => (false, ctx, [])
  | some strokeColor =>
    let vectorData := node.core.vectorData
    let normalizedSize := vectorData.bind (·.normalizedSize)
    let centerline := structuredCenterline vectorData normalizedSize
    let centerline :=
      match centerline with
      | some c => some c
      | none => blobCenterline vectorData normalizedSize blobs ctx
    let centerline :=
      match centerline with
      | some c => some c
      | none =>
          match normalizedSize with
          | some ns => if ns.x > 0 ∨ ns.y > 0 then
                         some (createCenterlineFromNormalizedSize ns)
                       else none
          | none => none
    match centerline with
    | none => (false, ctx, [])
    | some centerline =>
      if centerline.length = 0 then (false, ctx, [])
      else
        let targetWidth := ((node.core.size.map (·.x)) <|> node.core.width <|>
          (normalizedSize.map (·.x))).getD 1
        let targetHeight := ((node.core.size.map (·.y)) <|> node.core.height <|>
          (normalizedSize.map (·.y))).getD 1
        let commandBounds := computeCommandBounds centerline
        let baseScaleX :=
          match normalizedSize with
          | some ns => if ns.x ≠ 0 then targetWidth / ns.x else 1
          | none => 1
        let baseScaleY :=
          match normalizedSize with
          | some ns => if ns.y ≠ 0 then targetHeight / ns.y else 1
          | none => 1
        let cmdWidth := match commandBounds with | some b => b.maxX - b.minX | none => 0
        let cmdHeight := match commandBounds with | some b => b.maxY - b.minY | none => 0
        let scaleX := if cmdWidth > 1 / 1000 then targetWidth / cmdWidth else baseScaleX
        let scaleY := if cmdHeight > 1 / 1000 then targetHeight / cmdHeight else baseScaleY
        let offsetX := match commandBounds with | some b => -b.minX | none => 0
        let offsetY := match commandBounds with | some b => -b.minY | none => 0
        let localTransform : TMat :=
          ⟨scaleX, 0, 0, scaleY, offsetX * scaleX, offsetY * scaleY⟩
        let finalTransform := multiplyTransforms transform localTransform
        let pathD := buildSvgPath centerline finalTransform
        if pathD.isEmpty then (false, ctx, [])
        else
          let strokeWeight := node.core.strokeWeight.getD 1
          let attrs := [("fill", AttrV.str "none"), ("stroke", AttrV.str strokeColor),
            ("stroke-width", AttrV.num strokeWeight)]
          let attrs := attrs ++
            (if optStrTruthy node.core.strokeCap then
              [("stroke-linecap", AttrV.str ((node.core.strokeCap.getD "").toLower))]
             else [])
          let attrs := attrs ++
            (if optStrTruthy node.core.strokeJoin then
              [("stroke-linejoin", AttrV.str ((node.core.strokeJoin.getD "").toLower))]
             else [])
          let attrs := attrs ++
            (match node.core.strokeDashes with
             | some ds => if ds.length > 0 then
                 [("stroke-dasharray", AttrV.str
                   (String.intercalate " " (ds.map jsNumToString)))]
               else []
             | none => [])
          let attrs := attrs ++
            (match node.core.opacity with
             | some op => if op < 1 then [("opacity", AttrV.num op)] else []
             | none => [])
          (true, ctx, [.pathE pathD attrs])

/-- The per-path loop body of `renderFilledVector`. -/
def renderFilledVectorPath (path : VectorPathR) (node : Node) (transform : TMat)
    (blobs : List BlobEntry) (ctx : RenderContext) (fillColor : String)
    (targetWidth targetHeight baseScaleX baseScaleY : ℚ) : List Elem :=
  let commands :=
    if path.commandsBlob.isSome then decodePathCommands path.commandsBlob blobs ctx
    else match path.commands with
         | some cs => decodePathCommandsFromArray (some cs)
         | none => none
  match commands with
  | none => []
  | some commands =>
    let commandBounds := computeCommandBounds commands
    let cmdWidth := match commandBounds with | some b => b.maxX - b.minX | none => 0
    let cmdHeight := match commandBounds with | some b => b.maxY - b.minY | none => 0
    let scaleX := if cmdWidth > 1 / 1000 then targetWidth / cmdWidth else baseScaleX
    let scaleY := if cmdHeight > 1 / 1000 then targetHeight / cmdHeight else baseScaleY
    let offsetX := match commandBounds with | some b => -b.minX | none => 0
    let offsetY := match commandBounds with | some b => -b.minY | none => 0
    let localTransform : TMat := ⟨scaleX, 0, 0, scaleY, offsetX * scaleX, offsetY * scaleY⟩
    let finalTransform := multiplyTransforms transform localTransform
    let pathD := buildSvgPath commands finalTransform
    if pathD.isEmpty then []
    else
      let windingRule :=
        if (path.windingRule.map (·.toLower)) = some "evenodd" then "evenodd" else "nonzero"
      let attrs := [("fill", AttrV.str fillColor), ("fill-rule", AttrV.str windingRule)]
      let attrs := attrs ++
        (match node.core.opacity with
         | some op => if op < 1 then [("opacity", AttrV.num op)] else []
         | none => [])
      [.pathE pathD attrs]

/-- `renderFilledVector` (vector-renderer.ts lines 480-552): render a filled
vector from its fillGeometry paths (the ctx passes through unchanged: no
branch of this function pushes a warning). -/
def renderFilledVector (node : Node) (transform : TMat) (blobs : List BlobEntry)
    (ctx : RenderContext) : Bool × RenderContext × List Elem :=
  match paintToColor (getVisiblePaint (getPaints node "fills")) with
  | none => (false, ctx, [])
  | some fillColor =>
    match node.core.fillGeometry with
    | none => (false, ctx, [])
    | some fillGeometry =>
      if fillGeometry.length = 0 then (false, ctx, [])
      else
        let vectorData := node.core.vectorData
        let normalizedSize := vectorData.bind (·.normalizedSize)
        let targetWidth := ((node.core.size.map (·.x)) <|> node.core.width <|>
          (normalizedSize.map (·.x))).getD 1
        let targetHeight := ((node.core.size.map (·.y)) <|> node.core.height <|>
          (normalizedSize.map (·.y))).getD 1
        let baseScaleX :=
          match normalizedSize with
          | some ns => if ns.x ≠ 0 then targetWidth / ns.x else 1
          | none => 1
        let baseScaleY :=
          match normalizedSize with
          | some ns => if ns.y ≠ 0 then targetHeight / ns.y else 1
          | none => 1
        (true, ctx, fillGeometry.flatMap fun path =>
          renderFilledVectorPath path node transform blobs ctx fillColor
            targetWidth targetHeight baseScaleX baseScaleY)

/-! ## instance-resolver.ts -/

mutual

/-- A structural size measure on nodes, used to seed recursion fuel for the
walks that expand symbols from the node index. -/
def nodeMSize : Node → ℕ
  | .mk _ cs => 1 + nodeMSizeList cs

def nodeMSizeList : List Node → ℕ
  | [] => 0
  | c :: rest => nodeMSize c + nodeMSizeList rest

end

/-- Fuel bound for the symbol-expanding walks: the walked tree plus every
indexed node.  The visited-symbol set lets each symbol be expanded at most
once per path, so the recursion depth never exceeds this bound. -/
def indexFuel (root : Node) (nodeIndex : List (String × Node)) : ℕ :=
  nodeMSize root + nodeIndex.foldl (fun a p => a + nodeMSize p.2) 0 + 1

/-- One component-property assignment, keyed by its definition id. -/
structure PropAssign where
  defId : String
  characters : Option String := none
  visible : Option Bool := none
  symbolId : Option GUID := none
  deriving Repr

/-- `OverrideData`: the merged override fields for one override path.  Raw
fragments the source only casts and forwards (paint arrays, geometry,
derived text data) are carried as dynamic values. -/
structure OverrideData where
  characters : Option String := none
  fillPaints : Option JSVal := none
  strokePaints : Option JSVal := none
  cornerRadius : Option ℚ := none
  rectTL : Option ℚ := none
  rectTR : Option ℚ := none
  rectBR : Option ℚ := none
  rectBL : Option ℚ := none
  hasRectCorners : Bool := false
  fontSize : Option ℚ := none
  fontName : Option JSVal := none
  textAlignHorizontal : Option String := none
  lineHeight : Option JSVal := none
  textAutoResize : Option String := none
  size : Option Vec2 := none
  derivedTextData : Option JSVal := none
  fillGeometry : Option JSVal := none
  strokeGeometry : Option JSVal := none
  transform : Option TransformM := none
  componentPropAssignments : Option (List PropAssign) := none
  visible : Option Bool := none
  overrideSymbolId : Option GUID := none
  deriving Repr

/-- JS object spread `{...existing, ...data}` on two override records: a
field set in `data` wins, otherwise the field of `existing` survives (fields
are only ever set with real values in the source). -/
def ovMerge (existing data : OverrideData) : OverrideData :=
  { characters := data.characters <|> existing.characters
    fillPaints := data.fillPaints <|> existing.fillPaints
    strokePaints := data.strokePaints <|> existing.strokePaints
    cornerRadius := data.cornerRadius <|> existing.cornerRadius
    rectTL := data.rectTL <|> existing.rectTL
    rectTR := data.rectTR <|> existing.rectTR
    rectBR := data.rectBR <|> existing.rectBR
    rectBL := data.rectBL <|> existing.rectBL
    hasRectCorners := data.hasRectCorners || existing.hasRectCorners
    fontSize := data.fontSize <|> existing.fontSize
    fontName := data.fontName <|> existing.fontName
    textAlignHorizontal := data.textAlignHorizontal <|> existing.textAlignHorizontal
    lineHeight := data.lineHeight <|> existing.lineHeight
    textAutoResize := data.textAutoResize <|> existing.textAutoResize
    size := data.size <|> existing.size
    derivedTextData := data.derivedTextData <|> existing.derivedTextData
    fillGeometry := data.fillGeometry <|> existing.fillGeometry
    strokeGeometry := data.strokeGeometry <|> existing.strokeGeometry
    transform := data.transform <|> existing.transform
    componentPropAssignments := data.componentPropAssignments <|> existing.componentPropAssignments
    visible := data.visible <|> existing.visible
    overrideSymbolId := data.overrideSymbolId <|> existing.overrideSymbolId }

/-- `extractColor`: a color from a paint object, unless the paint is hidden
or colorless. -/
def extractColor (paint : JSVal) : Option ColorR :=
  if jsTruthy paint = false ∨ jsIsObjectLike paint = false then none
  else if getField paint "visible" == .bool false then none
  else
    let color := getField paint "color"
    if jsTruthy color = false then none
    else
      some ⟨(jsNum? (getField color "r")).getD 0, (jsNum? (getField color "g")).getD 0,
            (jsNum? (getField color "b")).getD 0, some ((jsNum? (getField color "a")).getD 1)⟩

/-- `guidPathToString`: the `>`-joined guid path of an override entry. -/
def guidPathToString (path : JSVal) : String :=
  match jsArr? (getField path "guids") with
  | none => ""
  | some guids =>
      String.intercalate ">" (guids.map fun g =>
        jsToString (getField g "sessionID") ++ ":" ++ jsToString (getField g "localID"))

/-- The `${sessionID}:${localID}` key of an override-key object. -/
def overrideKeyString (ok : JSVal) : String :=
  jsToString (getField ok "sessionID") ++ ":" ++ jsToString (getField ok "localID")

mutual

/-- The walk of `buildOverridePathMap`: record each override-key path (full
and with the leading segment dropped), expand INSTANCE symbols guarded by
the visited-symbol set, then walk the node's own children. -/
def overridePathWalk (fuel : ℕ) (rawIdx : List (String × JSVal))
    (nodeIdx : List (String × Node)) (node : Node) (path : List String)
    (skipOverrideKey : Bool) (symbolStack : List String)
    (pm : List (String × String)) : List (String × String) :=
  match fuel with
  | 0 => pm
  | fuel + 1 =>
    let nodeId := formatGUID (some node.core.guid)
    let raw := (mapGet rawIdx nodeId).getD .undef
    let overrideKey := getField raw "overrideKey"
    let overrideKeyStr : Option String :=
      if jsTruthy overrideKey then some (overrideKeyString overrideKey) else none
    let nextPath :=
      match overrideKeyStr with
      | some oks => if skipOverrideKey = false then path ++ [oks] else path
      | none => path
    let pm :=
      match overrideKeyStr with
      | some _ =>
          if skipOverrideKey = false then
            let pm := mapSet pm (String.intercalate ">" nextPath) nodeId
            if nextPath.length > 1 then
              mapSet pm (String.intercalate ">" (nextPath.drop 1)) nodeId
            else pm
          else pm
      | none => pm
    let pm :=
      if node.core.type = .INSTANCE then
        match node.core.symbolData.bind (·.symbolID) with
        | some sid =>
            let symbolId := formatGUID (some sid)
            match mapGet nodeIdx symbolId with
            | some symbolNode =>
                if symbolStack.contains symbolId = false then
                  overridePathWalkList fuel rawIdx nodeIdx symbolNode.children nextPath
                    (symbolId :: symbolStack) pm
                else pm
            | none => pm
        | none => pm
      else pm
    overridePathWalkList fuel rawIdx nodeIdx node.children nextPath symbolStack pm

def overridePathWalkList (fuel : ℕ) (rawIdx : List (String × JSVal))
    (nodeIdx : List (String × Node)) (ns : List Node) (path : List String)
    (symbolStack : List String) (pm : List (String × String)) :
    List (String × String) :=
  match ns with
  | [] => pm
  | child :: rest =>
      overridePathWalkList fuel rawIdx nodeIdx rest path symbolStack
        (overridePathWalk fuel rawIdx nodeIdx child path false symbolStack pm)

end

/-- `buildOverridePathMap`: map each candidate override-key path in the
symbol subtree to the node id it identifies. -/
def buildOverridePathMap (root : Node) (rawNodeIndex : List (String × JSVal))
    (nodeIndex : List (String × Node)) : List (String × String) :=
  overridePathWalk (indexFuel root nodeIndex) rawNodeIndex nodeIndex root [] false [] []

/-- Parse one raw component-prop assignment into a `PropAssign` (requires a
`defID`). -/
def parsePropAssign (assign : JSVal) : Option PropAssign :=
  if jsTruthy assign = false ∨ jsIsObjectLike assign = false then none
  else
    let value := getField assign "value"
    let characters := jsStr? (getField (getField value "textValue") "characters")
    let boolValue := jsBool? (getField value "boolValue")
    let guidValue := getField value "guidValue"
    match getField assign "defID" with
    | .obj _ =>
        let def_ := getField assign "defID"
        some { defId := jsToString (getField def_ "sessionID") ++ ":" ++
                 jsToString (getField def_ "localID")
               characters := characters
               visible := boolValue
               symbolId :=
                 if jsTruthy guidValue then
                   some ⟨(jsNum? (getField guidValue "sessionID")).getD 0,
                         (jsNum? (getField guidValue "localID")).getD 0⟩
                 else none }
    | _ => none

/-- The per-override-entry update of `buildOverrideData` (the symbolOverrides
loop body). -/
def overrideEntryUpdate (o : JSVal) (entry : OverrideData) : OverrideData :=
  let entry := match jsStr? (getField o "characters") with
               | some s => { entry with characters := some s }
               | none => entry
  let entry := match jsArr? (getField o "fillPaints") with
               | some _ => { entry with fillPaints := some (getField o "fillPaints") }
               | none => entry
  let entry := match jsArr? (getField o "strokePaints") with
               | some _ => { entry with strokePaints := some (getField o "strokePaints") }
               | none => entry
  let entry := match jsNum? (getField o "cornerRadius") with
               | some q => { entry with cornerRadius := some q }
               | none => entry
  let entry :=
    if jsTruthy (getField o "rectangleTopLeftCornerRadius") ∨
        jsTruthy (getField o "rectangleTopRightCornerRadius") ∨
        jsTruthy (getField o "rectangleBottomRightCornerRadius") ∨
        jsTruthy (getField o "rectangleBottomLeftCornerRadius") then
      { entry with hasRectCorners := true
                   rectTL := jsNum? (getField o "rectangleTopLeftCornerRadius")
                   rectTR := jsNum? (getField o "rectangleTopRightCornerRadius")
                   rectBR := jsNum? (getField o "rectangleBottomRightCornerRadius")
                   rectBL := jsNum? (getField o "rectangleBottomLeftCornerRadius") }
    else entry
  let entry := match jsNum? (getField o "fontSize") with
               | some q => { entry with fontSize := some q }
               | none => entry
  let entry :=
    if jsTruthy (getField o "fontName") ∧ jsIsObjectLike (getField o "fontName") then
      { entry with fontName := some (getField o "fontName") }
    else entry
  let entry := match jsStr? (getField o "textAlignHorizontal") with
               | some s => { entry with textAlignHorizontal := some s }
               | none => entry
  let entry :=
    if jsTruthy (getField o "lineHeight") ∧ jsIsObjectLike (getField o "lineHeight") then
      { entry with lineHeight := some (getField o "lineHeight") }
    else entry
  let entry := match jsStr? (getField o "textAutoResize") with
               | some s => { entry with textAutoResize := some s }
               | none => entry
  let entry :=
    if jsTruthy (getField o "size") ∧ jsIsObjectLike (getField o "size") then
      { entry with size := some ⟨(jsNum? (getField (getField o "size") "x")).getD 0,
                                (jsNum? (getField (getField o "size") "y")).getD 0⟩ }
    else entry
  if jsTruthy (getField o "componentPropAssignments") then
    match jsArr? (getField o "componentPropAssignments") with
    | some assigns =>
        assigns.foldl
          (fun entry assign =>
            match parsePropAssign assign with
            | some pa =>
                let pas := (entry.componentPropAssignments.getD []) ++ [pa]
                { entry with componentPropAssignments := some pas }
            | none =>
                -- no defID: a bare characters value lands on the entry itself
                if jsTruthy assign ∧ jsIsObjectLike assign then
                  match jsStr? (getField (getField (getField assign "value") "textValue")
                      "characters") with
                  | some s => if s ≠ "" then { entry with characters := some s } else entry
                  | none => entry
                else entry)
          entry
    | none => entry
  else entry

/-- The per-derived-entry update of `buildOverrideData` (the
derivedSymbolData loop body). -/
def derivedEntryUpdate (d : JSVal) (entry : OverrideData) : OverrideData :=
  let entry :=
    if jsTruthy (getField d "size") ∧ jsIsObjectLike (getField d "size") then
      { entry with size := some ⟨(jsNum? (getField (getField d "size") "x")).getD 0,
                                (jsNum? (getField (getField d "size") "y")).getD 0⟩ }
    else entry
  let entry :=
    if jsTruthy (getField d "derivedTextData") then
      { entry with derivedTextData := some (getField d "derivedTextData") }
    else entry
  let entry :=
    if jsTruthy (getField d "fillGeometry") then
      { entry with fillGeometry := some (getField d "fillGeometry") }
    else entry
  let entry :=
    if jsTruthy (getField d "strokeGeometry") then
      { entry with strokeGeometry := some (getField d "strokeGeometry") }
    else entry
  if jsTruthy (getField d "transform") ∧ jsIsObjectLike (getField d "transform") then
    let t := getField d "transform"
    { entry with transform := some ⟨(jsNum? (getField t "m00")).getD 1,
        (jsNum? (getField t "m01")).getD 0, (jsNum? (getField t "m02")).getD 0,
        (jsNum? (getField t "m10")).getD 0, (jsNum? (getField t "m11")).getD 1,
        (jsNum? (getField t "m12")).getD 0⟩ }
  else entry

/-- One upsert step on the override map: read the entry for the path (or a
fresh one), apply the update, store it back in place. -/
def ovUpsert (m : List (String × OverrideData)) (path : String)
    (f : OverrideData → OverrideData) : List (String × OverrideData) :=
  mapSet m path (f ((mapGet m path).getD {}))

/-- `buildOverrideData`: merge the instance's raw symbolOverrides and
derivedSymbolData into per-path override records. -/
def buildOverrideData (inst : Node) (rawNodeChange : Option JSVal) :
    List (String × OverrideData) :=
  let rawSymbolData := getField (rawNodeChange.getD .undef) "symbolData"
  let nodeSymbolOverrides := (inst.core.symbolData.map (·.symbolOverrides)).getD .undef
  let symbolOverrides := jsOr (getField rawSymbolData "symbolOverrides")
    (jsOr nodeSymbolOverrides (.arr []))
  let derivedSymbolData := jsOr (getField (rawNodeChange.getD .undef) "derivedSymbolData")
    (.arr [])
  let m : List (String × OverrideData) :=
    ((jsArr? symbolOverrides).getD []).foldl
      (fun m o =>
        if jsTruthy o = false ∨ jsIsObjectLike o = false then m
        else
          let path := guidPathToString (getField o "guidPath")
          if path = "" then m
          else ovUpsert m path (overrideEntryUpdate o))
      []
  ((jsArr? derivedSymbolData).getD []).foldl
    (fun m d =>
      if jsTruthy d = false ∨ jsIsObjectLike d = false then m
      else
        let path := guidPathToString (getField d "guidPath")
        if path = "" then m
        else ovUpsert m path (derivedEntryUpdate d))
    m

/-- Realize the TS cast of a raw derived-text-data value into the typed
view. -/
def jsToDerivedCast (v : JSVal) : DerivedTextDataR :=
  { layoutSize := ⟨(jsNum? (getField (getField v "layoutSize") "x")).getD 0,
                   (jsNum? (getField (getField v "layoutSize") "y")).getD 0⟩
    baselines := ((jsArr? (getField v "baselines")).getD []).map jsToBaseline }

/-- `applyOverrideToNode` (instance-resolver.ts lines 281-351): merge one
override record into a node.  The `overrideSymbolId` case also clears the
node's children. -/
def applyOverrideToNode (node : Node) (override : OverrideData) : Node :=
  let c := node.core
  let cs := node.children
  let c := match override.characters with
           | some s => if s ≠ "" then { c with characters := some s } else c
           | none => c
  let c := match override.fillPaints with
           | some raw => { c with fills := some (((jsArr? raw).getD []).map jsToPaint) }
           | none => c
  let c := match override.strokePaints with
           | some raw => { c with strokes := some (((jsArr? raw).getD []).map jsToPaint) }
           | none => c
  let c := match override.cornerRadius with
           | some q => { c with cornerRadius := some (.num q) }
           | none =>
             if override.hasRectCorners then
               { c with cornerRadius := some (.quad (override.rectTL.getD 0)
                   (override.rectTR.getD 0) (override.rectBR.getD 0)
                   (override.rectBL.getD 0)) }
             else c
  let c := match override.size with
           | some sz =>
               { c with width := some sz.x, height := some sz.y, size := some ⟨sz.x, sz.y⟩ }
           | none => c
  let c := match override.derivedTextData with
           | some raw => { c with derivedTextData := some (jsToDerivedCast raw) }
           | none => c
  let c := match override.fillGeometry with
           | some raw =>
               let fg := ((jsArr? raw).getD []).map jsToVectorPath
               { c with fillGeometry := some fg }
           | none => c
  let c := match override.strokeGeometry with
           | some raw =>
               let sg := ((jsArr? raw).getD []).map jsToVectorPath
               { c with strokeGeometry := some sg }
           | none => c
  let c := match override.transform with
           | some t => { c with transform := some t }
           | none => c
  let c := match override.visible with
           | some b => { c with visible := b }
           | none => c
  let (c, cs) :=
    match override.overrideSymbolId with
    | some sid =>
        let sd := (c.symbolData.getD {}).symbolOverrides
        ({ c with symbolData := some ⟨some sid, sd⟩ }, ([] : List Node))
    | none => (c, cs)
  let c :=
    if override.fontName.isSome ∨ override.fontSize.isSome ∨
        (override.lineHeight.map (fun lh => (jsNum? (getField lh "value")).isSome)).getD false ∨
        optStrTruthy override.textAutoResize then
      let style := c.style.getD {}
      let style := match override.fontName with
                   | some fn =>
                       if jsTruthy (getField fn "family") then
                         { style with fontFamily := jsStr? (getField fn "family") }
                       else style
                   | none => style
      let style := match override.fontSize with
                   | some q => { style with fontSize := some q }
                   | none => style
      let style := match override.textAlignHorizontal with
                   | some s => if s ≠ "" then { style with textAlignHorizontal := some s }
                               else style
                   | none => style
      let style := match override.lineHeight.map (fun lh => jsNum? (getField lh "value")) with
                   | some (some q) => { style with lineHeightPx := some q }
                   | _ => style
      let style := match override.textAutoResize with
                   | some s => if s ≠ "" then { style with textAutoResize := some s }
                               else style
                   | none => style
      { c with style := some style }
    else c
  Node.mk c cs

mutual

/-- The walk of `applyComponentPropAssignments`: find nodes of the symbol
subtree whose raw `componentPropRefs` mention an assigned definition id, and
merge the assigned value into the override map under the node's id. -/
def propAssignWalk (rawIdx : List (String × JSVal))
    (byDefId : List (String × PropAssign)) (node : Node)
    (acc : List (String × OverrideData)) : List (String × OverrideData) :=
  match node with
  | .mk core children =>
    let nodeId := formatGUID (some core.guid)
    let raw := (mapGet rawIdx nodeId).getD .undef
    let acc :=
      match jsArr? (getField raw "componentPropRefs") with
      | none => acc
      | some refs =>
          refs.foldl
            (fun acc ref =>
              match getField ref "defID" with
              | .obj _ =>
                  let def_ := getField ref "defID"
                  let defId := jsToString (getField def_ "sessionID") ++ ":" ++
                    jsToString (getField def_ "localID")
                  match mapGet byDefId defId with
                  | none => acc
                  | some assignment =>
                      let existing := (mapGet acc nodeId).getD {}
                      if getField ref "componentPropNodeField" == .str "TEXT_DATA" ∧
                          optStrTruthy assignment.characters then
                        mapSet acc nodeId { existing with characters := assignment.characters }
                      else if getField ref "componentPropNodeField" == .str "VISIBLE" ∧
                          assignment.visible.isSome then
                        mapSet acc nodeId { existing with visible := assignment.visible }
                      else if getField ref "componentPropNodeField" ==
                            .str "OVERRIDDEN_SYMBOL_ID" ∧ assignment.symbolId.isSome then
                        mapSet acc nodeId
                          { existing with overrideSymbolId := assignment.symbolId }
                      else acc
              | _ => acc)
            acc
    propAssignWalkList rawIdx byDefId children acc

def propAssignWalkList (rawIdx : List (String × JSVal))
    (byDefId : List (String × PropAssign)) (ns : List Node)
    (acc : List (String × OverrideData)) : List (String × OverrideData) :=
  match ns with
  | [] => acc
  | child :: rest =>
      propAssignWalkList rawIdx byDefId rest (propAssignWalk rawIdx byDefId child acc)

end

/-- `applyComponentPropAssignments` (instance-resolver.ts lines 353-406). -/
def applyComponentPropAssignments (instanceNodeId : String)
    (assignments : List PropAssign) (nodeIndex : List (String × Node))
    (rawNodeIndex : List (String × JSVal))
    (overrideByNodeId : List (String × OverrideData)) :
    List (String × OverrideData) :=
  match mapGet nodeIndex instanceNodeId with
  | none => overrideByNodeId
  | some instanceNode =>
    match instanceNode.core.symbolData.bind (·.symbolID) with
    | none => overrideByNodeId
    | some sid =>
      let symbolId := formatGUID (some sid)
      match mapGet nodeIndex symbolId with
      | none => overrideByNodeId
      | some symbolNode =>
        let byDefId := assignments.foldl (fun m a => mapSet m a.defId a) []
        propAssignWalk rawNodeIndex byDefId symbolNode overrideByNodeId

/-- `cloneWithOverrides` (instance-resolver.ts lines 408-445): clone a node,
apply its override, and expand INSTANCE symbols (guarded by the
visited-symbol set; the fuel only drives termination of the expansion). -/
def cloneWithOverrides (fuel : ℕ) (node : Node)
    (overrideByNodeId : List (String × OverrideData))
    (nodeIndex : List (String × Node)) (symbolStack : List String) : Node :=
  match fuel with
  | 0 => node
  | fuel + 1 =>
    let nodeId := formatGUID (some node.core.guid)
    let clone :=
      match mapGet overrideByNodeId nodeId with
      | some override => applyOverrideToNode node override
      | none => node
    let (children, expandedStack) :=
      if clone.children.length = 0 ∧ clone.core.type = .INSTANCE then
        match clone.core.symbolData.bind (·.symbolID) with
        | some sid =>
            let symbolId := formatGUID (some sid)
            match mapGet nodeIndex symbolId with
            | some symbolNode =>
                if symbolStack.contains symbolId = false then
                  (symbolNode.children, symbolId :: symbolStack)
                else (clone.children, symbolStack)
            | none => (clone.children, symbolStack)
        | none => (clone.children, symbolStack)
      else (clone.children, symbolStack)
    if children.length > 0 then
      clone.withChildren (children.map fun child =>
        cloneWithOverrides fuel child overrideByNodeId nodeIndex expandedStack)
    else clone

/-- `resolveInstanceChildren` (instance-resolver.ts lines 450-520): clone the
symbol subtree with the instance's overrides applied.  The source iterates
`overrideByNodeId.entries()` while `applyComponentPropAssignments` may add
entries; the embedding folds over the entries as of the start of that loop
(added entries carry no nested assignments in the data the source
handles). -/
def resolveInstanceChildren (inst : Node) (symbolNode : Node)
    (rawNodeIndex : List (String × JSVal)) (nodeIndex : List (String × Node)) :
    Option (List Node) :=
  match mapGet rawNodeIndex (formatGUID (some inst.core.guid)) with
  | none => none
  | some instanceRaw =>
    let overrideData := buildOverrideData inst (some instanceRaw)
    if overrideData.length = 0 then none
    else
      let pathMap := buildOverridePathMap symbolNode rawNodeIndex nodeIndex
      let overrideByNodeId :=
        overrideData.foldl
          (fun m pd =>
            match mapGet pathMap pd.1 with
            | none => m
            | some nodeId =>
                match mapGet m nodeId with
                | some existing => mapSet m nodeId (ovMerge existing pd.2)
                | none => mapSet m nodeId pd.2)
          []
      if overrideByNodeId.length = 0 then none
      else
        let overrideByNodeId :=
          match jsArr? (getField instanceRaw "componentPropAssignments") with
          | none => overrideByNodeId
          | some topRaw =>
              let assignments := topRaw.filterMap parsePropAssign
              if assignments.length > 0 then
                applyComponentPropAssignments (formatGUID (some inst.core.guid))
                  assignments nodeIndex rawNodeIndex overrideByNodeId
              else overrideByNodeId
        let overrideByNodeId :=
          overrideByNodeId.foldl
            (fun m entry =>
              match entry.2.componentPropAssignments with
              | some pas =>
                  if pas.length > 0 then
                    applyComponentPropAssignments entry.1 pas nodeIndex rawNodeIndex m
                  else m
              | none => m)
            overrideByNodeId
        let clonedSymbol := cloneWithOverrides (indexFuel symbolNode nodeIndex)
          symbolNode overrideByNodeId nodeIndex []
        some clonedSymbol.children

/-- Extracted text content from an INSTANCE override. -/
structure InstanceTextContent where
  text : String
  guidPath : String
  fillColor : Option ColorR := none
  fontSize : Option ℚ := none
  fontFamily : Option String := none
  deriving Repr

/-- Extracted visual element from an INSTANCE override. -/
structure InstanceVisualElement where
  vtype : String
  guidPath : String
  text : Option String := none
  size : Option Vec2 := none
  fillColor : Option ColorR := none
  strokeColor : Option ColorR := none
  cornerRadius : Option ℚ := none
  fontSize : Option ℚ := none
  fontFamily : Option String := none
  deriving Repr

/-- `ResolvedInstanceContent`. -/
structure ResolvedInstanceContent where
  instanceNode : Node
  symbolId : String
  textContent : List InstanceTextContent
  elements : List InstanceVisualElement
  sizes : List (String × Vec2)

/-- `extractInstanceContent` (instance-resolver.ts lines 525-666): extract
text and visual elements from an INSTANCE node's symbolOverrides. -/
def extractInstanceContent (inst : Node) (rawNodeChange : Option JSVal) :
    Option ResolvedInstanceContent :=
  match inst.core.symbolData.bind (·.symbolID) with
  | none => none
  | some sid =>
    let symbolId := formatGUID (some sid)
    let rawSymbolData := getField (rawNodeChange.getD .undef) "symbolData"
    let nodeSymbolOverrides := (inst.core.symbolData.map (·.symbolOverrides)).getD .undef
    let symbolOverrides := jsOr (getField rawSymbolData "symbolOverrides")
      (jsOr nodeSymbolOverrides (.arr []))
    let derivedSymbolData := jsOr (getField (rawNodeChange.getD .undef) "derivedSymbolData")
      (.arr [])
    let sizes : List (String × Vec2) :=
      ((jsArr? derivedSymbolData).getD []).foldl
        (fun sizes d =>
          if jsTruthy d = false ∨ jsIsObjectLike d = false then sizes
          else
            match jsArr? (getField (getField d "guidPath") "guids"),
                getField d "size" with
            | some guids, .obj _ =>
                let path := String.intercalate ">" (guids.map fun g =>
                  jsToString (getField g "sessionID") ++ ":" ++
                    jsToString (getField g "localID"))
                mapSet sizes path
                  ⟨(jsNum? (getField (getField d "size") "x")).getD 0,
                   (jsNum? (getField (getField d "size") "y")).getD 0⟩
            | _, _ => sizes)
        []
    let (textContent, elements) :=
      ((jsArr? symbolOverrides).getD []).foldl
        (fun (acc : List InstanceTextContent × List InstanceVisualElement) o =>
          if jsTruthy o = false ∨ jsIsObjectLike o = false then acc
          else
            let (textContent, elements) := acc
            let guidPath := guidPathToString (getField o "guidPath")
            let propAssignmentsV := getField o "componentPropAssignments"
            -- text extracted from componentPropAssignments
            let (textContent, elements) :=
              match jsArr? propAssignmentsV with
              | none => (textContent, elements)
              | some assigns =>
                  assigns.foldl
                    (fun (acc2 : List InstanceTextContent × List InstanceVisualElement)
                        assign =>
                      if jsTruthy assign = false ∨ jsIsObjectLike assign = false then acc2
                      else
                        let characters := jsStr? (getField (getField (getField assign
                          "value") "textValue") "characters")
                        match characters with
                        | some chars =>
                            if chars = "" then acc2
                            else
                              let fills := getField o "fillPaints"
                              let firstFill := ((jsArr? fills).getD []).head?
                              let fillColor := match firstFill with
                                               | some f => if jsTruthy f then extractColor f
                                                           else none
                                               | none => none
                              let tc : InstanceTextContent :=
                                { text := chars, guidPath := guidPath, fillColor := fillColor }
                              let el : InstanceVisualElement :=
                                { vtype := "text", guidPath := guidPath, text := some chars
                                  size := mapGet sizes guidPath, fillColor := fillColor
                                  fontSize := jsNum? (getField o "fontSize")
                                  fontFamily := jsStr? (getField (getField o "fontName")
                                    "family") }
                              (acc2.1 ++ [tc], acc2.2 ++ [el])
                        | none => acc2)
                    (textContent, elements)
            -- direct characters override
            let textContent :=
              match jsStr? (getField o "characters") with
              | some chars =>
                  if chars ≠ "" then
                    let firstFill := ((jsArr? (getField o "fillPaints")).getD []).head?
                    let fillColor := match firstFill with
                                     | some f => if jsTruthy f then extractColor f else none
                                     | none => none
                    textContent ++ [{ text := chars, guidPath := guidPath
                                      fillColor := fillColor }]
                  else textContent
              | none => textContent
            -- rectangle/frame overrides
            let elements :=
              if (jsTruthy (getField o "fillPaints") ∨ jsTruthy (getField o "strokePaints")) ∧
                  jsTruthy propAssignmentsV = false then
                let firstFill := ((jsArr? (getField o "fillPaints")).getD []).head?
                let fillColor := match firstFill with
                                 | some f => if jsTruthy f then extractColor f else none
                                 | none => none
                let firstStroke := ((jsArr? (getField o "strokePaints")).getD []).head?
                let strokeColor := match firstStroke with
                                   | some f => if jsTruthy f then extractColor f else none
                                   | none => none
                if fillColor.isSome ∨ strokeColor.isSome then
                  elements ++ [{ vtype := "rectangle", guidPath := guidPath
                                 size := mapGet sizes guidPath, fillColor := fillColor
                                 strokeColor := strokeColor
                                 cornerRadius := jsNum? (getField o "cornerRadius") }]
                else elements
              else elements
            (textContent, elements))
        ([], [])
    let textContent :=
      match jsArr? (getField (rawNodeChange.getD .undef) "componentPropAssignments") with
      | none => textContent
      | some assigns =>
          assigns.foldl
            (fun tc assign =>
              if jsTruthy assign = false ∨ jsIsObjectLike assign = false then tc
              else
                match jsStr? (getField (getField (getField assign "value") "textValue")
                    "characters") with
                | some chars =>
                    if chars ≠ "" then tc ++ [{ text := chars, guidPath := "top-level" }]
                    else tc
                | none => tc)
            textContent
    some { instanceNode := inst, symbolId := symbolId, textContent := textContent
           elements := elements, sizes := sizes }

/-! ## render-screen.ts -/

/-- `colorToRgba`: a color as an rgba() string for SVG (default shadow color
when absent).  The alpha channel's `toFixed(3)` formatting is represented by
the embedding's number formatter. -/
def colorToRgba (color : Option ColorR) : String :=
  match color with
  | none => "rgba(0,0,0,0.25)"
  | some c =>
      "rgba(" ++ toString (jsRound (c.r * 255)) ++ "," ++ toString (jsRound (c.g * 255)) ++
        "," ++ toString (jsRound (c.b * 255)) ++ "," ++ jsNumToString (c.a.getD 1) ++ ")"

/-- `colorToCss` (render-screen.ts): Color to rgba string, absent stays
absent. -/
def colorToCss (color : Option ColorR) : Option String :=
  color.map fun c => colorToRgba (some c)

/-- `generateDropShadowFilter`: push a drop-shadow filter definition and
return its id (simple feDropShadow without spread, morphology pipeline with
spread). -/
def generateDropShadowFilter (effect : EffectR) (ctx : RenderContext) :
    String × RenderContext :=
  let filterId := "shadow-" ++ toString ctx.shadowCounter
  let ctx := { ctx with shadowCounter := ctx.shadowCounter + 1 }
  let x := (effect.offset.map (·.x)).getD 0
  let y := (effect.offset.map (·.y)).getD 0
  let blur := effect.radius.getD 0
  let spread := effect.spread.getD 0
  let color := colorToRgba effect.color
  if spread = 0 then
    (filterId, { ctx with defs := ctx.defs ++
      [.dropShadowSimpleDef filterId x y (blur / 2) color] })
  else
    (filterId, { ctx with defs := ctx.defs ++
      [.dropShadowSpreadDef filterId x y (blur / 2) |spread| (spread > 0) color] })

/-- `generateInnerShadowFilter`: push an inner-shadow filter definition and
return its id. -/
def generateInnerShadowFilter (effect : EffectR) (ctx : RenderContext) :
    String × RenderContext :=
  let filterId := "inner-shadow-" ++ toString ctx.shadowCounter
  let ctx := { ctx with shadowCounter := ctx.shadowCounter + 1 }
  let x := (effect.offset.map (·.x)).getD 0
  let y := (effect.offset.map (·.y)).getD 0
  let blur := effect.radius.getD 0
  let color := colorToRgba effect.color
  (filterId, { ctx with defs := ctx.defs ++
    [.innerShadowDef filterId x y (blur / 2) color] })

/-- `generateEffectFilters`: the filter id for a node's effects (only the
first visible drop shadow, else the first visible inner shadow). -/
def generateEffectFilters (node : Node) (ctx : RenderContext)
    (includeShadows : Bool) : Option String × RenderContext :=
  match node.core.effects with
  | none => (none, ctx)
  | some effects =>
    if includeShadows = false ∨ effects.length = 0 then (none, ctx)
    else
      let dropShadows := effects.filter fun e =>
        e.etype = "DROP_SHADOW" ∧ e.visible ≠ some false
      let innerShadows := effects.filter fun e =>
        e.etype = "INNER_SHADOW" ∧ e.visible ≠ some false
      match dropShadows with
      | e :: _ =>
          let (fid, ctx) := generateDropShadowFilter e ctx
          (some fid, ctx)
      | [] =>
        match innerShadows with
        | e :: _ =>
            let (fid, ctx) := generateInnerShadowFilter e ctx
            (some fid, ctx)
        | [] => (none, ctx)

/-- JS `String.prototype.substring` with numeric arguments: clamp both
indices to the string, swap when reversed. -/
def jsSubstring (s : String) (a b : ℚ) : String :=
  let len := s.length
  let clampIdx : ℚ → ℕ := fun q => if q ≤ 0 then 0 else min len (⌊q⌋).toNat
  let x := clampIdx a
  let y := clampIdx b
  let lo := min x y
  let hi := max x y
  String.mk ((s.toList.drop lo).take (hi - lo))

/-- JS `split(/\r?\n/)`: CRLF and LF both separate lines. -/
def jsSplitLines (s : String) : List String :=
  (s.replace "\r\n" "\n").splitOn "\n"

/-- `renderText` (render-screen.ts lines 217-316): emit a text element with
per-baseline tspans (or newline-split fallback lines). -/
def renderText (node : Node) (transform : TMat) : Bool × List Elem :=
  match node.core.characters with
  | none => (false, [])
  | some text =>
    if text = "" then (false, [])
    else
      let fills := getPaints node "fills"
      let fillColor := (paintToColor (getVisiblePaint fills)).getD "#000"
      let style := node.core.style
      let fontSize := (style.bind (·.fontSize)).getD 14
      let fontFamily := escapeXml ((style.bind (·.fontFamily)).getD "Inter")
      let fontWeight := (style.bind (·.fontWeight)).getD 400
      let fontStyle := (style.bind (·.fontStyle)).getD "normal"
      let defaultLineHeight := (style.bind (·.lineHeightPx)).getD (fontSize * (6 / 5))
      let letterSpacing := (style.bind (·.letterSpacing)).getD 0
      let pos := transformPoint 0 0 transform
      let anchor := ((style.bind (·.textAlignHorizontal)).map (·.toLower)).getD "left"
      let textAnchor :=
        if anchor = "center" then "middle" else if anchor = "right" then "end" else "start"
      let width := node.core.width.getD 0
      let baseX :=
        if textAnchor = "middle" then pos.x + width / 2
        else if textAnchor = "end" then pos.x + width
        else pos.x
      let attrs : List (String × AttrV) :=
        [("x", .num baseX), ("y", .num pos.y), ("font-family", .str fontFamily),
         ("font-size", .num fontSize), ("font-weight", .num fontWeight),
         ("font-style", .str fontStyle), ("fill", .str fillColor),
         ("dominant-baseline", .str "text-before-edge"), ("text-anchor", .str textAnchor)]
      let attrs := attrs ++
        (if letterSpacing ≠ 0 then [("letter-spacing", .num letterSpacing)] else [])
      let attrs := attrs ++
        (match node.core.opacity with
         | some op => if op < 1 then [("opacity", .num op)] else []
         | none => [])
      let attrs := attrs ++
        (match style.bind (·.fontPostScriptName) with
         | some ps => if ps ≠ "" then [("data-postscript", .str (escapeXml ps))] else []
         | none => [])
      let spans : List TSpanR :=
        match node.core.derivedTextData with
        | some dd =>
            if dd.baselines.length > 0 then
              dd.baselines.enum.map fun p =>
                let baseline := p.2
                let lineText := jsSubstring text baseline.firstCharacter baseline.endCharacter
                let safeLineText := escapeXml lineText.trim
                if p.1 = 0 then ⟨baseX, 0, safeLineText⟩
                else ⟨baseX, baseline.lineHeight, safeLineText⟩
            else
              (jsSplitLines (escapeXml text)).enum.map fun p =>
                ⟨baseX, if p.1 = 0 then 0 else defaultLineHeight, p.2⟩
        | none =>
            (jsSplitLines (escapeXml text)).enum.map fun p =>
              ⟨baseX, if p.1 = 0 then 0 else defaultLineHeight, p.2⟩
      (true, [.textE attrs spans])

/-- The base64 alphabet. -/
def b64Char (n : ℕ) : String :=
  String.mk [("ABCDEFGHIJKLMNOPQRSTUVWXYZabcdefghijklmnopqrstuvwxyz0123456789+/".toList).getD n 'A']

/-- Standard base64 encoding of a byte list (`Buffer.toString("base64")`). -/
def base64Encode : List ℕ → String
  | [] => ""
  | [b0] => b64Char (b0 / 4) ++ b64Char (b0 % 4 * 16) ++ "=="
  | [b0, b1] => b64Char (b0 / 4) ++ b64Char (b0 % 4 * 16 + b1 / 16) ++
      b64Char (b1 % 16 * 4) ++ "="
  | b0 :: b1 :: b2 :: rest =>
      b64Char (b0 / 4) ++ b64Char (b0 % 4 * 16 + b1 / 16) ++
        b64Char (b1 % 16 * 4 + b2 / 64) ++ b64Char (b2 % 64) ++ base64Encode rest

/-- Truthiness of an optional numeric field (`sceneNode.width &&` patterns:
absent and zero are falsy). -/
def optNumTruthy : Option ℚ → Bool
  | some q => q ≠ 0
  | none => false

/-- The image-fill attempt of `renderRectangle`: when image embedding is on
and the visible fill is an IMAGE paint with bytes in the image map, emit an
image element. -/
def renderRectangleImage (node : Node) (transform : TMat)
    (images : Option (List (String × List ℕ))) (includeImages : Bool)
    (fillPaint : Option Paint) : Option Elem :=
  match fillPaint, images with
  | some p, some imageMap =>
    if includeImages ∧ p.ptype = "IMAGE" then
      match (paintToImageHash p).bind (mapGet imageMap) with
      | some imageData =>
          let format := detectImageFormat imageData
          let mimeType := getMimeType format
          let b64 := base64Encode imageData
          let scaleMode := p.imageScaleMode <|> p.scaleMode
          let preserve :=
            if scaleMode = some "FIT" then "xMidYMid meet"
            else if scaleMode = some "STRETCH" then "none"
            else "xMidYMid slice"
          let pos := transformPoint 0 0 transform
          let width := node.core.width.getD 0
          let height := node.core.height.getD 0
          let attrs : List (String × AttrV) :=
            [("x", .num pos.x), ("y", .num pos.y), ("width", .num width),
             ("height", .num height), ("preserveAspectRatio", .str preserve),
             ("href", .str ("data:" ++ mimeType ++ ";base64," ++ b64))]
          let attrs := attrs ++
            (match node.core.opacity with
             | some op => if op < 1 then [("opacity", .num op)] else []
             | none => [])
          some (.imageE attrs)
      | none => none
    else none
  | _, _ => none

/-- `renderRectangle` (render-screen.ts lines 322-446): image fill, then an
axis-aligned rect (with the corner-radius clamp) or a rotated four-point
path. -/
def renderRectangle (node : Node) (transform : TMat)
    (images : Option (List (String × List ℕ))) (includeImages : Bool) :
    Bool × List Elem :=
  let fills := getPaints node "fills"
  let strokes := getPaints node "strokes"
  let fillPaint := getVisiblePaint fills
  let fillColor := paintToColor fillPaint
  let strokeColor := paintToColor (getVisiblePaint strokes)
  match renderRectangleImage node transform images includeImages fillPaint with
  | some el => (true, [el])
  | none =>
    if fillColor = none ∧ strokeColor = none then (false, [])
    else
      let width := node.core.width.getD 0
      let height := node.core.height.getD 0
      let p0 := transformPoint 0 0 transform
      let p1 := transformPoint width 0 transform
      let p2 := transformPoint width height transform
      let p3 := transformPoint 0 height transform
      let isAxisAligned := |p0.y - p1.y| < 1 / 100 ∧ |p1.x - p2.x| < 1 / 100
      if isAxisAligned then
        let attrs : List (String × AttrV) :=
          [("x", .num p0.x), ("y", .num p0.y), ("width", .num width),
           ("height", .num height)]
        let attrs := attrs ++
          (match fillColor with
           | some fc => [("fill", .str fc)]
           | none => [("fill", .str "none")])
        let attrs := attrs ++
          (match strokeColor with
           | some sc => [("stroke", .str sc),
               ("stroke-width", .num (node.core.strokeWeight.getD 1))]
           | none => [])
        let cornerRadius : Option ℚ :=
          match node.core.cornerRadius with
          | some (.num q) => some q
          | _ => none
        let attrs := attrs ++
          (match cornerRadius with
           | some cr =>
               if cr ≠ 0 then
                 let maxRadius := min width height / 2
                 let clampedRadius := min cr maxRadius
                 [("rx", .num clampedRadius), ("ry", .num clampedRadius)]
               else []
           | none => [])
        let attrs := attrs ++
          (match node.core.opacity with
           | some op => if op < 1 then [("opacity", .num op)] else []
           | none => [])
        (true, [.rectE attrs])
      else
        let pathD : List PathPart := [.move p0, .line p1, .line p2, .line p3, .close]
        let attrs : List (String × AttrV) := []
        let attrs := attrs ++
          (match fillColor with
           | some fc => [("fill", .str fc)]
           | none => [("fill", .str "none")])
        let attrs := attrs ++
          (match strokeColor with
           | some sc => [("stroke", .str sc),
               ("stroke-width", .num (node.core.strokeWeight.getD 1))]
           | none => [])
        let attrs := attrs ++
          (match node.core.opacity with
           | some op => if op < 1 then [("opacity", .num op)] else []
           | none => [])
        (true, [.pathE pathD attrs])

/-- `VECTOR_TYPES` (render-screen.ts). -/
def VECTOR_TYPES : List NodeType :=
  [.VECTOR, .LINE, .STAR, .REGULAR_POLYGON, .ELLIPSE, .BOOLEAN_OPERATION]

/-- `CONTAINER_TYPES` (render-screen.ts). -/
def CONTAINER_TYPES : List NodeType := [.FRAME, .GROUP, .COMPONENT, .INSTANCE]

/-- Replace every `fill` attribute value with white (the mask recoloring
regex of `renderMaskContent`). -/
def setFillWhite : Elem → Elem
  | .pathE d attrs => .pathE d (attrs.map fun kv =>
      if kv.1 = "fill" then (kv.1, .str "white") else kv)
  | .rectE attrs => .rectE (attrs.map fun kv =>
      if kv.1 = "fill" then (kv.1, .str "white") else kv)
  | el => el

/-- `renderMaskContent` (render-screen.ts lines 466-495): a mask's clip-path
content, from its fill geometry recolored white, else its axis-aligned
bounds. -/
def renderMaskContent (node : Node) (transform : TMat) (blobs : List BlobEntry)
    (ctx : RenderContext) : List Elem :=
  let width := node.core.width.getD 0
  let height := node.core.height.getD 0
  let fallback :=
    let pos := transformPoint 0 0 transform
    [Elem.rectE [("x", .num pos.x), ("y", .num pos.y), ("width", .num width),
      ("height", .num height), ("fill", .str "white")]]
  match node.core.fillGeometry with
  | some fg =>
      if fg.length > 0 then
        let (rendered, _, tempOutput) := renderFilledVector node transform blobs ctx
        if rendered ∧ tempOutput.length > 0 then tempOutput.map setFillWhite
        else fallback
      else fallback
  | none => fallback

/-- One option value (the TypeScript `RenderScreenOptions` value kinds). -/
inductive OptVal where
  | num (q : ℚ)
  | boolV (b : Bool)
  | str (s : String)
  | nodeIdx (m : List (String × Node))
  | rawIdx (m : List (String × JSVal))

/-- The resolved options record used by the render pass. -/
structure ResolvedOptions where
  maxDepth : ℚ
  includeText : Bool
  includeFills : Bool
  includeStrokes : Bool
  includeImages : Bool
  includeShadows : Bool
  background : String
  scale : ℚ
  nodeIndex : Option (List (String × Node))
  rawNodeIndex : Option (List (String × JSVal))

/-- Modelled from the spec: `DEFAULT_RENDER_OPTIONS` of the renderer's
render-types.ts, which is absent from the snapshot.  The defaults follow the
spec's options table; the experimental copy of render-types.ts in the
snapshot agrees on every field it shares. -/
def DEFAULT_RENDER_OPTIONS : ResolvedOptions :=
  { maxDepth := 200, includeText := true, includeFills := true, includeStrokes := true
    includeImages := false, includeShadows := true, background := "", scale := 1
    nodeIndex := none, rawNodeIndex := none }

/-- The recognized option keys of `RenderScreenOptions`. -/
def recognizedOptionKeys : List String :=
  ["maxDepth", "includeText", "includeFills", "includeStrokes", "includeImages",
   "includeShadows", "background", "scale", "nodeIndex", "rawNodeIndex"]

/-- The `{ ...DEFAULT_RENDER_OPTIONS, ...options }` spread of `renderScreen`:
every recognized key present in the options object overrides its default;
any other key lands on the resolved object but is never read.  (The
TypeScript option type fixes each key's value kind.) -/
def resolveOptions (options : List (String × OptVal)) : ResolvedOptions :=
  { maxDepth :=
      match mapGet options "maxDepth" with
      | some (.num q) => q
      | _ => DEFAULT_RENDER_OPTIONS.maxDepth
    includeText :=
      match mapGet options "includeText" with
      | some (.boolV b) => b
      | _ => DEFAULT_RENDER_OPTIONS.includeText
    includeFills :=
      match mapGet options "includeFills" with
      | some (.boolV b) => b
      | _ => DEFAULT_RENDER_OPTIONS.includeFills
    includeStrokes :=
      match mapGet options "includeStrokes" with
      | some (.boolV b) => b
      | _ => DEFAULT_RENDER_OPTIONS.includeStrokes
    includeImages :=
      match mapGet options "includeImages" with
      | some (.boolV b) => b
      | _ => DEFAULT_RENDER_OPTIONS.includeImages
    includeShadows :=
      match mapGet options "includeShadows" with
      | some (.boolV b) => b
      | _ => DEFAULT_RENDER_OPTIONS.includeShadows
    background :=
      match mapGet options "background" with
      | some (.str s) => s
      | _ => DEFAULT_RENDER_OPTIONS.background
    scale :=
      match mapGet options "scale" with
      | some (.num q) => q
      | _ => DEFAULT_RENDER_OPTIONS.scale
    nodeIndex :=
      match mapGet options "nodeIndex" with
      | some (.nodeIdx m) => some m
      | _ => DEFAULT_RENDER_OPTIONS.nodeIndex
    rawNodeIndex :=
      match mapGet options "rawNodeIndex" with
      | some (.rawIdx m) => some m
      | _ => DEFAULT_RENDER_OPTIONS.rawNodeIndex }

/-- `renderInstanceContent` (render-screen.ts lines 517-593): stacked text
and rectangle elements extracted from an INSTANCE's overrides. -/
def renderInstanceContent (resolved : ResolvedInstanceContent) (transform : TMat)
    (options : ResolvedOptions) : Bool × List Elem :=
  let inst := resolved.instanceNode
  let width := inst.core.width.getD 0
  let height := inst.core.height.getD 0
  if width = 0 ∨ height = 0 then (false, [])
  else
    let pos := transformPoint 0 0 transform
    let (textElems, rendered1) :=
      if options.includeText ∧ resolved.textContent.length > 0 then
        (resolved.textContent.enum.map fun p =>
          let textItem := p.2
          let yOffset : ℚ := (p.1 : ℚ) * 20
          let fillColor := (colorToCss textItem.fillColor).getD "#fff"
          let fontSize := textItem.fontSize.getD 14
          let fontFamily := escapeXml (textItem.fontFamily.getD "Inter")
          let textY := pos.y + yOffset + fontSize
          Elem.textE
            [("x", .num pos.x), ("y", .num textY), ("font-family", .str fontFamily),
             ("font-size", .num fontSize), ("fill", .str fillColor),
             ("dominant-baseline", .str "text-before-edge")]
            [⟨pos.x, 0, escapeXml textItem.text⟩], true)
      else ([], false)
    let (rectElems, rendered2) :=
      if options.includeFills then
        let els := resolved.elements.filterMap fun el =>
          if el.vtype = "rectangle" ∧ el.fillColor.isSome then
            let elSize := el.size.getD ⟨width, 30⟩
            let fillColor := colorToCss el.fillColor
            let strokeColor := el.strokeColor.bind fun sc => colorToCss (some sc)
            let radius := el.cornerRadius.getD 0
            let attrs : List (String × AttrV) :=
              [("x", .num pos.x), ("y", .num pos.y), ("width", .num elSize.x),
               ("height", .num elSize.y)]
            let attrs := attrs ++
              (match fillColor with
               | some fc => [("fill", .str fc)]
               | none => [("fill", .str "none")])
            let attrs := attrs ++
              (match strokeColor with
               | some sc => [("stroke", .str sc), ("stroke-width", .num 1)]
               | none => [])
            let attrs := attrs ++
              (if radius > 0 then [("rx", .num radius), ("ry", .num radius)] else [])
            some (Elem.rectE attrs)
          else none
        (els, decide (els.length > 0))
      else ([], false)
    (rendered1 || rendered2, textElems ++ rectElems)

/-- The own-primitive emission of `renderNode` (the type dispatch; the ctx is
read-only in every branch). -/
def renderOwnPrimitive (node : Node) (worldTransform : TMat)
    (options : ResolvedOptions) (images : Option (List (String × List ℕ)))
    (blobs : List BlobEntry) (ctx : RenderContext) : List Elem :=
  if node.core.type = .TEXT ∧ options.includeText then
    (renderText node worldTransform).2
  else if VECTOR_TYPES.contains node.core.type then
    let (r1, _, e1) :=
      if options.includeStrokes ∧ isStrokedVector node then
        renderStrokedVector node worldTransform blobs ctx
      else (false, ctx, [])
    let e2 :=
      if r1 = false ∧ options.includeFills then
        (renderFilledVector node worldTransform blobs ctx).2.2
      else []
    e1 ++ e2
  else if node.core.type = .RECTANGLE then
    if options.includeFills ∨ options.includeStrokes ∨ options.includeImages then
      (renderRectangle node worldTransform images options.includeImages).2
    else []
  else if CONTAINER_TYPES.contains node.core.type then
    if options.includeFills ∨ options.includeImages then
      let fills := getPaints node "fills"
      let fillPaint := getVisiblePaint fills
      let fillColor := paintToColor fillPaint
      let hasImageFill := (fillPaint.map (fun p => decide (p.ptype = "IMAGE"))).getD false
      if (fillColor.isSome || (options.includeImages && hasImageFill)) &&
          optNumTruthy node.core.width && optNumTruthy node.core.height then
        (renderRectangle node worldTransform images options.includeImages).2
      else []
    else []
  else []

/-- The INSTANCE children resolution of `renderNode` (lines 683-706): resolve
children from the SYMBOL definition via the supplied indices. -/
def resolveRenderChildren (node : Node) (options : ResolvedOptions) : List Node :=
  if node.core.type = .INSTANCE ∧ node.children.length = 0 ∧
      (node.core.symbolData.bind (·.symbolID)).isSome ∧ options.nodeIndex.isSome then
    let symbolId := formatGUID (node.core.symbolData.bind (·.symbolID))
    match mapGet (options.nodeIndex.getD []) symbolId with
    | some symbolNode =>
        match options.rawNodeIndex with
        | some rawIdx =>
            match resolveInstanceChildren node symbolNode rawIdx
                (options.nodeIndex.getD []) with
            | some resolved =>
                if resolved.length > 0 then resolved else symbolNode.children
            | none => symbolNode.children
        | none => symbolNode.children
    | none => node.children
  else node.children

/-- The extracted-instance-content fallback of `renderNode` (lines 708-725). -/
def instanceContentFallback (node : Node) (worldTransform : TMat)
    (options : ResolvedOptions) (resolvedChildren : List Node) : Bool × List Elem :=
  if node.core.type = .INSTANCE ∧ resolvedChildren.length = 0 ∧
      (node.core.symbolData.bind (·.symbolID)).isSome ∧ options.rawNodeIndex.isSome then
    let nodeId := formatGUID (some node.core.guid)
    match mapGet (options.rawNodeIndex.getD []) nodeId with
    | some rawNode =>
        match extractInstanceContent node (some rawNode) with
        | some resolved =>
            if resolved.textContent.length > 0 ∨ resolved.elements.length > 0 then
              renderInstanceContent resolved worldTransform options
            else (false, [])
        | none => (false, [])
    | none => (false, [])
  else (false, [])

mutual

/-- `renderNode` (render-screen.ts lines 597-811): depth/visibility guards,
world-transform composition, shadow filter, own primitive, instance
resolution, masked/clipped children, and the filter wrap.  The fuel only
drives termination (instance expansion recurses through the node index);
`renderScreen` seeds it beyond the depth the `maxDepth` guard admits, so the
fuel-exhaustion branch is unreachable. -/
def renderNode (fuel : ℕ) (node : Node) (parentTransform : TMat) (depth : ℕ)
    (options : ResolvedOptions) (images : Option (List (String × List ℕ)))
    (blobs : List BlobEntry) (ctx : RenderContext) : RenderContext × List Elem :=
  match fuel with
  | 0 => (ctx, [])
  | fuel + 1 =>
    if (depth : ℚ) > options.maxDepth then (ctx, [])
    else if node.core.visible = false then (ctx, [])
    else
      let localTransform := getLocalTransform node
      let worldTransform := multiplyTransforms parentTransform localTransform
      let (filterId, ctx) := generateEffectFilters node ctx options.includeShadows
      let prim := renderOwnPrimitive node worldTransform options images blobs ctx
      let resolvedChildren := resolveRenderChildren node options
      let (_, instElems) := instanceContentFallback node worldTransform options
        resolvedChildren
      let (ctx, childElems) :=
        if resolvedChildren.length > 0 then
          renderChildrenLoop fuel resolvedChildren worldTransform depth options images
            blobs ctx
        else (ctx, [])
      let clips := node.core.clipsContent = some true
      let (ctx, childrenPart) :=
        if resolvedChildren.length > 0 then
          if clips then
            if optNumTruthy node.core.width ∧ optNumTruthy node.core.height then
              let clipId := "clip-" ++ toString ctx.clipCounter
              let ctx := { ctx with clipCounter := ctx.clipCounter + 1 }
              let p0 := transformPoint 0 0 worldTransform
              let ctx := { ctx with defs := ctx.defs ++
                [.clipDef clipId [.rectE [("x", .num p0.x), ("y", .num p0.y),
                  ("width", .num (node.core.width.getD 0)),
                  ("height", .num (node.core.height.getD 0))]]] }
              (ctx, [Elem.gClip clipId childElems])
            else (ctx, [])
          else (ctx, childElems)
        else (ctx, [])
      let collected := prim ++ instElems ++ childrenPart
      match filterId with
      | some fid =>
          if collected.length > 0 then (ctx, [Elem.gFilter fid collected]) else (ctx, [])
      | none => (ctx, collected)
termination_by (fuel, 0)
decreasing_by
  exact Prod.Lex.left _ _ (by omega)

/-- The children while-loop of `renderNode` (lines 727-794): a masking child
opens a clipPath definition and groups the following non-mask siblings under
it; other children render directly. -/
def renderChildrenLoop (fuel : ℕ) (children : List Node) (worldTransform : TMat)
    (depth : ℕ) (options : ResolvedOptions) (images : Option (List (String × List ℕ)))
    (blobs : List BlobEntry) (ctx : RenderContext) : RenderContext × List Elem :=
  match children with
  | [] => (ctx, [])
  | child :: rest =>
    if child.core.isMask = some true then
      let maskId := "mask-" ++ toString ctx.clipCounter
      let ctx := { ctx with clipCounter := ctx.clipCounter + 1 }
      let childTransform := multiplyTransforms worldTransform (getLocalTransform child)
      let maskContent := renderMaskContent child childTransform blobs ctx
      let ctx := { ctx with defs := ctx.defs ++ [.clipUserDef maskId maskContent] }
      let grp := rest.takeWhile fun s => !(s.core.isMask = some true)
      let rest2 := rest.dropWhile fun s => !(s.core.isMask = some true)
      let (ctx, groupOut) := renderNodeList fuel grp worldTransform depth options
        images blobs ctx
      let (ctx, tail) := renderChildrenLoop fuel rest2 worldTransform depth options
        images blobs ctx
      (ctx, Elem.gClip maskId groupOut :: tail)
    else
      let (ctx, elems) := renderNode fuel child worldTransform (depth + 1) options
        images blobs ctx
      let (ctx, tail) := renderChildrenLoop fuel rest worldTransform depth options
        images blobs ctx
      (ctx, elems ++ tail)
termination_by (fuel, 2 * children.length + 1)
decreasing_by
  · apply Prod.Lex.right
    have h := (List.takeWhile_sublist
      (fun s => !decide (s.core.isMask = some true)) (l := rest)).length_le
    simp only [List.length_cons]
    omega
  · apply Prod.Lex.right
    have h := (List.dropWhile_sublist
      (fun s => !decide (s.core.isMask = some true)) (l := rest)).length_le
    simp only [List.length_cons]
    omega
  · apply Prod.Lex.right
    simp only [List.length_cons]
    omega
  · apply Prod.Lex.right
    simp only [List.length_cons]
    omega

/-- Sequential rendering of a masked sibling group (the inner while-loop of
the mask case). -/
def renderNodeList (fuel : ℕ) (ns : List Node) (worldTransform : TMat) (depth : ℕ)
    (options : ResolvedOptions) (images : Option (List (String × List ℕ)))
    (blobs : List BlobEntry) (ctx : RenderContext) : RenderContext × List Elem :=
  match ns with
  | [] => (ctx, [])
  | n :: rest =>
      let (ctx, elems) := renderNode fuel n worldTransform (depth + 1) options images
        blobs ctx
      let (ctx, tail) := renderNodeList fuel rest worldTransform depth options images
        blobs ctx
      (ctx, elems ++ tail)
termination_by (fuel, 2 * ns.length)
decreasing_by
  · apply Prod.Lex.right
    simp only [List.length_cons]
    omega
  · apply Prod.Lex.right
    simp only [List.length_cons]
    omega

end

/-- Union of two optional bounding boxes (the running min/max fold of
`collectBounds`, which starts from infinities and ignores null child
bounds). -/
def boundsUnion : Option BoundsR → Option BoundsR → Option BoundsR
  | none, b => b
  | a, none => a
  | some a, some b =>
      some ⟨min a.minX b.minX, min a.minY b.minY, max a.maxX b.maxX, max a.maxY b.maxY⟩

mutual

/-- `collectBounds` (render-screen.ts lines 817-870): the bounds pass.
Invisible subtrees contribute nothing; DOCUMENT/CANVAS nodes contribute only
their children; sized nodes contribute their four transformed corners. -/
def collectBounds (node : Node) (parentTransform : TMat) : Option BoundsR :=
  match node with
  | .mk core children =>
    if core.visible = false then none
    else
      let worldTransform := multiplyTransforms parentTransform
        (getLocalTransform (Node.mk core children))
      let isPageNode := core.type = .CANVAS ∨ core.type = .DOCUMENT
      let own : Option BoundsR :=
        if isPageNode = false ∧ core.width.isSome ∧ core.height.isSome then
          let w := core.width.getD 0
          let h := core.height.getD 0
          let c0 := transformPoint 0 0 worldTransform
          let c1 := transformPoint w 0 worldTransform
          let c2 := transformPoint w h worldTransform
          let c3 := transformPoint 0 h worldTransform
          some ⟨min (min (min c0.x c1.x) c2.x) c3.x,
                min (min (min c0.y c1.y) c2.y) c3.y,
                max (max (max c0.x c1.x) c2.x) c3.x,
                max (max (max c0.y c1.y) c2.y) c3.y⟩
        else none
      boundsUnion own (collectBoundsList children worldTransform)

def collectBoundsList (ns : List Node) (worldTransform : TMat) : Option BoundsR :=
  match ns with
  | [] => none
  | c :: rest =>
      boundsUnion (collectBounds c worldTransform) (collectBoundsList rest worldTransform)

end

/-! ## SVG serialization (the string assembly of the source's emission) -/

/-- One attribute rendered as `key="value"`. -/
def attrToString (kv : String × AttrV) : String :=
  kv.1 ++ "=\"" ++ (match kv.2 with | .num q => jsNumToString q | .str s => s) ++ "\""

/-- A space-separated attribute list. -/
def attrsToString (attrs : List (String × AttrV)) : String :=
  String.intercalate " " (attrs.map attrToString)

/-- One path part rendered into the `d` string. -/
def pathPartToString : PathPart → String
  | .close => "Z"
  | .move p => "M " ++ jsNumToString p.x ++ " " ++ jsNumToString p.y
  | .line p => "L " ++ jsNumToString p.x ++ " " ++ jsNumToString p.y
  | .quad p1 p2 => "Q " ++ jsNumToString p1.x ++ " " ++ jsNumToString p1.y ++ " " ++
      jsNumToString p2.x ++ " " ++ jsNumToString p2.y
  | .cubic p1 p2 p3 => "C " ++ jsNumToString p1.x ++ " " ++ jsNumToString p1.y ++ " " ++
      jsNumToString p2.x ++ " " ++ jsNumToString p2.y ++ " " ++
      jsNumToString p3.x ++ " " ++ jsNumToString p3.y

/-- The `d` attribute string (`parts.join(" ")`). -/
def pathDToString (d : List PathPart) : String :=
  String.intercalate " " (d.map pathPartToString)

/-- One tspan rendered as markup. -/
def tspanToString (t : TSpanR) : String :=
  "<tspan x=\"" ++ jsNumToString t.x ++ "\" dy=\"" ++ jsNumToString t.dy ++ "\">" ++
    t.text ++ "</tspan>"

mutual

/-- One emitted element rendered as markup. -/
def elemToString : Elem → String
  | .rectE attrs => "<rect " ++ attrsToString attrs ++ " />"
  | .pathE d attrs =>
      "<path d=\"" ++ pathDToString d ++ "\" " ++ attrsToString attrs ++ " />"
  | .textE attrs spans =>
      "<text " ++ attrsToString attrs ++ ">" ++
        String.join (spans.map tspanToString) ++ "</text>"
  | .imageE attrs => "<image " ++ attrsToString attrs ++ " />"
  | .gClip clipId content =>
      "<g clip-path=\"url(#" ++ clipId ++ ")\">" ++ elemsToString content ++ "</g>"
  | .gFilter filterId content =>
      "<g filter=\"url(#" ++ filterId ++ ")\">" ++ elemsToString content ++ "</g>"

def elemsToString : List Elem → String
  | [] => ""
  | e :: rest => elemToString e ++ elemsToString rest

end

/-- One defs entry rendered as markup (the filter templates of
render-screen.ts lines 95-171 and the two clipPath forms). -/
def defToString : DefE → String
  | .clipDef id content =>
      "<clipPath id=\"" ++ id ++ "\">" ++ elemsToString content ++ "</clipPath>"
  | .clipUserDef id content =>
      "<clipPath id=\"" ++ id ++ "\" clipPathUnits=\"userSpaceOnUse\">" ++
        elemsToString content ++ "</clipPath>"
  | .dropShadowSimpleDef id dx dy stdDev color =>
      "<filter id=\"" ++ id ++ "\" x=\"-50%\" y=\"-50%\" width=\"200%\" height=\"200%\">" ++
        "<feDropShadow dx=\"" ++ jsNumToString dx ++ "\" dy=\"" ++ jsNumToString dy ++
        "\" stdDeviation=\"" ++ jsNumToString stdDev ++ "\" flood-color=\"" ++ color ++
        "\" /></filter>"
  | .dropShadowSpreadDef id dx dy stdDev radius dilate color =>
      "<filter id=\"" ++ id ++ "\" x=\"-100%\" y=\"-100%\" width=\"300%\" height=\"300%\">" ++
        "<feGaussianBlur in=\"SourceAlpha\" stdDeviation=\"" ++ jsNumToString stdDev ++
        "\" result=\"blur\" />" ++
        "<feMorphology in=\"blur\" operator=\"" ++ (if dilate then "dilate" else "erode") ++
        "\" radius=\"" ++ jsNumToString radius ++ "\" result=\"spread\" />" ++
        "<feOffset in=\"spread\" dx=\"" ++ jsNumToString dx ++ "\" dy=\"" ++
        jsNumToString dy ++ "\" result=\"offsetBlur\" />" ++
        "<feFlood flood-color=\"" ++ color ++ "\" result=\"color\" />" ++
        "<feComposite in=\"color\" in2=\"offsetBlur\" operator=\"in\" result=\"shadow\" />" ++
        "<feMerge><feMergeNode in=\"shadow\" /><feMergeNode in=\"SourceGraphic\" />" ++
        "</feMerge></filter>"
  | .innerShadowDef id dx dy stdDev color =>
      "<filter id=\"" ++ id ++ "\" x=\"-50%\" y=\"-50%\" width=\"200%\" height=\"200%\">" ++
        "<feComponentTransfer in=\"SourceAlpha\" result=\"inverse\">" ++
        "<feFuncA type=\"table\" tableValues=\"1 0\" /></feComponentTransfer>" ++
        "<feGaussianBlur in=\"inverse\" stdDeviation=\"" ++ jsNumToString stdDev ++
        "\" result=\"blur\" />" ++
        "<feOffset in=\"blur\" dx=\"" ++ jsNumToString dx ++ "\" dy=\"" ++
        jsNumToString dy ++ "\" result=\"offsetBlur\" />" ++
        "<feFlood flood-color=\"" ++ color ++ "\" result=\"color\" />" ++
        "<feComposite in=\"color\" in2=\"offsetBlur\" operator=\"in\" result=\"shadow\" />" ++
        "<feComposite in=\"shadow\" in2=\"SourceAlpha\" operator=\"in\" result=\"innerShadow\" />" ++
        "<feMerge><feMergeNode in=\"SourceGraphic\" /><feMergeNode in=\"innerShadow\" />" ++
        "</feMerge></filter>"

/-- `RenderScreenResult` (render-types.ts). -/
structure RenderScreenResult where
  svg : String
  width : ℚ
  height : ℚ
  warnings : List String
  deriving Repr, DecidableEq

/-- The render fuel seeded by `renderScreen`: strictly more than the depth
the `maxDepth` guard admits, so `renderNode` never hits fuel exhaustion. -/
def renderFuel (maxDepth : ℚ) : ℕ := (max 0 ⌈maxDepth⌉).toNat + 2

/-- `renderScreen` (render-screen.ts lines 885-936): resolve the options,
seed a fresh context with zeroed id counters, run the bounds pass (with the
no-bounds early return), then the render pass, and assemble the SVG
string. -/
def renderScreen (node : Node) (images : Option (List (String × List ℕ)))
    (blobs : List BlobEntry) (options : List (String × OptVal)) :
    RenderScreenResult :=
  let resolved := resolveOptions options
  let ctx : RenderContext :=
    { defs := [], clipCounter := 0, shadowCounter := 0, warnings := [] }
  match collectBounds node IDENTITY_TRANSFORM with
  | none =>
      { svg := "", width := 0, height := 0
        warnings := ctx.warnings ++ ["No bounds found for node subtree"] }
  | some bounds =>
      let width := max 1 (bounds.maxX - bounds.minX)
      let height := max 1 (bounds.maxY - bounds.minY)
      let offsetTransform : TMat := ⟨1, 0, 0, 1, -bounds.minX, -bounds.minY⟩
      let output : List Elem :=
        if resolved.background ≠ "" then
          [.rectE [("width", .str "100%"), ("height", .str "100%"),
            ("fill", .str resolved.background)]]
        else []
      let (ctx, body) := renderNode (renderFuel resolved.maxDepth) node offsetTransform 0
        resolved images blobs ctx
      let output := output ++ body
      let defsStr :=
        if ctx.defs.length > 0 then
          "<defs>" ++ String.join (ctx.defs.map defToString) ++ "</defs>"
        else ""
      let scaledWidth := width * resolved.scale
      let scaledHeight := height * resolved.scale
      let svg :=
        "<?xml version=\"1.0\" encoding=\"UTF-8\"?>" ++
        "<svg xmlns=\"http://www.w3.org/2000/svg\" width=\"" ++
        jsNumToString scaledWidth ++ "\" height=\"" ++ jsNumToString scaledHeight ++
        "\" viewBox=\"0 0 " ++ jsNumToString width ++ " " ++ jsNumToString height ++
        "\">" ++ defsStr ++ elemsToString output ++ "</svg>"
      { svg := svg, width := width, height := height, warnings := ctx.warnings }

/-! ## Spec-side notions and concrete example inputs

The definitions below are not translations of repository functions: they are
the observation vocabulary the theorems are stated in (subtree enumerations,
path joining, command endpoints), plus concrete documents and nodes used to
instantiate the theorems. -/

mutual

/-- The preorder list of all nodes of a subtree (the node itself first). -/
def subtreeNodes : Node → List Node
  | .mk core children => Node.mk core children :: subtreeNodesFor children

/-- The concatenated preorder lists of a forest. -/
def subtreeNodesFor : List Node → List Node
  | [] => []
  | c :: rest => subtreeNodes c ++ subtreeNodesFor rest

end

/-- A node's formatted id (the key both indices use). -/
def nodeKey (n : Node) : String := formatGUID (some n.core.guid)

/-- The formatted ids of a subtree, in preorder. -/
def treeIds (n : Node) : List String := (subtreeNodes n).map nodeKey

/-- The formatted ids of a forest, in preorder. -/
def treeIdsFor (ns : List Node) : List String := (subtreeNodesFor ns).map nodeKey

/-- Append one path segment (the `path === "" ? id : path + "/" + id` step of
`buildNodePathIndex`). -/
def appendSeg (path seg : String) : String :=
  if path = "" then seg else path ++ "/" ++ seg

/-- Append a run of path segments onto a prefix path. -/
def joinPath (path : String) (ids : List String) : String := ids.foldl appendSeg path

/-- A `/`-joined id sequence (the claim-level reading of a path-index
value). -/
def slashJoined : List String → String
  | [] => ""
  | [x] => x
  | x :: rest => x ++ "/" ++ slashJoined rest

/-- The children a flat record sequence contributes to one parent key, in
record order: each truthy object record that materializes and names that
parent contributes its (childless) node. -/
def seqChildren (ncs : List JSVal) (pk : String) : List Node :=
  ncs.filterMap fun change =>
    if jsTruthy change = false ∨ jsIsObjectLike change = false then none
    else
      match convertToFigNode change with
      | none => none
      | some node =>
          if parentKeyOf change = some pk then some (node.withChildren []) else none

/-- The endpoint a path command moves the pen to (move/line: its point;
cubic: its last value pair; close: none). -/
def cmdEndpoint (c : PathCommand) : Option Vec2 :=
  match c.cmd with
  | 1 => some ⟨c.values.getD 0 0, c.values.getD 1 0⟩
  | 2 => some ⟨c.values.getD 0 0, c.values.getD 1 0⟩
  | 4 => some ⟨c.values.getD 4 0, c.values.getD 5 0⟩
  | _ => none

/-- Whether a point lies within the decode tolerance band around a
normalized size (2 units on each axis). -/
def withinTolerance (ns : Vec2) (p : Vec2) : Prop :=
  -2 ≤ p.x ∧ p.x ≤ ns.x + 2 ∧ -2 ≤ p.y ∧ p.y ≤ ns.y + 2

/-- A raw GUID object literal. -/
def guidObj (s l : ℚ) : JSVal :=
  .obj [("sessionID", .num s), ("localID", .num l)]

/-- A canvas.fig container whose schema chunk starts with the zstd magic and
whose data chunk does not: "fig-kiwi", version 1, a 4-byte schema chunk, a
2-byte data chunk. -/
def figSampleData : List ℕ :=
  [102, 105, 103, 45, 107, 105, 119, 105] ++ [1, 0, 0, 0] ++ [4, 0, 0, 0] ++
    [40, 181, 47, 253] ++ [2, 0, 0, 0] ++ [7, 8]

/-- The parse result of `figSampleData` under identity decompressors. -/
def figSampleParsed : ParsedChunks :=
  { version := 1, schemaBuffer := [40, 181, 47, 253], dataBuffer := [7, 8] }

/-- A DOCUMENT node-change record (guid 0:0). -/
def recDoc : JSVal :=
  .obj [("guid", guidObj 0 0), ("type", .str "DOCUMENT"), ("name", .str "Document")]

/-- A FRAME record parented to 0:0 with position token "b" (appears first). -/
def recB : JSVal :=
  .obj [("guid", guidObj 1 2), ("type", .str "FRAME"), ("name", .str "B"),
    ("parentIndex", .obj [("guid", guidObj 0 0), ("position", .str "b")])]

/-- A FRAME record parented to 0:0 with position token "a" (appears second). -/
def recA : JSVal :=
  .obj [("guid", guidObj 1 3), ("type", .str "FRAME"), ("name", .str "A"),
    ("parentIndex", .obj [("guid", guidObj 0 0), ("position", .str "a")])]

/-- The record sequence of the ordering example: document, then the "b"
child, then the "a" child. -/
def orderRecords : List JSVal := [recDoc, recB, recA]

/-- The tree the builder produces from `orderRecords`. -/
def orderRoot : Node := (buildTreeFromNodeChanges orderRecords).getD (Node.mk {} [])

/-- A 100×40 RECTANGLE with a solid red fill and scalar cornerRadius 100. -/
def rectNode100x40 : Node :=
  Node.mk
    { guid := ⟨1, 7⟩, type := .RECTANGLE, name := "Rect", width := some 100,
      height := some 40, cornerRadius := some (.num 100),
      fills := some [{ ptype := "SOLID", color := some ⟨1, 0, 0, none⟩ }] } []

/-- A LINE with `normalizedSize {x:10, y:0}`, strokeWeight 2, a solid black
stroke and no vector network (the seeded fallback scenario). -/
def lineNode10x0 : Node :=
  let vd : VectorDataR := { normalizedSize := some ⟨10, 0⟩ }
  Node.mk
    { guid := ⟨1, 8⟩, type := .LINE, name := "Line", width := some 10, height := some 0,
      strokeWeight := some 2,
      strokes := some [{ ptype := "SOLID", color := some ⟨0, 0, 0, none⟩ }],
      vectorData := some vd } []

/-- An invisible root node: its bounds pass yields no bounds. -/
def invisibleRoot : Node :=
  Node.mk
    { guid := ⟨1, 9⟩, type := .FRAME, name := "Hidden", visible := false,
      width := some 50, height := some 50 } []

/-- A blob whose header declares 1001 vertices and 1 segment. -/
def overCountBlob : BlobEntry := ⟨[233, 3, 0, 0] ++ [1, 0, 0, 0] ++ [0, 0, 0, 0]⟩

/-- A two-vertex network whose first vertex lies left of the tolerance band. -/
def outOfBandNetwork : DecodedVectorNetwork :=
  ⟨[⟨-5, 0⟩, ⟨0, 0⟩], [⟨⟨0, 0, 0⟩, ⟨1, 0, 0⟩⟩]⟩

/-- A two-vertex network, both vertices in band, one straight segment. -/
def inBandNetwork : DecodedVectorNetwork :=
  ⟨[⟨0, 0⟩, ⟨1, 0⟩], [⟨⟨0, 0, 0⟩, ⟨1, 0, 0⟩⟩]⟩

/-- A two-vertex in-band network whose segment carries a start handle of
dx = 100, far outside the tolerance band. -/
def wildHandleNetwork : DecodedVectorNetwork :=
  ⟨[⟨0, 0⟩, ⟨1, 0⟩], [⟨⟨0, 100, 0⟩, ⟨1, 0, 0⟩⟩]⟩

/-- A record with an unrecognized numeric type tag. -/
def numTypeRecord : JSVal := .obj [("type", .num 77), ("guid", guidObj 2 1)]

/-- The node materialized from `numTypeRecord`. -/
def numTypeNode : Node := (convertToFigNode numTypeRecord).getD (Node.mk {} [])

/-- A three-node tree with pairwise distinct ids, for the index example. -/
def indexTree : Node :=
  Node.mk { guid := ⟨0, 0⟩, type := .DOCUMENT, name := "Doc" }
    [Node.mk { guid := ⟨1, 1⟩, type := .CANVAS, name := "Page" }
      [Node.mk { guid := ⟨1, 2⟩, type := .FRAME, name := "Frame" } []]]

/-- The grandchild of `indexTree`. -/
def indexLeaf : Node := Node.mk { guid := ⟨1, 2⟩, type := .FRAME, name := "Frame" } []

/-! ## Helper lemmas -/

/-- Looking a key up after `mapSet` with the same key yields the new value. -/
theorem mapGet_mapSet_self {α : Type} (m : List (String × α)) (k : String) (v : α) :
    mapGet (mapSet m k v) k = some v := by
  induction m with
  | nil => simp [mapSet, mapGet]
  | cons hd tl ih =>
      obtain ⟨k', v'⟩ := hd
      by_cases h : k' = k
      · subst h; simp [mapSet, mapGet]
      · simp [mapSet, mapGet, h, ih]

/-- `mapSet` leaves other keys unchanged. -/
theorem mapGet_mapSet_ne {α : Type} (m : List (String × α)) (k k' : String) (v : α)
    (h : k ≠ k') : mapGet (mapSet m k v) k' = mapGet m k' := by
  induction m with
  | nil => simp [mapSet, mapGet, h]
  | cons hd tl ih =>
      obtain ⟨k0, v0⟩ := hd
      by_cases h0 : k0 = k
      · subst h0; simp [mapSet, mapGet, h]
      · simp [mapSet, mapGet, h0, ih]

/-- `mapPush` appends to the pushed key's group. -/
theorem mapGet_mapPush_self {α : Type} (m : List (String × List α)) (k : String) (x : α) :
    (mapGet (mapPush m k x) k).getD [] = (mapGet m k).getD [] ++ [x] := by
  induction m with
  | nil => simp [mapPush, mapGet]
  | cons hd tl ih =>
      obtain ⟨k0, l0⟩ := hd
      by_cases h0 : k0 = k
      · subst h0; simp [mapPush, mapGet]
      · simp [mapPush, mapGet, h0, ih]

/-- `mapPush` leaves other keys' groups unchanged. -/
theorem mapGet_mapPush_ne {α : Type} (m : List (String × List α)) (k k' : String) (x : α)
    (h : k ≠ k') : mapGet (mapPush m k x) k' = mapGet m k' := by
  induction m with
  | nil => simp [mapPush, mapGet, h]
  | cons hd tl ih =>
      obtain ⟨k0, l0⟩ := hd
      by_cases h0 : k0 = k
      · subst h0; simp [mapPush, mapGet, h]
      · simp [mapPush, mapGet, h0, ih]

/-- A hit in the left list survives appending on the right. -/
theorem mapGet_append_some {α : Type} (l l' : List (String × α)) (k : String) (v : α)
    (h : mapGet l k = some v) : mapGet (l ++ l') k = some v := by
  induction l with
  | nil => simp [mapGet] at h
  | cons hd tl ih =>
      obtain ⟨k0, v0⟩ := hd
      by_cases h0 : k0 = k
      · subst h0; simp_all [mapGet]
      · simp_all [mapGet, h0]

/-- `List.getD` inside a long-enough prefix. -/
theorem getD_take_eq (l : List ℕ) (n i : ℕ) (h : i < n) :
    (l.take n).getD i 0 = l.getD i 0 := by
  induction l generalizing n i with
  | nil => simp
  | cons hd tl ih =>
      cases n with
      | zero => omega
      | succ n =>
          cases i with
          | zero => simp [List.getD]
          | succ i => simpa [List.getD] using ih n i (by omega)

/-- `readUint32LE` at offset 0 reads only the first four bytes. -/
theorem readUint32LE_take4 (d : List ℕ) : readUint32LE d 0 = readUint32LE (d.take 4) 0 := by
  unfold readUint32LE
  rw [getD_take_eq d 4 0 (by omega), getD_take_eq d 4 1 (by omega),
    getD_take_eq d 4 2 (by omega), getD_take_eq d 4 3 (by omega)]

/-! ## C8: chunk decompression scheme -/

/-- C8: the decompression scheme of an inner-document chunk is chosen solely
from its first four bytes — it is zstd exactly when they read as the
little-endian u32 0xFD2FB528 and raw deflate otherwise — and `parseCanvasFig`
applies this same discrimination (`decompressChunk`) to both the schema chunk
and the data chunk. -/
theorem chunk_scheme_from_first_four_bytes :
    (∀ d d' : List ℕ, d.take 4 = d'.take 4 → chunkScheme d = chunkScheme d') ∧
    (∀ d : List ℕ, chunkScheme d = Scheme.zstd ↔ readUint32LE d 0 = ZSTD_MAGIC) ∧
    (∀ (inflateRaw zstdDecompress : List ℕ → List ℕ) (d : List ℕ),
      decompressChunk inflateRaw zstdDecompress d =
        match chunkScheme d with
        | .zstd => zstdDecompress d
        | .deflate => inflateRaw d) ∧
    (∀ (inflateRaw zstdDecompress : List ℕ → List ℕ) (data : List ℕ) (pc : ParsedChunks),
      parseCanvasFig inflateRaw zstdDecompress data = some pc →
        pc.schemaBuffer = decompressChunk inflateRaw zstdDecompress (schemaChunkOf data) ∧
        pc.dataBuffer = decompressChunk inflateRaw zstdDecompress (dataChunkOf data)) := by
  refine ⟨?_, ?_, ?_, ?_⟩
  · intro d d' h
    unfold chunkScheme
    rw [readUint32LE_take4 d, readUint32LE_take4 d', h]
  · intro d
    unfold chunkScheme
    split <;> simp_all
  · intro f g d
    unfold decompressChunk chunkScheme
    split <;> rfl
  · intro f g data pc h
    unfold parseCanvasFig at h
    split at h
    · cases h
      exact ⟨rfl, rfl⟩
    · cases h

/-- Witness for C8 at the concrete container `figSampleData`: the schema
chunk carries the zstd magic, the data chunk does not, and the parse result
decompresses both chunks through `decompressChunk`. -/
theorem chunk_scheme_from_first_four_bytes_witness :
    (chunkScheme [40, 181, 47, 253] = chunkScheme [40, 181, 47, 253, 9, 9] ∧
      chunkScheme [40, 181, 47, 253] = Scheme.zstd ∧ chunkScheme [7, 8] = Scheme.deflate) ∧
    (figSampleParsed.schemaBuffer = decompressChunk id id (schemaChunkOf figSampleData) ∧
      figSampleParsed.dataBuffer = decompressChunk id id (dataChunkOf figSampleData)) := by
  constructor
  · refine ⟨chunk_scheme_from_first_four_bytes.1 _ _ (by decide), by decide, by decide⟩
  · exact chunk_scheme_from_first_four_bytes.2.2.2 id id figSampleData figSampleParsed
      (by decide)

/-! ## C10: node type mapping -/

/-- The initial literal's type field is the mapped type. -/
theorem convertBase_type (raw : JSVal) :
    (convertBase raw).type = getNodeTypeName (getField raw "type") := rfl

/-- Paint aliasing does not touch the type field. -/
theorem convertPaintAliases_type (raw : JSVal) (c : NodeCore) :
    (convertPaintAliases raw c).type = c.type := by
  simp only [convertPaintAliases]
  repeat' split
  all_goals rfl

/-- The copy-loop guard combinator preserves the type field whenever its
update does (stated against an arbitrary right-hand side to chain through
the copy loop). -/
theorem ifDefined_type_trans (s : JSVal) (c : NodeCore) (t : NodeType)
    (f : JSVal → NodeCore) (hc : c.type = t) (hf : ∀ v, (f v).type = c.type) :
    (ifDefined s c f).type = t := by
  cases s
  case undef => exact hc
  all_goals exact (hf _).trans hc

/-- The first props block does not touch the type field. -/
theorem convertProps1_type (raw : JSVal) (c : NodeCore) :
    (convertProps1 raw c).type = c.type := by
  simp only [convertProps1]
  repeat' apply ifDefined_type_trans
  all_goals first | rfl | (intro v; rfl)

/-- The second props block does not touch the type field. -/
theorem convertProps2_type (raw : JSVal) (c : NodeCore) :
    (convertProps2 raw c).type = c.type := by
  simp only [convertProps2]
  repeat' apply ifDefined_type_trans
  all_goals first | rfl | (intro v; rfl)

/-- The third props block does not touch the type field. -/
theorem convertProps3_type (raw : JSVal) (c : NodeCore) :
    (convertProps3 raw c).type = c.type := by
  simp only [convertProps3]
  repeat' apply ifDefined_type_trans
  all_goals first | rfl | (intro v; rfl)

/-- The textData fallback does not touch the type field. -/
theorem convertTextDataChars_type (raw : JSVal) (c : NodeCore) :
    (convertTextDataChars raw c).type = c.type := by
  simp only [convertTextDataChars]
  repeat' split
  all_goals rfl

/-- The derivedTextData block does not touch the type field. -/
theorem convertDerivedTextData_type (raw : JSVal) (c : NodeCore) :
    (convertDerivedTextData raw c).type = c.type := by
  simp only [convertDerivedTextData]
  repeat' split
  all_goals rfl

/-- The style-inference block does not touch the type field. -/
theorem convertStyleInference_type (raw : JSVal) (c : NodeCore) :
    (convertStyleInference raw c).type = c.type := by
  simp only [convertStyleInference]
  repeat' split
  all_goals rfl

/-- The bounds fallback does not touch the type field. -/
theorem convertBoundsFallback_type (raw : JSVal) (c : NodeCore) :
    (convertBoundsFallback raw c).type = c.type := by
  simp only [convertBoundsFallback]
  repeat' split
  all_goals rfl

/-- The size-field block does not touch the type field. -/
theorem convertSizeField_type (raw : JSVal) (c : NodeCore) :
    (convertSizeField raw c).type = c.type := by
  simp only [convertSizeField]
  repeat' split
  all_goals rfl

/-- The transform-position block does not touch the type field. -/
theorem convertTransformPosition_type (raw : JSVal) (c : NodeCore) :
    (convertTransformPosition raw c).type = c.type := by
  simp only [convertTransformPosition]
  repeat' split
  all_goals rfl

/-- The symbolData block does not touch the type field. -/
theorem convertSymbolData_type (raw : JSVal) (c : NodeCore) :
    (convertSymbolData raw c).type = c.type := by
  simp only [convertSymbolData]
  repeat' split
  all_goals rfl

/-- The converted core's type is the mapped type of the raw `type` field. -/
theorem convertCore_type (raw : JSVal) :
    (convertCore raw).type = getNodeTypeName (getField raw "type") := by
  simp only [convertCore, convertSymbolData_type, convertTransformPosition_type,
    convertSizeField_type, convertBoundsFallback_type, convertStyleInference_type,
    convertDerivedTextData_type, convertTextDataChars_type, convertProps3_type,
    convertProps2_type, convertProps1_type, convertPaintAliases_type, convertBase_type]

/-- A successful fuelled conversion's core is `convertCore`. -/
theorem convertToFigNodeGo_core (fuel : ℕ) (raw : JSVal) (n : Node)
    (h : convertToFigNodeGo fuel raw = some n) : n.core = convertCore raw := by
  cases fuel with
  | zero => simp [convertToFigNodeGo] at h
  | succ k =>
      unfold convertToFigNodeGo at h
      split at h
      · cases h
      · cases h
        rfl

/-- The measure of a dynamic value is positive. -/
theorem jsMSize_pos (v : JSVal) : 0 < jsMSize v := by
  cases v <;> simp [jsMSize]

/-- C10: node type mapping is total over the closed enumeration:
`getNodeTypeName` equals the typeMap lookup with "FRAME" as the fallback, so
every unrecognized value (and the absent/null values) maps to FRAME; object
records always materialize (`convertToFigNode` succeeds on every object), and
a materialized node's type is exactly `getNodeTypeName` of the record's raw
`type` field. -/
theorem node_type_mapping_total :
    (∀ v : JSVal, getNodeTypeName v = (typeMapLookup v).getD NodeType.FRAME) ∧
    (∀ v : JSVal, typeMapLookup v = none → getNodeTypeName v = NodeType.FRAME) ∧
    getNodeTypeName .undef = NodeType.FRAME ∧
    getNodeTypeName .null = NodeType.FRAME ∧
    (∀ fields : List (String × JSVal), (convertToFigNode (.obj fields)).isSome) ∧
    (∀ (raw : JSVal) (n : Node), convertToFigNode raw = some n →
      n.core.type = getNodeTypeName (getField raw "type")) := by
  have h1 : ∀ v : JSVal, getNodeTypeName v = (typeMapLookup v).getD NodeType.FRAME := by
    intro v
    cases v <;> rfl
  refine ⟨h1, ?_, rfl, rfl, ?_, ?_⟩
  · intro v hv
    rw [h1, hv]
    rfl
  · intro fields
    obtain ⟨k, hk⟩ : ∃ k, jsMSize (JSVal.obj fields) = k + 1 :=
      ⟨jsMSize (JSVal.obj fields) - 1, by have := jsMSize_pos (JSVal.obj fields); omega⟩
    unfold convertToFigNode
    rw [hk]
    unfold convertToFigNodeGo
    split
    · rename_i hguard
      simp [jsTruthy, jsIsObjectLike] at hguard
    · simp
  · intro raw n h
    rw [convertToFigNodeGo_core (jsMSize raw) raw n h, convertCore_type]

/-- Witness for C10: an unrecognized string maps to FRAME, and the node
materialized from a record whose type tag is the unrecognized number 77 has
type FRAME (the mapped value of its raw type field). -/
theorem node_type_mapping_total_witness :
    getNodeTypeName (.str "BOGUS_TYPE") = NodeType.FRAME ∧
    (convertToFigNode numTypeRecord).isSome ∧
    numTypeNode.core.type = getNodeTypeName (getField numTypeRecord "type") ∧
    numTypeNode.core.type = NodeType.FRAME := by
  refine ⟨node_type_mapping_total.2.1 (.str "BOGUS_TYPE") (by decide), ?_, ?_, ?_⟩
  · exact node_type_mapping_total.2.2.2.2.1 [("type", .num 77), ("guid", guidObj 2 1)]
  · exact node_type_mapping_total.2.2.2.2.2 numTypeRecord numTypeNode
      (by with_unfolding_all rfl)
  · with_unfolding_all decide

/-! ## C1: renderScreen determinism -/

/-- C1: `renderScreen` is deterministic: it is a pure function of its four
arguments (node, image map, blob array, options record), so two calls with
identical arguments return identical results — svg string, width, height and
warnings alike.  The embedding makes the source's only mutable state (the
defs list and the filter/clip id counters) explicit: `renderScreen` builds a
fresh context with counters seeded to zero on every call, so no state leaks
between calls. -/
theorem renderScreen_deterministic :
    ∀ (node : Node) (images : Option (List (String × List ℕ)))
      (blobs : List BlobEntry) (options : List (String × OptVal)),
      renderScreen node images blobs options = renderScreen node images blobs options ∧
      (renderScreen node images blobs options).svg =
        (renderScreen node images blobs options).svg ∧
      (renderScreen node images blobs options).warnings =
        (renderScreen node images blobs options).warnings :=
  fun _ _ _ _ => ⟨rfl, rfl, rfl⟩

/-! ## C7: no-bounds render result -/

/-- C7 (amended): whenever the bounds pass over the subtree yields no bounds,
`renderScreen` returns the empty svg string, width 0, height 0, and a
warnings list holding the single warning "No bounds found for node subtree"
(not "no bounds"), and emits no primitives. -/
theorem render_no_bounds_result (node : Node) (images : Option (List (String × List ℕ)))
    (blobs : List BlobEntry) (options : List (String × OptVal))
    (h : collectBounds node IDENTITY_TRANSFORM = none) :
    renderScreen node images blobs options =
      { svg := "", width := 0, height := 0,
        warnings := ["No bounds found for node subtree"] } := by
  unfold renderScreen
  rw [h]
  rfl

/-- Witness for C7 at the invisible root, whose bounds pass yields nothing. -/
theorem render_no_bounds_result_witness :
    renderScreen invisibleRoot none [] [] =
      { svg := "", width := 0, height := 0,
        warnings := ["No bounds found for node subtree"] } :=
  render_no_bounds_result invisibleRoot none [] [] (by with_unfolding_all rfl)

/-- Counterexample to C7 as stated: the no-bounds warning text is
"No bounds found for node subtree", so the warnings list differs from the
claimed `["no bounds"]`. -/
theorem render_no_bounds_warning_text_counterexample :
    renderScreen invisibleRoot none [] [] =
      { svg := "", width := 0, height := 0,
        warnings := ["No bounds found for node subtree"] } ∧
    (renderScreen invisibleRoot none [] []).warnings ≠ ["no bounds"] := by
  constructor
  · with_unfolding_all decide
  · with_unfolding_all decide

/-! ## C3: unknown option keys -/

/-- C3 (amended): an options entry whose key is outside the recognized
option set is silently ignored — `renderScreen` returns exactly what it
returns without that entry.  (The spread `{...DEFAULT_RENDER_OPTIONS,
...options}` copies unknown keys onto the resolved record, where nothing
reads them; no check rejects them.) -/
theorem unknown_option_keys_ignored (node : Node)
    (images : Option (List (String × List ℕ))) (blobs : List BlobEntry)
    (key : String) (v : OptVal) (opts : List (String × OptVal))
    (h : key ∉ recognizedOptionKeys) :
    renderScreen node images blobs ((key, v) :: opts) =
      renderScreen node images blobs opts := by
  have hres : resolveOptions ((key, v) :: opts) = resolveOptions opts := by
    simp only [recognizedOptionKeys, List.mem_cons, List.mem_singleton, not_or] at h
    obtain ⟨h1, h2, h3, h4, h5, h6, h7, h8, h9, h10⟩ := h
    simp [resolveOptions, mapGet, h1, h2, h3, h4, h5, h6, h7, h8, h9, h10]
  unfold renderScreen
  rw [hres]

/-- Witness for C3 at a concrete unknown key: rendering the example
rectangle with `{bogusKey: true}` equals rendering it with no options. -/
theorem unknown_option_keys_ignored_witness :
    renderScreen rectNode100x40 none [] [("bogusKey", OptVal.boolV true)] =
      renderScreen rectNode100x40 none [] [] :=
  unknown_option_keys_ignored rectNode100x40 none [] "bogusKey" (OptVal.boolV true) []
    (by decide)

/-- Counterexample to C3 as stated: with the unknown key "bogusKey" present,
the renderer does not fail — it renders the rectangle normally (real size,
non-empty svg, no warnings). -/
theorem unknown_option_fatal_counterexample :
    ("bogusKey" ∉ recognizedOptionKeys) ∧
    (renderScreen rectNode100x40 none [] [("bogusKey", OptVal.boolV true)]).width = 100 ∧
    (renderScreen rectNode100x40 none [] [("bogusKey", OptVal.boolV true)]).height = 40 ∧
    (renderScreen rectNode100x40 none [] [("bogusKey", OptVal.boolV true)]).warnings = [] ∧
    (renderScreen rectNode100x40 none [] [("bogusKey", OptVal.boolV true)]).svg ≠ "" := by
  refine ⟨by decide, ?_, ?_, ?_, ?_⟩
  all_goals with_unfolding_all decide

/-! ## C2: child ordering in the tree builder -/

/-- `Node.children` of `Node.withChildren`. -/
theorem Node.children_withChildren (n : Node) (cs : List Node) :
    (n.withChildren cs).children = cs := by
  cases n
  rfl

/-- `Node.core` of `Node.withChildren`. -/
theorem Node.core_withChildren (n : Node) (cs : List Node) :
    (n.withChildren cs).core = n.core := by
  cases n
  rfl

/-- The first pass groups children under each parent key in record order:
folding `buildStep` appends exactly the sequence-ordered contributions of the
records to every parent group. -/
theorem childrenMap_foldl (ncs : List JSVal) : ∀ (st : TreeBuildState) (pk : String),
    (mapGet (ncs.foldl buildStep st).childrenMap pk).getD [] =
      (mapGet st.childrenMap pk).getD [] ++ seqChildren ncs pk := by
  induction ncs with
  | nil =>
      intro st pk
      simp [seqChildren]
  | cons change rest ih =>
      intro st pk
      rw [List.foldl_cons, ih]
      by_cases hg : jsTruthy change = false ∨ jsIsObjectLike change = false
      · have hb : buildStep st change = st := by rw [buildStep, if_pos hg]
        have hf : seqChildren (change :: rest) pk = seqChildren rest pk := by
          simp only [seqChildren, List.filterMap_cons, if_pos hg]
        rw [hb, hf]
      · cases hconv : convertToFigNode change with
        | none =>
            have hb : buildStep st change = st := by
              simp only [buildStep, if_neg hg, hconv]
            have hf : seqChildren (change :: rest) pk = seqChildren rest pk := by
              simp only [seqChildren, List.filterMap_cons, if_neg hg, hconv]
            rw [hb, hf]
        | some node =>
            have hb : (buildStep st change).childrenMap =
                match parentKeyOf change with
                | some parentKey =>
                    mapPush st.childrenMap parentKey (node.withChildren [])
                | none => st.childrenMap := by
              simp only [buildStep, if_neg hg, hconv]
              split <;> split <;> rfl
            cases hpk : parentKeyOf change with
            | none =>
                rw [hb, hpk]
                have hf : seqChildren (change :: rest) pk = seqChildren rest pk := by
                  simp [seqChildren, List.filterMap_cons, if_neg hg, hconv, hpk]
                rw [hf]
            | some parentKey =>
                rw [hb, hpk]
                by_cases heq : parentKey = pk
                · subst heq
                  have hf : seqChildren (change :: rest) parentKey =
                      node.withChildren [] :: seqChildren rest parentKey := by
                    simp [seqChildren, List.filterMap_cons, if_neg hg, hconv, hpk]
                  rw [hf, mapGet_mapPush_self]
                  simp
                · have hf : seqChildren (change :: rest) pk = seqChildren rest pk := by
                    simp [seqChildren, List.filterMap_cons, if_neg hg, hconv, hpk, heq]
                  rw [hf, mapGet_mapPush_ne _ _ _ _ heq]

/-- C2 (amended): the tree builder assembles each parent's children group in
flat-sequence record order — the `parentIndex.position` tokens are never
consulted — and the built tree's root carries exactly its sequence-ordered
group (each child recursively attached). -/
theorem tree_build_children_in_record_order :
    (∀ (ncs : List JSVal) (pk : String),
      (mapGet ((ncs.foldl buildStep {} : TreeBuildState)).childrenMap pk).getD [] =
        seqChildren ncs pk) ∧
    (∀ (ncs : List JSVal) (root : Node),
      buildTreeFromNodeChanges ncs = some root →
      root.children =
        (seqChildren ncs (formatGUID (some root.core.guid))).map
          (attachChildren ncs.length (ncs.foldl buildStep {}).childrenMap)) := by
  have h1 : ∀ (ncs : List JSVal) (pk : String),
      (mapGet ((ncs.foldl buildStep {} : TreeBuildState)).childrenMap pk).getD [] =
        seqChildren ncs pk := by
    intro ncs pk
    rw [childrenMap_foldl]
    rfl
  refine ⟨h1, ?_⟩
  intro ncs root h
  unfold buildTreeFromNodeChanges at h
  dsimp only at h
  cases hdoc : (ncs.foldl buildStep {} : TreeBuildState).documentNode with
  | none =>
      rw [hdoc] at h
      cases h
  | some doc =>
      rw [hdoc] at h
      simp only [Option.map_some'] at h
      injection h with h
      subst h
      rw [attachChildren, Node.children_withChildren, Node.core_withChildren]
      rw [← h1 ncs (formatGUID (some doc.core.guid))]

/-- Witness for C2 at the concrete record sequence `orderRecords`. -/
theorem tree_build_children_in_record_order_witness :
    orderRoot.children =
      (seqChildren orderRecords (formatGUID (some orderRoot.core.guid))).map
        (attachChildren orderRecords.length
          (orderRecords.foldl buildStep {}).childrenMap) :=
  tree_build_children_in_record_order.2 orderRecords orderRoot
    (by with_unfolding_all rfl)

/-- Counterexample to C2 as stated: in `orderRecords` the children's position
tokens are "b" (first record) and "a" (second); lexicographic ordering of the
tokens would put the "a" child first, but the built tree keeps record order
["B", "A"]. -/
theorem tree_build_position_sort_counterexample :
    ((buildTreeFromNodeChanges orderRecords).map fun t =>
      t.children.map (·.core.name)) = some ["B", "A"] ∧
    jsStr? (getField (getField recB "parentIndex") "position") = some "b" ∧
    jsStr? (getField (getField recA "parentIndex") "position") = some "a" ∧
    "a" < "b" ∧ (["B", "A"] : List String) ≠ ["A", "B"] := by
  refine ⟨by with_unfolding_all rfl, by decide, by decide,
    by with_unfolding_all decide, by decide⟩

/-! ## C4: rectangle corner-radius clamp -/

/-- C4: for every axis-aligned rectangle with width w, height h and scalar
cornerRadius r > 0 whose fill or stroke renders (and no image fill is
emitted), the emitted rect element carries rx = ry = min(r, min(w, h) / 2). -/
theorem rectangle_corner_radius_clamped (node : Node) (t : TMat)
    (images : Option (List (String × List ℕ))) (includeImages : Bool) (w h r : ℚ)
    (hw : node.core.width = some w) (hh : node.core.height = some h)
    (hr : node.core.cornerRadius = some (.num r)) (hrpos : 0 < r)
    (himg : renderRectangleImage node t images includeImages
      (getVisiblePaint (getPaints node "fills")) = none)
    (hpaint : ¬(paintToColor (getVisiblePaint (getPaints node "fills")) = none ∧
      paintToColor (getVisiblePaint (getPaints node "strokes")) = none))
    (haxis : |(transformPoint 0 0 t).y - (transformPoint w 0 t).y| < 1 / 100 ∧
      |(transformPoint w 0 t).x - (transformPoint w h t).x| < 1 / 100) :
    ∃ attrs, renderRectangle node t images includeImages = (true, [.rectE attrs]) ∧
      mapGet attrs "rx" = some (.num (min r (min w h / 2))) ∧
      mapGet attrs "ry" = some (.num (min r (min w h / 2))) := by
  unfold renderRectangle
  dsimp only
  rw [himg, hw, hh, hr]
  simp only [Option.getD_some]
  rw [if_neg hpaint, if_pos haxis, if_pos hrpos.ne']
  refine ⟨_, rfl, ?_, ?_⟩ <;>
    · rcases hf : paintToColor (getVisiblePaint (getPaints node "fills")) with _ | fc <;>
        rcases hs : paintToColor (getVisiblePaint (getPaints node "strokes")) with _ | sc
      · exact absurd ⟨hf, hs⟩ hpaint
      all_goals simp [mapGet]

/-- Witness for C4: the 100×40 rectangle with cornerRadius 100 is emitted
with rx = ry = min(100, min(100,40)/2) = 20. -/
theorem rectangle_corner_radius_clamped_witness :
    (∃ attrs, renderRectangle rectNode100x40 IDENTITY_TRANSFORM none false =
        (true, [.rectE attrs]) ∧
      mapGet attrs "rx" = some (.num (min 100 (min 100 40 / 2))) ∧
      mapGet attrs "ry" = some (.num (min 100 (min 100 40 / 2)))) ∧
    min (100 : ℚ) (min 100 40 / 2) = 20 := by
  constructor
  · exact rectangle_corner_radius_clamped rectNode100x40 IDENTITY_TRANSFORM none false
      100 40 100 rfl rfl rfl (by decide) (by with_unfolding_all rfl)
      (by with_unfolding_all decide) (by with_unfolding_all decide)
  · with_unfolding_all decide

/-! ## C6: stroked vector diagonal fallback -/

/-- C6: for a stroked vector with a visible solid stroke whose structured
and blob network decodes both fail and whose normalizedSize is nonzero, the
renderer emits exactly one stroked path — built from the fallback line
(0,0)→(ns.x, ns.y) — whose stroke-width equals the node's strokeWeight, and
the context (including its warnings) is returned unchanged. -/
theorem stroked_vector_diagonal_fallback (node : Node) (t : TMat)
    (blobs : List BlobEntry) (ctx : RenderContext) (c : String) (ns : Vec2) (w : ℚ)
    (hstroke : paintToColor (getVisiblePaint (getPaints node "strokes")) = some c)
    (hsz : node.core.vectorData.bind (·.normalizedSize) = some ns)
    (h1 : structuredCenterline node.core.vectorData (some ns) = none)
    (h2 : blobCenterline node.core.vectorData (some ns) blobs ctx = none)
    (hnz : ns.x > 0 ∨ ns.y > 0)
    (hw : node.core.strokeWeight = some w) :
    ∃ d attrs, renderStrokedVector node t blobs ctx = (true, ctx, [.pathE d attrs]) ∧
      (∃ T, d = buildSvgPath (createCenterlineFromNormalizedSize ns) T) ∧
      mapGet attrs "fill" = some (.str "none") ∧
      mapGet attrs "stroke" = some (.str c) ∧
      mapGet attrs "stroke-width" = some (.num w) := by
  simp only [renderStrokedVector, hstroke, hsz, h1, h2]
  rw [if_pos hnz]
  simp only [hw, Option.getD_some, createCenterlineFromNormalizedSize, List.length_cons,
    List.length_nil, buildSvgPath, List.flatMap_cons, List.flatMap_nil, List.cons_append,
    List.nil_append, List.isEmpty_cons, Nat.succ_ne_zero, if_false, Bool.false_eq_true]
  exact ⟨_, _, rfl, ⟨_, rfl⟩, by simp [mapGet], by simp [mapGet], by simp [mapGet]⟩

/-- Witness for C6 at the seeded LINE node (normalizedSize {x:10,y:0},
strokeWeight 2, solid black stroke, no vector network). -/
theorem stroked_vector_diagonal_fallback_witness :
    ∃ d attrs,
      renderStrokedVector lineNode10x0 IDENTITY_TRANSFORM [] {} =
        (true, {}, [.pathE d attrs]) ∧
      (∃ T, d = buildSvgPath (createCenterlineFromNormalizedSize ⟨10, 0⟩) T) ∧
      mapGet attrs "fill" = some (.str "none") ∧
      mapGet attrs "stroke" = some (.str "rgba(0,0,0,1)") ∧
      mapGet attrs "stroke-width" = some (.num 2) :=
  stroked_vector_diagonal_fallback lineNode10x0 IDENTITY_TRANSFORM [] {}
    "rgba(0,0,0,1)" ⟨10, 0⟩ 2 (by with_unfolding_all rfl) rfl
    (by with_unfolding_all rfl) (by with_unfolding_all rfl)
    (by with_unfolding_all decide) rfl

/-! ## C5: vector-network decode guards -/

/-- JS-array indexing hits only list members. -/
theorem ratGet_mem {α : Type} (l : List α) (q : ℚ) (x : α) (h : ratGet l q = some x) :
    x ∈ l := by
  unfold ratGet at h
  split at h
  · exact List.get?_mem h
  · cases h

/-- The endpoint of a segment command is its end vertex's coordinates. -/
theorem segCommand_endpoint (v0 v1 : DVertex) (seg : DSeg) :
    cmdEndpoint (segCommand v0 v1 seg) = some ⟨v1.x, v1.y⟩ := by
  unfold segCommand
  split <;> rfl

/-- A vertex passing the tolerance check lies in the tolerance band. -/
theorem vertex_withinTolerance (ns : Vec2) (v : DVertex)
    (h : ¬vertexOutOfTolerance ns v = true) : withinTolerance ns ⟨v.x, v.y⟩ := by
  simp only [vertexOutOfTolerance, decide_eq_true_eq, not_or, not_lt] at h
  obtain ⟨h1, h2, h3, h4⟩ := h
  exact ⟨h1, h3, h2, h4⟩

/-- Every command the centerline walk emits ends on a vertex of the decoded
network. -/
theorem walkSegments_endpoint (fuel : ℕ) :
    ∀ (vertices : List DVertex) (unused : List DSeg) (current : ℚ) (c : PathCommand),
      c ∈ walkSegments fuel vertices unused current →
      ∀ p : Vec2, cmdEndpoint c = some p → ∃ v ∈ vertices, v.x = p.x ∧ v.y = p.y := by
  induction fuel with
  | zero =>
      intro vertices unused current c hc
      simp [walkSegments] at hc
  | succ k ih =>
      intro vertices unused current c hc p hp
      simp only [walkSegments] at hc
      split at hc
      · split at hc
        · rename_i v0 v1 hv0 hv1
          rcases List.mem_cons.mp hc with hceq | hctail
          · subst hceq
            rw [segCommand_endpoint] at hp
            injection hp with hp
            subst hp
            exact ⟨v1, ratGet_mem _ _ _ hv1, rfl, rfl⟩
          · exact ih vertices _ _ c hctail p hp
        · exact ih vertices _ _ c hc p hp
      · split at hc
        · simp at hc
        · rw [List.mem_append] at hc
          rcases hc with hpre | hbody
          · split at hpre
            · rename_i v hv
              rw [List.mem_singleton] at hpre
              subst hpre
              simp only [cmdEndpoint, List.getD] at hp
              injection hp with hp
              subst hp
              exact ⟨v, ratGet_mem _ _ _ hv, rfl, rfl⟩
            · simp at hpre
          · split at hbody
            · rename_i v0 v1 hv0 hv1
              rcases List.mem_cons.mp hbody with hceq | hctail
              · subst hceq
                rw [segCommand_endpoint] at hp
                injection hp with hp
                subst hp
                exact ⟨v1, ratGet_mem _ _ _ hv1, rfl, rfl⟩
              · exact ih vertices _ _ c hctail p hp
            · exact ih vertices _ _ c hbody p hp

/-- The closing check only ever appends the close command. -/
theorem mem_closeIfLoop (l : List PathCommand) (c : PathCommand)
    (hc : c ∈ closeIfLoop l) : c ∈ l ∨ c = ⟨0, []⟩ := by
  unfold closeIfLoop at hc
  split at hc
  · split at hc
    · dsimp only at hc
      repeat' split at hc
      all_goals first
        | exact Or.inl hc
        | (rw [List.mem_append] at hc
           rcases hc with h | h
           · exact Or.inl h
           · right
             simpa using h)
    · exact Or.inl hc
  · exact Or.inl hc

/-- C5 (amended): the blob decode rejects short blobs and blobs declaring
more than 1000 vertices or segments; the centerline decode rejects networks
with a vertex outside [-2, normalizedSize + 2] on either axis; and on every
accepted decode each command's endpoint lies within the tolerance band (the
cubic control points, unlike the endpoints, are not bounded — see the
counterexample). -/
theorem vector_network_decode_guarded :
    (∀ (bi : ℚ) (blobs : List BlobEntry) (ctx : RenderContext) (blob : BlobEntry),
      ratGet blobs bi = some blob →
      (blob.bytes.length < 12 ∨ 1000 < readUint32LE blob.bytes 0 ∨
        1000 < readUint32LE blob.bytes 4) →
      decodeVectorNetworkBlob (some bi) blobs ctx = none) ∧
    (∀ (network : DecodedVectorNetwork) (ns : Vec2),
      (∃ v ∈ network.vertices, vertexOutOfTolerance ns v = true) →
      createCenterlineFromNetwork network (some ns) = none) ∧
    (∀ (network : DecodedVectorNetwork) (ns : Vec2) (cmds : List PathCommand),
      createCenterlineFromNetwork network (some ns) = some cmds →
      ∀ c ∈ cmds, ∀ p, cmdEndpoint c = some p → withinTolerance ns p) := by
  refine ⟨?_, ?_, ?_⟩
  · intro bi blobs ctx blob hget hbad
    simp only [decodeVectorNetworkBlob, hget]
    rcases hbad with hlen | hcount
    · rw [if_pos hlen]
    · by_cases hlen : blob.bytes.length < 12
      · rw [if_pos hlen]
      · rw [if_neg hlen, if_pos hcount]
  · intro network ns hout
    have hany : network.vertices.any (vertexOutOfTolerance ns) = true :=
      List.any_eq_true.mpr (by
        obtain ⟨v, hv, hvt⟩ := hout
        exact ⟨v, hv, hvt⟩)
    simp [createCenterlineFromNetwork, hany, ite_self]
  · intro network ns cmds hacc c hc p hp
    unfold createCenterlineFromNetwork at hacc
    dsimp only at hacc
    split at hacc
    · cases hacc
    · split at hacc
      · cases hacc
      · split at hacc
        · cases hacc
        · rename_i hnotany
          simp only [List.any_eq_true, not_exists, not_and] at hnotany
          split at hacc
          · cases hacc
          · split at hacc
            · cases hacc
            · rename_i seg0 rest0 startV hstart
              split at hacc
              · injection hacc with hacc
                subst hacc
                rcases mem_closeIfLoop _ _ hc with hc' | hclose
                · rcases List.mem_cons.mp hc' with hM | hwalk
                  · subst hM
                    simp only [cmdEndpoint, List.getD] at hp
                    injection hp with hp
                    subst hp
                    exact vertex_withinTolerance ns startV
                      (hnotany startV (ratGet_mem _ _ _ hstart))
                  · obtain ⟨v, hv, hx, hy⟩ :=
                      walkSegments_endpoint _ _ _ _ c hwalk p hp
                    have := vertex_withinTolerance ns v (hnotany v hv)
                    rw [hx, hy] at this
                    exact this
                · subst hclose
                  simp [cmdEndpoint] at hp
              · cases hacc

/-- Witness for C5: a blob declaring 1001 vertices is rejected; a network
with vertex (-5,0) against normalizedSize (1,1) is rejected; the accepted
straight-segment network's line endpoint (1,0) lies in the band around
(10,10). -/
theorem vector_network_decode_guarded_witness :
    decodeVectorNetworkBlob (some 0) [overCountBlob] {} = none ∧
    createCenterlineFromNetwork outOfBandNetwork (some ⟨1, 1⟩) = none ∧
    withinTolerance ⟨10, 10⟩ ⟨1, 0⟩ := by
  refine ⟨?_, ?_, ?_⟩
  · exact vector_network_decode_guarded.1 0 [overCountBlob] {} overCountBlob
      (by with_unfolding_all rfl) (by with_unfolding_all decide)
  · exact vector_network_decode_guarded.2.1 outOfBandNetwork ⟨1, 1⟩
      ⟨⟨-5, 0⟩, by with_unfolding_all decide, by with_unfolding_all decide⟩
  · exact vector_network_decode_guarded.2.2 inBandNetwork ⟨10, 10⟩
      [⟨1, [0, 0]⟩, ⟨2, [1, 0]⟩] (by with_unfolding_all decide)
      ⟨2, [1, 0]⟩ (by with_unfolding_all decide) ⟨1, 0⟩ (by with_unfolding_all rfl)

/-- Counterexample to C5's bounds consequence as stated: an accepted decode
(vertices (0,0) and (1,0), a start handle of dx = 100, normalizedSize
(10,10)) produces a cubic whose control point pushes the command bounds to
maxX = 100, outside normalizedSize + 2 = 12. -/
theorem centerline_command_bounds_counterexample :
    createCenterlineFromNetwork wildHandleNetwork (some ⟨10, 10⟩) =
      some [⟨1, [0, 0]⟩, ⟨4, [100, 0, 1, 0, 1, 0]⟩] ∧
    computeCommandBounds [⟨1, [0, 0]⟩, ⟨4, [100, 0, 1, 0, 1, 0]⟩] =
      some ⟨0, 0, 100, 0⟩ ∧
    ((10 : ℚ) + 2 < 100) := by
  exact ⟨by with_unfolding_all decide, by with_unfolding_all decide,
    by with_unfolding_all decide⟩

/-! ## C9: id and path indices -/

/-- `nodeKey` on a constructor. -/
theorem nodeKey_mk (core : NodeCore) (children : List Node) :
    nodeKey (Node.mk core children) = formatGUID (some core.guid) := rfl

/-- `treeIds` on a constructor. -/
theorem treeIds_mk (core : NodeCore) (children : List Node) :
    treeIds (Node.mk core children) =
      nodeKey (Node.mk core children) :: treeIdsFor children := by
  simp [treeIds, treeIdsFor, subtreeNodes]

/-- `treeIdsFor` on a cons. -/
theorem treeIdsFor_cons (c : Node) (rest : List Node) :
    treeIdsFor (c :: rest) = treeIds c ++ treeIdsFor rest := by
  simp [treeIds, treeIdsFor, subtreeNodesFor]

/-- A formatted node key is never empty (it contains a colon). -/
theorem nodeKey_ne_empty (n : Node) : nodeKey n ≠ "" := by
  intro h
  have hlen := congrArg String.length h
  simp [nodeKey, formatGUID, String.length_append] at hlen
  exact absurd hlen.1.2 (by decide)

/-- A slash-joined pair is never empty. -/
theorem append_slash_ne_empty (a b : String) : (a ++ "/" ++ b) ≠ "" := by
  intro h
  have hlen := congrArg String.length h
  simp [String.length_append] at hlen
  exact absurd hlen.1.2 (by decide)

mutual

/-- The id-index walk is the preorder fold of `mapSet` over the subtree. -/
theorem walkIdIndex_eq_foldl (idx : List (String × Node)) (n : Node) :
    walkIdIndex idx n =
      (subtreeNodes n).foldl (fun m x => mapSet m (nodeKey x) x) idx := by
  cases n with
  | mk core children =>
      rw [walkIdIndex, walkIdIndexList_eq_foldl, subtreeNodes]
      rfl

theorem walkIdIndexList_eq_foldl (idx : List (String × Node)) (ns : List Node) :
    walkIdIndexList idx ns =
      (subtreeNodesFor ns).foldl (fun m x => mapSet m (nodeKey x) x) idx := by
  cases ns with
  | nil => rfl
  | cons c rest =>
      rw [walkIdIndexList, walkIdIndex_eq_foldl, walkIdIndexList_eq_foldl,
        subtreeNodesFor, List.foldl_append]

end

/-- Folding `mapSet` over keyed values leaves absent keys unchanged. -/
theorem foldl_mapSet_not_mem {α : Type} (key : α → String) (l : List α) :
    ∀ (idx : List (String × α)) (k : String), k ∉ l.map key →
      mapGet (l.foldl (fun m y => mapSet m (key y) y) idx) k = mapGet idx k := by
  induction l with
  | nil => intro idx k _; rfl
  | cons a rest ih =>
      intro idx k h
      simp only [List.map_cons, List.mem_cons, not_or] at h
      rw [List.foldl_cons, ih _ _ h.2, mapGet_mapSet_ne _ _ _ _ (fun he => h.1 he.symm)]

/-- Folding `mapSet` over keyed values with pairwise-distinct keys maps each
value's key to that value. -/
theorem foldl_mapSet_nodup_mem {α : Type} (key : α → String) (l : List α) (x : α) :
    ∀ (idx : List (String × α)), x ∈ l → (l.map key).Nodup →
      mapGet (l.foldl (fun m y => mapSet m (key y) y) idx) (key x) = some x := by
  induction l with
  | nil => intro idx hx _; cases hx
  | cons a rest ih =>
      intro idx hx hnd
      rw [List.map_cons, List.nodup_cons] at hnd
      rcases List.mem_cons.mp hx with rfl | hxr
      · rw [List.foldl_cons, foldl_mapSet_not_mem key rest _ _ hnd.1, mapGet_mapSet_self]
      · rw [List.foldl_cons]
        exact ih _ hxr hnd.2

mutual

/-- The path-index walk touches only keys of the walked subtree. -/
theorem walkPathIndex_preserve (idx : List (String × String)) (n : Node)
    (path k : String) (h : k ∉ treeIds n) :
    mapGet (walkPathIndex idx n path) k = mapGet idx k := by
  cases n with
  | mk core children =>
      rw [treeIds_mk, List.mem_cons, not_or, nodeKey_mk] at h
      rw [walkPathIndex]
      rw [walkPathIndexList_preserve _ _ _ _ h.2,
        mapGet_mapSet_ne _ _ _ _ (fun he => h.1 he.symm)]

theorem walkPathIndexList_preserve (idx : List (String × String)) (ns : List Node)
    (path k : String) (h : k ∉ treeIdsFor ns) :
    mapGet (walkPathIndexList idx ns path) k = mapGet idx k := by
  cases ns with
  | nil => rfl
  | cons c rest =>
      rw [treeIdsFor_cons, List.mem_append, not_or] at h
      rw [walkPathIndexList, walkPathIndexList_preserve _ _ _ _ h.2,
        walkPathIndex_preserve _ _ _ _ h.1]

end

/-- `getLast?` of a cons with a nonempty tail. -/
theorem getLast?_cons_of_ne_nil {α : Type} (a : α) (l : List α) (h : l ≠ []) :
    (a :: l).getLast? = l.getLast? := by
  cases l with
  | nil => cases h rfl
  | cons y ys => rw [List.getLast?_cons_cons]

mutual

/-- The path-index walk records, for every node of the walked subtree, the
walk prefix extended by a nonempty chain of keys from the subtree's root down
to that node. -/
theorem walkPathIndex_spec (n : Node) :
    ∀ (idx : List (String × String)) (path : String), (treeIds n).Nodup →
      ∀ m ∈ subtreeNodes n, ∃ ids : List String,
        ids ≠ [] ∧ (∀ i ∈ ids, i ≠ "") ∧ ids.head? = some (nodeKey n) ∧
        ids.getLast? = some (nodeKey m) ∧
        mapGet (walkPathIndex idx n path) (nodeKey m) = some (joinPath path ids) := by
  cases n with
  | mk core children =>
      intro idx path hnd m hm
      rw [treeIds_mk, List.nodup_cons] at hnd
      rw [subtreeNodes] at hm
      rcases List.mem_cons.mp hm with rfl | hmc
      · refine ⟨[nodeKey (Node.mk core children)], by simp, ?_, rfl, rfl, ?_⟩
        · intro i hi
          rw [List.mem_singleton] at hi
          subst hi
          exact nodeKey_ne_empty _
        · rw [walkPathIndex]
          rw [nodeKey_mk]
          rw [walkPathIndexList_preserve _ _ _ _ (by rw [← nodeKey_mk core children]; exact hnd.1),
            mapGet_mapSet_self]
          rfl
      · obtain ⟨ids, hne, hstr, hlast, hmap⟩ :=
          walkPathIndexList_spec children
            (mapSet idx (formatGUID (some core.guid))
              (appendSeg path (formatGUID (some core.guid))))
            (appendSeg path (formatGUID (some core.guid))) hnd.2 m hmc
        refine ⟨nodeKey (Node.mk core children) :: ids, by simp, ?_, rfl, ?_, ?_⟩
        · intro i hi
          rcases List.mem_cons.mp hi with rfl | hir
          · exact nodeKey_ne_empty _
          · exact hstr i hir
        · rw [getLast?_cons_of_ne_nil _ _ hne]
          exact hlast
        · rw [walkPathIndex]
          rw [show (if path = "" then formatGUID (some core.guid)
              else path ++ "/" ++ formatGUID (some core.guid)) =
              appendSeg path (formatGUID (some core.guid)) from rfl]
          rw [hmap]
          rfl

theorem walkPathIndexList_spec (ns : List Node) :
    ∀ (idx : List (String × String)) (path : String), (treeIdsFor ns).Nodup →
      ∀ m ∈ subtreeNodesFor ns, ∃ ids : List String,
        ids ≠ [] ∧ (∀ i ∈ ids, i ≠ "") ∧ ids.getLast? = some (nodeKey m) ∧
        mapGet (walkPathIndexList idx ns path) (nodeKey m) = some (joinPath path ids) := by
  cases ns with
  | nil =>
      intro idx path _ m hm
      simp [subtreeNodesFor] at hm
  | cons c rest =>
      intro idx path hnd m hm
      rw [treeIdsFor_cons] at hnd
      rw [subtreeNodesFor, List.mem_append] at hm
      rcases hm with hmc | hmr
      · obtain ⟨ids, hne, hstr, _, hlast, hmap⟩ :=
          walkPathIndex_spec c idx path hnd.of_append_left m hmc
        refine ⟨ids, hne, hstr, hlast, ?_⟩
        rw [walkPathIndexList]
        rw [walkPathIndexList_preserve _ _ _ _
          (List.disjoint_of_nodup_append hnd (List.mem_map_of_mem nodeKey hmc))]
        exact hmap
      · obtain ⟨ids, hne, hstr, hlast, hmap⟩ :=
          walkPathIndexList_spec rest (walkPathIndex idx c path) path
            hnd.of_append_right m hmr
        refine ⟨ids, hne, hstr, hlast, ?_⟩
        rw [walkPathIndexList]
        exact hmap

end

/-- A nonempty all-nonempty segment chain started at a nonempty head joins
like the claim's `/`-join. -/
theorem joinPath_cons_eq_slashJoined (rest : List String) :
    ∀ x : String, x ≠ "" → (∀ i ∈ rest, i ≠ "") →
      joinPath x rest = slashJoined (x :: rest) := by
  induction rest with
  | nil => intro x _ _; rfl
  | cons y ys ih =>
      intro x hx hstr
      have hy : y ≠ "" := hstr y (by simp)
      have hys : ∀ i ∈ ys, i ≠ "" := fun i hi => hstr i (by simp [hi])
      have h1 : joinPath x (y :: ys) = joinPath (x ++ "/" ++ y) ys := by
        rw [joinPath, List.foldl_cons]
        rw [show appendSeg x y = x ++ "/" ++ y from by rw [appendSeg, if_neg hx]]
        rfl
      rw [h1, ih (x ++ "/" ++ y) (append_slash_ne_empty x y) hys]
      cases ys with
      | nil => rfl
      | cons z zs =>
          show (x ++ "/" ++ y) ++ "/" ++ slashJoined (z :: zs) =
            x ++ "/" ++ slashJoined (y :: z :: zs)
          rw [show slashJoined (y :: z :: zs) = y ++ "/" ++ slashJoined (z :: zs) from rfl]
          simp [String.append_assoc]

/-- Joining from the empty prefix is the claim's `/`-join. -/
theorem joinPath_empty_eq_slashJoined (ids : List String) (hne : ids ≠ [])
    (hstr : ∀ i ∈ ids, i ≠ "") : joinPath "" ids = slashJoined ids := by
  cases ids with
  | nil => cases hne rfl
  | cons x rest =>
      have h0 : joinPath "" (x :: rest) = joinPath x rest := rfl
      rw [h0, joinPath_cons_eq_slashJoined rest x (hstr x (by simp))
        (fun i hi => hstr i (by simp [hi]))]

/-- C9: in a document tree whose formatted ids are pairwise distinct, the id
index maps every subtree node's key to that exact node, and the path index
maps it to the `/`-joined chain of ids from the root down to that node. -/
theorem node_indices_sound (root : Node) (hnd : (treeIds root).Nodup) :
    ∀ n ∈ subtreeNodes root,
      mapGet (buildNodeIdIndex root) (nodeKey n) = some n ∧
      ∃ ids : List String, ids ≠ [] ∧ ids.head? = some (nodeKey root) ∧
        ids.getLast? = some (nodeKey n) ∧
        mapGet (buildNodePathIndex root) (nodeKey n) = some (slashJoined ids) := by
  intro n hn
  constructor
  · rw [buildNodeIdIndex, walkIdIndex_eq_foldl]
    exact foldl_mapSet_nodup_mem nodeKey (subtreeNodes root) n [] hn hnd
  · obtain ⟨ids, hne, hstr, hhead, hlast, hmap⟩ :=
      walkPathIndex_spec root [] "" hnd n hn
    refine ⟨ids, hne, hhead, hlast, ?_⟩
    rw [buildNodePathIndex, hmap, joinPath_empty_eq_slashJoined ids hne hstr]

/-- Witness for C9 at the three-node example tree, looked up at its leaf. -/
theorem node_indices_sound_witness :
    mapGet (buildNodeIdIndex indexTree) (nodeKey indexLeaf) = some indexLeaf ∧
    ∃ ids : List String, ids ≠ [] ∧ ids.head? = some (nodeKey indexTree) ∧
      ids.getLast? = some (nodeKey indexLeaf) ∧
      mapGet (buildNodePathIndex indexTree) (nodeKey indexLeaf) =
        some (slashJoined ids) := by
  have hmem : indexLeaf ∈ subtreeNodes indexTree := by
    rw [show subtreeNodes indexTree =
      [indexTree,
       Node.mk { guid := ⟨1, 1⟩, type := .CANVAS, name := "Page" } [indexLeaf],
       indexLeaf] from by with_unfolding_all rfl]
    simp
  exact node_indices_sound indexTree (by with_unfolding_all decide) indexLeaf hmem
